import Mathlib

/-!
# PortfolioManager (src/script.js): settings, storage and page state

A shallow embedding of the `PortfolioManager` class of `src/script.js`.

* JavaScript strings are Lean `String`s; `null` and `undefined` are `none`.
* `localStorage` is an association list from keys to string values.
* The JavaScript Number held in `settings.fontSize` is an `Int`: the value that
  `parseInt` reads is taken exactly (a browser rounds it to a double, which is the
  same number whenever its magnitude is below 2^53), and `NaN` is `none`.
* The document is a record of the elements that `cacheElements` looks up, each
  `none` when the lookup returns `null`, together with the parts of their state that
  the class reads or writes (class attributes, checkbox states, text contents,
  inline style properties).
* A DOM call that throws makes the enclosing function return `Except.error`, with the
  error and the state that the function had reached when it threw.
-/

namespace Portfolio

/-! ## Web storage -/

/-- The contents of `localStorage`: string keys with string values. -/
abbrev Storage := List (String × String)

/-- `localStorage.getItem(key)`: the stored string, or `null` (`none`). -/
def getItem : Storage → String → Option String
  | [], _ => none
  | (k, v) :: rest, key => if k = key then some v else getItem rest key

/-- `localStorage.setItem(key, value)`: overwrite the value of an existing key, or
add the key. -/
def setItem : Storage → String → String → Storage
  | [], key, value => [(key, value)]
  | (k, v) :: rest, key, value =>
    if k = key then (k, value) :: rest else (k, v) :: setItem rest key value

/-! ## JavaScript conversions -/

/-- The characters that `parseInt` skips at the start of its input
(ECMAScript `StrWhiteSpaceChar`: white space and line terminators). -/
def isStrWhiteSpace (c : Char) : Bool :=
  let n := c.toNat
  n == 0x9 || n == 0xA || n == 0xB || n == 0xC || n == 0xD || n == 0x20 || n == 0xA0 ||
  n == 0x1680 || (decide (0x2000 ≤ n) && decide (n ≤ 0x200A)) || n == 0x2028 ||
  n == 0x2029 || n == 0x202F || n == 0x205F || n == 0x3000 || n == 0xFEFF

/-- The value of a character as a digit (`0-9`, then `a-z` or `A-Z` for 10 to 35). -/
def digitValue (c : Char) : Option Nat :=
  let n := c.toNat
  if 48 ≤ n ∧ n ≤ 57 then some (n - 48)
  else if 97 ≤ n ∧ n ≤ 122 then some (n - 97 + 10)
  else if 65 ≤ n ∧ n ≤ 90 then some (n - 65 + 10)
  else none

/-- Whether `c` is a digit of radix `R`. -/
def isRadixDigit (R : Nat) (c : Char) : Bool :=
  match digitValue c with
  | some d => decide (d < R)
  | none => false

/-- The number written by a run of radix-`R` digits. -/
def digitsValue (R : Nat) (Z : List Char) : Nat :=
  Z.foldl (fun acc c => acc * R + (digitValue c).getD 0) 0

/-- The sign step of `parseInt`: a leading `-` makes the result negative, and a
leading `+` or `-` is removed. -/
def splitSign : List Char → Bool × List Char
  | '-' :: rest => (true, rest)
  | '+' :: rest => (false, rest)
  | S => (false, S)

/-- The prefix step of `parseInt` when no radix is given: `0x` or `0X` selects
radix 16 and is removed, otherwise the radix is 10. -/
def splitRadix : List Char → Nat × List Char
  | '0' :: 'x' :: rest => (16, rest)
  | '0' :: 'X' :: rest => (16, rest)
  | S => (10, S)

/-- `parseInt(string)` with no radix argument. `none` is `NaN`; `-0` and `0` are
both `some 0`. -/
def parseInt (string : String) : Option Int :=
  let S := string.toList.dropWhile isStrWhiteSpace
  let (negative, S) := splitSign S
  let (R, S) := splitRadix S
  let Z := S.takeWhile (isRadixDigit R)
  if Z.isEmpty then none
  else
    let mathInt : Int := (digitsValue R Z : Nat)
    some (if negative then -mathInt else mathInt)

/-- `ToString` of a value read from storage: `null` becomes the string `null`. -/
def nullableToString : Option String → String
  | none => "null"
  | some s => s

/-- `ToString` of a Number that is an integer below 10^21 in magnitude: its decimal
digits, after `-` when it is negative. (A larger Number is written with an exponent, and a
Number is the integer it was computed from only below 2^53 in magnitude; see
`SafeInteger`.) -/
def numberToString (n : Int) : String :=
  if n < 0 then "-" ++ Nat.repr n.natAbs else Nat.repr n.natAbs

/-- `ToString` of a boolean. -/
def boolToString (b : Bool) : String :=
  if b then "true" else "false"

/-- The expression `a || b` for a nullable string `a`: `null` and the empty string are falsy. -/
def orString (a : Option String) (b : String) : String :=
  match a with
  | none => b
  | some s => if s = "" then b else s

/-- The expression `a || b` for a Number `a`: `NaN` and zero are falsy. -/
def orNumber (a : Option Int) (b : Int) : Int :=
  match a with
  | none => b
  | some n => if n = 0 then b else n

/-! ## The settings object -/

/-- The object `this.settings`. -/
structure Settings where
  theme : String
  fontSize : Int
  enableAnimations : Bool
  reducedMotion : Bool
  highContrast : Bool
  screenReader : Bool
  analytics : Bool
  cookies : Bool
  language : String
  pageWidth : String
  deriving DecidableEq, Repr

/-- The settings literal built by the constructor (lines 5-16) from `localStorage`. -/
def loadSettings (ls : Storage) : Settings where
  theme := orString (getItem ls "theme") "dark"
  fontSize := orNumber (parseInt (nullableToString (getItem ls "fontSize"))) 16
  enableAnimations := decide (getItem ls "enableAnimations" ≠ some "false")
  reducedMotion := decide (getItem ls "reducedMotion" = some "true")
  highContrast := decide (getItem ls "highContrast" = some "true")
  screenReader := decide (getItem ls "screenReader" = some "true")
  analytics := decide (getItem ls "analytics" ≠ some "false")
  cookies := decide (getItem ls "cookies" ≠ some "false")
  language := orString (getItem ls "language") "en"
  pageWidth := orString (getItem ls "pageWidth") "container"

/-- The pairs visited by `Object.keys(this.settings).forEach` in `saveSettings`:
each key with `ToString` of its value, in the order of the object literal. -/
def settingsEntries (s : Settings) : List (String × String) :=
  [("theme", s.theme),
   ("fontSize", numberToString s.fontSize),
   ("enableAnimations", boolToString s.enableAnimations),
   ("reducedMotion", boolToString s.reducedMotion),
   ("highContrast", boolToString s.highContrast),
   ("screenReader", boolToString s.screenReader),
   ("analytics", boolToString s.analytics),
   ("cookies", boolToString s.cookies),
   ("language", s.language),
   ("pageWidth", s.pageWidth)]

/-- `saveSettings()` (lines 659-663): `setItem` for every key of the settings. -/
def saveSettings (s : Settings) (ls : Storage) : Storage :=
  (settingsEntries s).foldl (fun acc kv => setItem acc kv.1 kv.2) ls

/-- The ten storage keys of the settings. -/
def settingsKeys : List String :=
  ["theme", "fontSize", "enableAnimations", "reducedMotion", "highContrast",
   "screenReader", "analytics", "cookies", "language", "pageWidth"]

/-- The defaults of the ten fields. -/
def defaultSettings : Settings where
  theme := "dark"
  fontSize := 16
  enableAnimations := true
  reducedMotion := false
  highContrast := false
  screenReader := false
  analytics := true
  cookies := true
  language := "en"
  pageWidth := "container"

/-! ## Class attributes and `classList` -/

/-- ASCII whitespace, the separator of the tokens of a class attribute
(tab, line feed, form feed, carriage return, space). -/
def isAsciiWhitespace (c : Char) : Bool :=
  let n := c.toNat
  n == 0x9 || n == 0xA || n == 0xC || n == 0xD || n == 0x20

/-- Split on ASCII whitespace: skip whitespace, collect a run of other characters,
repeat. The first argument bounds the number of runs. -/
def splitAsciiWhitespaceAux : Nat → List Char → List (List Char)
  | 0, _ => []
  | fuel + 1, input =>
    match input.dropWhile isAsciiWhitespace with
    | [] => []
    | c :: rest =>
      (c :: rest.takeWhile (fun d => !isAsciiWhitespace d)) ::
        splitAsciiWhitespaceAux fuel (rest.dropWhile (fun d => !isAsciiWhitespace d))

/-- Split a string on ASCII whitespace. -/
def splitAsciiWhitespace (input : List Char) : List (List Char) :=
  splitAsciiWhitespaceAux input.length input

/-- Append a token to an ordered set: nothing happens when it is already there. -/
def setAppend (set : List (List Char)) (token : List Char) : List (List Char) :=
  if token ∈ set then set else set ++ [token]

/-- The token set of a class attribute: its tokens in order, each once. -/
def tokenSet (attr : List Char) : List (List Char) :=
  (splitAsciiWhitespace attr).foldl setAppend []

/-- The ordered set serializer: the tokens joined by one space. -/
def serializeSet (set : List (List Char)) : List Char :=
  List.intercalate [' '] set

/-- Errors thrown by the calls modelled here. -/
inductive JsError where
  | syntaxError
  | invalidCharacterError
  | typeError
  deriving DecidableEq, Repr

/-- An exception that leaves a function: the error, and the state (of kind `σ`) that
the function had reached when the error was thrown. Nothing in the class catches an
exception, so what was written before the `throw` stays written. -/
structure Thrown (σ : Type) where
  error : JsError
  state : σ
  deriving DecidableEq, Repr

/-- The token check of `classList.add`, `remove` and `toggle`: the empty string is
a `SyntaxError`, a token with ASCII whitespace an `InvalidCharacterError`. -/
def validateToken (token : String) : Except JsError Unit :=
  if token.toList.isEmpty then .error .syntaxError
  else if token.toList.any isAsciiWhitespace then .error .invalidCharacterError
  else .ok ()

/-- `element.classList.contains(token)` on an element whose class attribute is `cls`. -/
def classListContains (cls token : String) : Bool :=
  decide (token.toList ∈ tokenSet cls.toList)

/-- The class attribute after `classList.add(token)` for a valid token: the token is
appended to the token set when absent, and the attribute becomes the serialized set. -/
def addToken (cls token : String) : String :=
  String.mk (serializeSet (setAppend (tokenSet cls.toList) token.toList))

/-- The class attribute after `classList.remove(token)` for a valid token. -/
def removeToken (cls token : String) : String :=
  String.mk (serializeSet ((tokenSet cls.toList).filter (fun t => t ≠ token.toList)))

/-- The class attribute after `classList.toggle(token, force)` for a valid token:
nothing is written when the token is already in the forced state. -/
def toggleTokenForce (cls token : String) (force : Bool) : String :=
  if classListContains cls token then
    if force then cls else removeToken cls token
  else
    if force then addToken cls token else cls

/-- The class attribute after `classList.toggle(token)` for a valid token. -/
def toggleToken (cls token : String) : String :=
  if classListContains cls token then removeToken cls token else addToken cls token

/-- `element.classList.add(token)`. -/
def classListAdd (cls token : String) : Except JsError String := do
  validateToken token
  pure (addToken cls token)

/-- The list of classes of a class attribute, as strings. -/
def classesOf (cls : String) : List String :=
  (tokenSet cls.toList).map String.mk

/-! ## The regular expression of `applyPageWidth` -/

/-- The class `\w` of a regular expression without flags: `[A-Za-z0-9_]`. -/
def isWordChar (c : Char) : Bool :=
  c.isAlphanum || c == '_'

/-- Match `/width-\w+/` at the start of the input: the rest of the input after the
longest match, or `none` when there is no match here. -/
def matchWidthHere : List Char → Option (List Char)
  | 'w' :: 'i' :: 'd' :: 't' :: 'h' :: '-' :: c :: rest =>
    if isWordChar c then some (rest.dropWhile isWordChar) else none
  | _ => none

/-- The scan of `replace(/width-\w+/g, '')`: at each position, a match is dropped and
the scan goes on after it, otherwise the character is kept. The first argument bounds
the number of steps. -/
def removeWidthAux : Nat → List Char → List Char
  | 0, input => input
  | _ + 1, [] => []
  | fuel + 1, c :: cs =>
    match matchWidthHere (c :: cs) with
    | some rest => removeWidthAux fuel rest
    | none => c :: removeWidthAux fuel cs

/-- The characters of `string.replace(/width-\w+/g, '')`: the scan, with a step for
every character of the input. -/
def removeWidthChars (input : List Char) : List Char :=
  removeWidthAux input.length input

/-- `string.replace(/width-\w+/g, '')`. -/
def removeWidth (s : String) : String :=
  String.mk (removeWidthChars s.toList)

/-! ## The page -/

/-- A badge element: its text and its inline `display`. (Its inline `animation`, a
decoration, is left out.) -/
structure Badge where
  textContent : String
  display : String
  deriving DecidableEq, Repr

/-- A `select` element: the values of its options and its current value. -/
structure Select where
  options : List String
  value : String
  deriving DecidableEq, Repr

/-- Assigning `select.value`: the first option with that value becomes selected; with
no such option nothing is selected and the value reads as the empty string. -/
def Select.setValue (sel : Select) (v : String) : Select :=
  if v ∈ sel.options then { sel with value := v } else { sel with value := "" }

/-- A navigation link: its `href` attribute and the two inline styles that
`updateNavigationVisibility` writes. -/
structure NavLink where
  href : Option String
  opacity : String
  pointerEvents : String
  deriving DecidableEq, Repr

/-- An element matched by `.settings-item.expandable`: its class attribute, and
whether it contains an `.expand-btn`. -/
structure ExpandableSection where
  className : String
  hasExpandBtn : Bool
  deriving DecidableEq, Repr

/-- The document as the class sees it. An element looked up by `cacheElements` is
`none` (or `false`) when the lookup returns `null`. The looked-up elements are taken to be
distinct from one another and from `body`, and to lie inside `body` (each has a parent
element). -/
structure Page where
  /-- The attribute `document.body.className`. -/
  bodyClass : String
  /-- The inline style `document.documentElement.style.fontSize`. -/
  rootFontSize : String
  /-- The custom property `--animation-speed` of `document.body.style`. -/
  animationSpeed : String
  /-- Whether `#settingsBtn` exists. -/
  settingsBtn : Bool
  /-- The class attribute of `#settingsPanel`. -/
  settingsPanel : Option String
  /-- Whether `#closeSettings` exists. -/
  closeSettings : Bool
  /-- The `checked` state of `#checkbox`, the theme switch. -/
  themeSwitch : Option Bool
  /-- Whether `#decreaseFont` exists. -/
  decreaseFont : Bool
  /-- Whether `#increaseFont` exists. -/
  increaseFont : Bool
  /-- The text of `#currentSize`. -/
  currentSize : Option String
  enableAnimations : Option Bool
  reducedMotion : Option Bool
  highContrast : Option Bool
  screenReader : Option Bool
  analytics : Option Bool
  cookies : Option Bool
  languageSelect : Option Select
  pageWidth : Option Select
  animationBadge : Option Badge
  accessibilityBadge : Option Badge
  privacyBadge : Option Badge
  navLinks : List NavLink
  expandableSections : List ExpandableSection
  deriving DecidableEq, Repr

/-- The fields of a `PortfolioManager` and the world it acts on, once the constructor
has run. The listeners of `setupEventListeners` are registered before `applySettings`
and exist in every state. -/
structure State where
  settings : Settings
  localStorage : Storage
  page : Page
  isMobile : Bool
  isAndroid : Bool
  /-- Whether `init` got past `applySettings` and the constructor returned: only then do
  the observers and the listeners of `orientationchange`, `resize`, `scroll` and touches
  exist (they are registered after `applySettings`, lines 40-42), and only then does
  `window.portfolio` hold the object (line 686). -/
  initialized : Bool
  deriving DecidableEq, Repr

/-! ## Applying the settings (lines 414-479, 602-657) -/

/-- `toggleSettingsPanel(show)` (lines 602-606). -/
def toggleSettingsPanel (p : Page) (reveal : Bool) : Page :=
  match p.settingsPanel with
  | some cls => { p with settingsPanel := some (toggleTokenForce cls "active" reveal) }
  | none => p

/-- `applyTheme()` (lines 424-426). -/
def applyTheme (s : Settings) (p : Page) : Page :=
  { p with bodyClass := toggleTokenForce p.bodyClass "light-mode" (decide (s.theme = "light")) }

/-- `applyFontSize()` (lines 428-433). The inline `font-size` takes a length that is
not negative: assigning any other text to `style.fontSize` leaves the style as it was.
The style reads back digit for digit a length of up to six digits. A browser may round a
longer one or write it with an exponent, which is not modelled: the root font size is
stated below for lengths under 1000000 only. -/
def applyFontSize (s : Settings) (p : Page) : Page :=
  let px := numberToString s.fontSize ++ "px"
  { p with
    rootFontSize := if s.fontSize < 0 then p.rootFontSize else px
    currentSize := p.currentSize.map (fun _ => px) }

/-- `applyAnimationSettings()` (lines 435-439). -/
def applyAnimationSettings (s : Settings) (p : Page) : Page :=
  let speed := if s.enableAnimations then "1" else "0"
  { p with
    animationSpeed := speed
    bodyClass := toggleTokenForce p.bodyClass "reduced-motion" s.reducedMotion }

/-- `applyAccessibilitySettings()` (lines 441-444). -/
def applyAccessibilitySettings (s : Settings) (p : Page) : Page :=
  let cls := toggleTokenForce p.bodyClass "high-contrast" s.highContrast
  { p with bodyClass := toggleTokenForce cls "screen-reader-optimized" s.screenReader }

/-- `applyPageWidth()` (lines 446-449): the class attribute of `body` is rewritten by
the regular expression, then `classList.add` is called. When `classList.add` throws, the
rewritten attribute is in place. -/
def applyPageWidth (s : Settings) (p : Page) : Except (Thrown Page) Page :=
  let replaced := removeWidth p.bodyClass
  match classListAdd replaced ("width-" ++ s.pageWidth) with
  | .error err => .error ⟨err, { p with bodyClass := replaced }⟩
  | .ok cls => .ok { p with bodyClass := cls }

/-- The lookup `this.elements[section + 'Badge']` of `updateBadgeCount`. -/
def badgeElement (p : Page) (sectionName : String) : Option Badge :=
  if sectionName = "animation" then p.animationBadge
  else if sectionName = "accessibility" then p.accessibilityBadge
  else if sectionName = "privacy" then p.privacyBadge
  else none

/-- Write back the badge of a section. -/
def setBadgeElement (p : Page) (sectionName : String) (b : Badge) : Page :=
  if sectionName = "animation" then { p with animationBadge := some b }
  else if sectionName = "accessibility" then { p with accessibilityBadge := some b }
  else if sectionName = "privacy" then { p with privacyBadge := some b }
  else p

/-- The `count` computed by the `switch` of `updateBadgeCount` (lines 625-640). -/
def badgeCount (s : Settings) (sectionName : String) : Nat :=
  if sectionName = "animation" then
    (if s.enableAnimations then 1 else 0) + (if s.reducedMotion then 1 else 0)
  else if sectionName = "accessibility" then
    (if s.highContrast then 1 else 0) + (if s.screenReader then 1 else 0)
  else if sectionName = "privacy" then
    (if s.analytics then 1 else 0) + (if s.cookies then 1 else 0)
  else 0

/-- `updateBadgeCount(section)` (lines 621-651). -/
def updateBadgeCount (s : Settings) (sectionName : String) (p : Page) : Page :=
  match badgeElement p sectionName with
  | none => p
  | some _ =>
    let count := badgeCount s sectionName
    setBadgeElement p sectionName
      { textContent := numberToString count
        display := if count > 0 then "block" else "none" }

/-- `updateAllBadges()` (lines 653-657). -/
def updateAllBadges (s : Settings) (p : Page) : Page :=
  updateBadgeCount s "privacy" (updateBadgeCount s "accessibility" (updateBadgeCount s "animation" p))

/-- `syncSettingsUI()` (lines 451-479). -/
def syncSettingsUI (s : Settings) (p : Page) : Page :=
  { p with
    themeSwitch := p.themeSwitch.map (fun _ => decide (s.theme = "light"))
    enableAnimations := p.enableAnimations.map (fun _ => s.enableAnimations)
    reducedMotion := p.reducedMotion.map (fun _ => s.reducedMotion)
    highContrast := p.highContrast.map (fun _ => s.highContrast)
    screenReader := p.screenReader.map (fun _ => s.screenReader)
    analytics := p.analytics.map (fun _ => s.analytics)
    cookies := p.cookies.map (fun _ => s.cookies)
    languageSelect := p.languageSelect.map (fun sel => sel.setValue s.language)
    pageWidth := p.pageWidth.map (fun sel => sel.setValue s.pageWidth) }

/-- `applySettings()` (lines 414-422). When `applyPageWidth` throws, the four calls
before it have been made and the two after it have not. -/
def applySettings (s : Settings) (p : Page) : Except (Thrown Page) Page := do
  let p := applyTheme s p
  let p := applyFontSize s p
  let p := applyAnimationSettings s p
  let p := applyAccessibilitySettings s p
  let p ← applyPageWidth s p
  let p := updateAllBadges s p
  pure (syncSettingsUI s p)

/-! ## Initialisation (lines 4-132) -/

/-- What the constructor reads from `navigator`, `window` and `screen`. -/
structure Env where
  /-- The user agent matches the pattern of `detectMobile`. -/
  mobileUserAgent : Bool
  /-- The user agent matches `/Android/i`. -/
  androidUserAgent : Bool
  /-- The user agent matches `/Chrome/i`. -/
  chromeUserAgent : Bool
  innerWidth : Int
  /-- The window has the property `ontouchstart`. -/
  touch : Bool
  deriving DecidableEq, Repr

/-- `detectMobile()` (lines 25-29). -/
def detectMobile (env : Env) : Bool :=
  env.mobileUserAgent || decide (env.innerWidth ≤ 768) || env.touch

/-- `detectAndroid()` (lines 31-33). -/
def detectAndroid (env : Env) : Bool :=
  env.androidUserAgent

/-- The class change of `optimizePerformance()` (lines 120-124). -/
def optimizePerformance (st : State) : State :=
  if st.isMobile && !st.settings.enableAnimations then
    { st with page := { st.page with bodyClass := addToken st.page.bodyClass "reduced-motion" } }
  else st

/-- The class changes of `setupAndroidSpecific()` (lines 107-118). -/
def setupAndroidSpecific (env : Env) (st : State) : State :=
  let cls := addToken st.page.bodyClass "android-device"
  let cls := if env.chromeUserAgent && st.isAndroid then addToken cls "android-chrome" else cls
  { st with page := { st.page with bodyClass := cls } }

/-- `initializeMobileOptimizations()` (lines 48-70), without the inline styles and
the listeners it registers. -/
def initializeMobileOptimizations (env : Env) (st : State) : State :=
  let st := if st.isMobile then optimizePerformance st else st
  if st.isAndroid then setupAndroidSpecific env st else st

/-- `init()` (lines 36-45): `cacheElements` is the given page, the listeners are the
handlers below, and the entrance animations and observers change nothing kept here.
When `applySettings` throws, the calls after it are not made. -/
def init (env : Env) (st : State) : Except (Thrown State) State :=
  match applySettings st.settings st.page with
  | .error ⟨err, p⟩ => .error ⟨err, { st with page := p }⟩
  | .ok p => .ok (initializeMobileOptimizations env { st with page := p, initialized := true })

/-- The constructor (lines 4-22), called by the listener of `DOMContentLoaded` (lines
684-687), which stores the object in `window.portfolio` when the constructor returns. -/
def construct (env : Env) (ls : Storage) (p : Page) : Except (Thrown State) State :=
  init env
    { settings := loadSettings ls
      localStorage := ls
      page := p
      isMobile := detectMobile env
      isAndroid := detectAndroid env
      initialized := false }

/-! ## Event listeners (lines 233-411, 134-161, 608-619, 703-707)

Each listener is a function of the state. A listener registered with `?.` on an
element that is `null` does not exist: its function leaves the state as it is, and so
does the function of a listener or observer that `init` registers after `applySettings`
in a state where `applySettings` threw. What a
listener does to inline transforms, transitions and animations of the element that was
clicked or touched, and the particles of `createClickParticles`, is not part of the
state. -/

/-- The click listener of `#settingsBtn` (lines 235-239). -/
def settingsBtnClick (st : State) : State :=
  if st.page.settingsBtn then { st with page := toggleSettingsPanel st.page true } else st

/-- The click listener of `#closeSettings` (lines 241-243). -/
def closeSettingsClick (st : State) : State :=
  if st.page.closeSettings then { st with page := toggleSettingsPanel st.page false } else st

/-- The click listener of `document` registered by `setupSettingsPanel` (lines
249-256), for a click whose target is inside the panel or not, and inside the settings
button or not. With no settings button, `this.elements.settingsBtn.contains` is a call
on `null`. -/
def documentClick (targetInPanel targetInBtn : Bool) (st : State) :
    Except (Thrown State) State :=
  match st.page.settingsPanel with
  | none => pure st
  | some cls =>
    if targetInPanel then pure st
    else if !st.page.settingsBtn then throw ⟨.typeError, st⟩
    else if targetInBtn then pure st
    else if classListContains cls "active" then
      pure { st with page := toggleSettingsPanel st.page false }
    else pure st

/-- `forEach` over the expandable sections, with the index of each. -/
def forEachSection (f : Nat → ExpandableSection → ExpandableSection) :
    Nat → List ExpandableSection → List ExpandableSection
  | _, [] => []
  | j, sec :: rest => f j sec :: forEachSection f (j + 1) rest

/-- The click listener of the expand button of section `i` (lines 270-285): every
other section loses `expanded`, then section `i` is toggled. -/
def expandBtnClick (i : Nat) (st : State) : State :=
  match st.page.expandableSections.get? i with
  | none => st
  | some sec =>
    if sec.hasExpandBtn then
      let closed := forEachSection
        (fun j other =>
          if j ≠ i then { other with className := removeToken other.className "expanded" }
          else other) 0 st.page.expandableSections
      let toggled := forEachSection
        (fun j cur =>
          if j = i then { cur with className := toggleToken cur.className "expanded" }
          else cur) 0 closed
      { st with page := { st.page with expandableSections := toggled } }
    else st

/-- The change listener of the theme switch (lines 290-295). -/
def themeSwitchChange (st : State) : State :=
  match st.page.themeSwitch with
  | none => st
  | some checked =>
    let settings := { st.settings with theme := if checked then "light" else "dark" }
    { st with
      settings := settings
      page := applyTheme settings st.page
      localStorage := saveSettings settings st.localStorage }

/-- The click listener of `#decreaseFont` (lines 299-306). -/
def decreaseFontClick (st : State) : State :=
  if st.page.decreaseFont then
    if st.settings.fontSize > 12 then
      let settings := { st.settings with fontSize := st.settings.fontSize - 2 }
      { st with
        settings := settings
        page := applyFontSize settings st.page
        localStorage := saveSettings settings st.localStorage }
    else st
  else st

/-- The click listener of `#increaseFont` (lines 308-315). -/
def increaseFontClick (st : State) : State :=
  if st.page.increaseFont then
    if st.settings.fontSize < 24 then
      let settings := { st.settings with fontSize := st.settings.fontSize + 2 }
      { st with
        settings := settings
        page := applyFontSize settings st.page
        localStorage := saveSettings settings st.localStorage }
    else st
  else st

/-- The change listener of `#enableAnimations` (lines 320-325). -/
def enableAnimationsChange (st : State) : State :=
  match st.page.enableAnimations with
  | none => st
  | some checked =>
    let settings := { st.settings with enableAnimations := checked }
    { st with
      settings := settings
      page := updateBadgeCount settings "animation" (applyAnimationSettings settings st.page)
      localStorage := saveSettings settings st.localStorage }

/-- The change listener of `#reducedMotion` (lines 327-332). -/
def reducedMotionChange (st : State) : State :=
  match st.page.reducedMotion with
  | none => st
  | some checked =>
    let settings := { st.settings with reducedMotion := checked }
    { st with
      settings := settings
      page := updateBadgeCount settings "animation" (applyAnimationSettings settings st.page)
      localStorage := saveSettings settings st.localStorage }

/-- The change listener of `#highContrast` (lines 335-340). -/
def highContrastChange (st : State) : State :=
  match st.page.highContrast with
  | none => st
  | some checked =>
    let settings := { st.settings with highContrast := checked }
    { st with
      settings := settings
      page := updateBadgeCount settings "accessibility"
        (applyAccessibilitySettings settings st.page)
      localStorage := saveSettings settings st.localStorage }

/-- The change listener of `#screenReader` (lines 342-347). -/
def screenReaderChange (st : State) : State :=
  match st.page.screenReader with
  | none => st
  | some checked =>
    let settings := { st.settings with screenReader := checked }
    { st with
      settings := settings
      page := updateBadgeCount settings "accessibility"
        (applyAccessibilitySettings settings st.page)
      localStorage := saveSettings settings st.localStorage }

/-- The change listener of `#analytics` (lines 350-355). -/
def analyticsChange (st : State) : State :=
  match st.page.analytics with
  | none => st
  | some checked =>
    let settings := { st.settings with analytics := checked }
    { st with
      settings := settings
      page := updateBadgeCount settings "privacy" st.page
      localStorage := saveSettings settings st.localStorage }

/-- The change listener of `#cookies` (lines 357-362). -/
def cookiesChange (st : State) : State :=
  match st.page.cookies with
  | none => st
  | some checked =>
    let settings := { st.settings with cookies := checked }
    { st with
      settings := settings
      page := updateBadgeCount settings "privacy" st.page
      localStorage := saveSettings settings st.localStorage }

/-- The change listener of `#languageSelect` (lines 365-369). -/
def languageSelectChange (st : State) : State :=
  match st.page.languageSelect with
  | none => st
  | some sel =>
    let settings := { st.settings with language := sel.value }
    { st with settings := settings, localStorage := saveSettings settings st.localStorage }

/-- The change listener of `#pageWidth` (lines 371-375). When `applyPageWidth` throws,
`settings.pageWidth` has been assigned and `saveSettings` is not reached. -/
def pageWidthChange (st : State) : Except (Thrown State) State :=
  match st.page.pageWidth with
  | none => pure st
  | some sel =>
    let settings := { st.settings with pageWidth := sel.value }
    match applyPageWidth settings st.page with
    | .error ⟨err, p⟩ => .error ⟨err, { st with settings := settings, page := p }⟩
    | .ok p =>
      .ok { st with
        settings := settings
        page := p
        localStorage := saveSettings settings st.localStorage }

/-- The class changes of `handleOrientationChange()` (lines 134-147), run by the timer of the
`orientationchange` listener, with the value of `window.orientation || 0`. The two tokens
of `classList.remove('portrait', 'landscape')` are removed one after the other, which
leaves the same class attribute. -/
def handleOrientationChange (orientation : Int) (st : State) : State :=
  let cls := removeToken (removeToken st.page.bodyClass "portrait") "landscape"
  let cls := addToken cls (if orientation.natAbs = 90 then "landscape" else "portrait")
  let p := { st.page with bodyClass := cls }
  match p.settingsPanel with
  | some panel =>
    if classListContains panel "active" then { st with page := toggleSettingsPanel p false }
    else { st with page := p }
  | none => { st with page := p }

/-- `handleViewportChange()` (lines 149-161), run by the debounced `resize` listener,
with `window.innerHeight` and `screen.height`. -/
def handleViewportChange (innerHeight screenHeight : Int) (st : State) : State :=
  if st.isAndroid then
    if 4 * innerHeight < 3 * screenHeight then
      { st with page := { st.page with bodyClass := addToken st.page.bodyClass "keyboard-visible" } }
    else
      { st with page := { st.page with bodyClass := removeToken st.page.bodyClass "keyboard-visible" } }
  else st

/-- The test `href.substring(1) === activeId`. `substring(1)` drops one UTF-16 code
unit: of a first character outside the Basic Multilingual Plane it leaves the second
half, a lone surrogate, with which no id that is a sequence of characters begins. -/
def substringOneEq (href activeId : String) : Bool :=
  match href.toList with
  | [] => decide (activeId = "")
  | c :: rest => if c.toNat < 0x10000 then decide (String.mk rest = activeId) else false

/-- The body of the `forEach` of `updateNavigationVisibility` (lines 610-617). A link
with no `href` makes `getAttribute` return `null`, and `substring` is then a call on `null`. -/
def navLinkVisibility (activeId : String) (link : NavLink) : Except JsError NavLink :=
  match link.href with
  | none => throw .typeError
  | some href =>
    if substringOneEq href activeId then
      pure { link with opacity := "0.5", pointerEvents := "none" }
    else
      pure { link with opacity := "1", pointerEvents := "auto" }

/-- The `forEach` of `updateNavigationVisibility` over the links: when the body throws
at a link, the links before it have been written and the others have not. -/
def forEachNavLink (activeId : String) : List NavLink → Except (Thrown (List NavLink)) (List NavLink)
  | [] => .ok []
  | link :: rest =>
    match navLinkVisibility activeId link with
    | .error err => .error ⟨err, link :: rest⟩
    | .ok written =>
      match forEachNavLink activeId rest with
      | .error ⟨err, links⟩ => .error ⟨err, written :: links⟩
      | .ok links => .ok (written :: links)

/-- `updateNavigationVisibility(activeId)` (lines 608-619), called by the observer of
`initializeScrollEffects`. -/
def updateNavigationVisibility (activeId : String) (st : State) :
    Except (Thrown State) State :=
  match forEachNavLink activeId st.page.navLinks with
  | .error ⟨err, links⟩ => .error ⟨err, { st with page := { st.page with navLinks := links } }⟩
  | .ok links => .ok { st with page := { st.page with navLinks := links } }

/-- The `keydown` listener of `document` (lines 703-707), registered outside the class:
`window.portfolio?.toggleSettingsPanel(false)` does nothing while `window.portfolio` is
undefined. -/
def keydown (key : String) (st : State) : State :=
  if key = "Escape" then
    if st.initialized then { st with page := toggleSettingsPanel st.page false } else st
  else st

/-- The listeners of the page and the timers they start, one constructor each. -/
inductive Event where
  | settingsBtnClick
  | closeSettingsClick
  | documentClick (targetInPanel targetInBtn : Bool)
  | settingsPanelClick
  | expandBtnClick (i : Nat)
  | themeSwitchChange
  | decreaseFontClick
  | increaseFontClick
  | enableAnimationsChange
  | reducedMotionChange
  | highContrastChange
  | screenReaderChange
  | analyticsChange
  | cookiesChange
  | languageSelectChange
  | pageWidthChange
  | navLinkClick (i : Nat) (selectorParses : Bool)
  | navLinkMouseEnter (i : Nat)
  | logoContainerClick
  | orientationChangeTimer (orientation : Int)
  | resizeTimer (innerHeight screenHeight : Int)
  | keydown (key : String)
  | sectionRevealed (i : Nat)
  | sectionActive (activeId : String)
  | scrollTimer
  | touchStart
  | touchEnd
  | mouseMove
  deriving DecidableEq, Repr

/-- Run the listener of an event. The listeners of `settingsPanelClick` (lines
259-261), `navLinkClick` and `navLinkMouseEnter` (lines 381-398), `logoContainerClick`
(lines 404-406, 695-700), `sectionRevealed` (lines 491-497) and of touches and mouse
moves write only inline styles, scroll positions and the `visible` class of content
sections, none of which is part of the state. The listener of `navLinkClick` passes the
`href` of the link to `document.querySelector`, which throws a `SyntaxError` when the
string does not parse as a selector; whether it parses comes with the event. The timer
of the debounced `scroll` listener, which exists on a mobile device only (lines
127-131), calls `this.handleScroll`, a method the class does not have. The timers of
`orientationchange`, `resize` and `scroll`, the observers and the touch listeners are
registered by `init` after `applySettings` (lines 40-42). -/
def handle (e : Event) (st : State) : Except (Thrown State) State :=
  match e with
  | .settingsBtnClick => pure (settingsBtnClick st)
  | .closeSettingsClick => pure (closeSettingsClick st)
  | .documentClick inPanel inBtn => documentClick inPanel inBtn st
  | .settingsPanelClick => pure st
  | .expandBtnClick i => pure (expandBtnClick i st)
  | .themeSwitchChange => pure (themeSwitchChange st)
  | .decreaseFontClick => pure (decreaseFontClick st)
  | .increaseFontClick => pure (increaseFontClick st)
  | .enableAnimationsChange => pure (enableAnimationsChange st)
  | .reducedMotionChange => pure (reducedMotionChange st)
  | .highContrastChange => pure (highContrastChange st)
  | .screenReaderChange => pure (screenReaderChange st)
  | .analyticsChange => pure (analyticsChange st)
  | .cookiesChange => pure (cookiesChange st)
  | .languageSelectChange => pure (languageSelectChange st)
  | .pageWidthChange => pageWidthChange st
  | .navLinkClick _ selectorParses =>
    if selectorParses then pure st else throw ⟨.syntaxError, st⟩
  | .navLinkMouseEnter _ => pure st
  | .logoContainerClick => pure st
  | .orientationChangeTimer orientation =>
    if st.initialized then pure (handleOrientationChange orientation st) else pure st
  | .resizeTimer innerHeight screenHeight =>
    if st.initialized then pure (handleViewportChange innerHeight screenHeight st) else pure st
  | .keydown key => pure (keydown key st)
  | .sectionRevealed _ => pure st
  | .sectionActive activeId =>
    if st.initialized then updateNavigationVisibility activeId st else pure st
  | .scrollTimer => if st.initialized && st.isMobile then throw ⟨.typeError, st⟩ else pure st
  | .touchStart => pure st
  | .touchEnd => pure st
  | .mouseMove => pure st

/-! ## Domains of the fields -/

/-- The domain of `theme`. -/
def ThemeInDomain (theme : String) : Prop :=
  theme = "dark" ∨ theme = "light"

/-- The domain of `fontSize`: the even integers from 12 to 24. -/
def FontSizeInDomain (n : Int) : Prop :=
  12 ≤ n ∧ n ≤ 24 ∧ n % 2 = 0

/-- A valid set of settings: `theme` and `fontSize` are in their domains. -/
def ValidSettings (s : Settings) : Prop :=
  ThemeInDomain s.theme ∧ FontSizeInDomain s.fontSize

instance (theme : String) : Decidable (ThemeInDomain theme) := by
  unfold ThemeInDomain; infer_instance

instance (n : Int) : Decidable (FontSizeInDomain n) := by
  unfold FontSizeInDomain; infer_instance

instance (s : Settings) : Decidable (ValidSettings s) := by
  unfold ValidSettings; infer_instance

/-! ## Sequences of font clicks -/

/-- A click on one of the two font buttons. -/
inductive FontClick where
  | decrease
  | increase
  deriving DecidableEq, Repr

/-- The listener run by a font click. -/
def fontClick (c : FontClick) (st : State) : State :=
  match c with
  | .decrease => decreaseFontClick st
  | .increase => increaseFontClick st

/-- The state after a sequence of font clicks. -/
def fontClicks (clicks : List FontClick) (st : State) : State :=
  clicks.foldl (fun acc c => fontClick c acc) st

/-- The persisted font size is the decimal string of a value of the domain. -/
def PersistedFontSizeInDomain (ls : Storage) : Prop :=
  ∃ n : Int, FontSizeInDomain n ∧ getItem ls "fontSize" = some (numberToString n)

/-! ## Badge counts as the specification words them -/

/-- The two boolean fields that the specification associates with a section. -/
def sectionFields (s : Settings) (sectionName : String) : List Bool :=
  if sectionName = "animation" then [s.enableAnimations, s.reducedMotion]
  else if sectionName = "accessibility" then [s.highContrast, s.screenReader]
  else if sectionName = "privacy" then [s.analytics, s.cookies]
  else []

/-- The number of the fields of a section that are true. -/
def enabledCount (s : Settings) (sectionName : String) : Nat :=
  (sectionFields s sectionName).count true

/-! ## A sample page -/

/-- A page on which every looked-up element exists, before the script runs. -/
def samplePage : Page where
  bodyClass := "home"
  rootFontSize := ""
  animationSpeed := ""
  settingsBtn := true
  settingsPanel := some "settings-panel"
  closeSettings := true
  themeSwitch := some false
  decreaseFont := true
  increaseFont := true
  currentSize := some "16px"
  enableAnimations := some true
  reducedMotion := some false
  highContrast := some false
  screenReader := some false
  analytics := some true
  cookies := some true
  languageSelect := some ⟨["en", "fr"], "en"⟩
  pageWidth := some ⟨["container", "wide", "full"], "container"⟩
  animationBadge := some ⟨"", ""⟩
  accessibilityBadge := some ⟨"", ""⟩
  privacyBadge := some ⟨"", ""⟩
  navLinks := [⟨some "#about", "", ""⟩, ⟨some "#projects", "", ""⟩]
  expandableSections :=
    [⟨"settings-item expandable", true⟩, ⟨"settings-item expandable expanded", true⟩,
     ⟨"settings-item expandable", true⟩]

/-- A desktop browser. -/
def desktopEnv : Env where
  mobileUserAgent := false
  androidUserAgent := false
  chromeUserAgent := true
  innerWidth := 1280
  touch := false

/-- A phone that is not an Android device. -/
def phoneEnv : Env where
  mobileUserAgent := true
  androidUserAgent := false
  chromeUserAgent := false
  innerWidth := 390
  touch := true

/-- A state with given settings on the sample page of a desktop browser, the
constructor having returned. -/
def sampleState (s : Settings) : State where
  settings := s
  localStorage := []
  page := samplePage
  isMobile := false
  isAndroid := false
  initialized := true

/-! ## Valid tokens -/

/-- A token of a class attribute: not empty and without ASCII whitespace. -/
def ValidToken (t : List Char) : Prop :=
  t ≠ [] ∧ ∀ c ∈ t, isAsciiWhitespace c = false

instance (t : List Char) : Decidable (ValidToken t) := by
  unfold ValidToken; infer_instance

/-! ## Observations of the page -/

/-- Whether an expandable section is expanded: its class list contains `expanded`. -/
def ExpandableSection.expanded (sec : ExpandableSection) : Bool :=
  classListContains sec.className "expanded"

/-- Whether the settings panel is open: it exists and its class list contains `active`. -/
def panelOpen (st : State) : Bool :=
  match st.page.settingsPanel with
  | some cls => classListContains cls "active"
  | none => false

/-- The state after a listener has run, whether it returned or threw. -/
def stateAfter (r : Except (Thrown State) State) : State :=
  match r with
  | .ok st => st
  | .error thrown => thrown.state

/-- The listeners that call `toggleSettingsPanel` when they exist, with the only click
on `document` that gets past the two `contains` tests. -/
def Event.togglesPanel : Event → Bool
  | .settingsBtnClick => true
  | .closeSettingsClick => true
  | .documentClick targetInPanel targetInBtn => !targetInPanel && !targetInBtn
  | .orientationChangeTimer _ => true
  | .keydown key => decide (key = "Escape")
  | _ => false

/-! ## Toggling a boolean field -/

/-- The six boolean fields. -/
inductive BoolField where
  | enableAnimations
  | reducedMotion
  | highContrast
  | screenReader
  | analytics
  | cookies
  deriving DecidableEq, Repr

/-- The user flips the checkbox of a field (nothing happens without the checkbox). -/
def flipCheckbox (f : BoolField) (p : Page) : Page :=
  match f with
  | .enableAnimations => { p with enableAnimations := p.enableAnimations.map not }
  | .reducedMotion => { p with reducedMotion := p.reducedMotion.map not }
  | .highContrast => { p with highContrast := p.highContrast.map not }
  | .screenReader => { p with screenReader := p.screenReader.map not }
  | .analytics => { p with analytics := p.analytics.map not }
  | .cookies => { p with cookies := p.cookies.map not }

/-- The change listener of the checkbox of a field. -/
def changeListener (f : BoolField) (st : State) : State :=
  match f with
  | .enableAnimations => enableAnimationsChange st
  | .reducedMotion => reducedMotionChange st
  | .highContrast => highContrastChange st
  | .screenReader => screenReaderChange st
  | .analytics => analyticsChange st
  | .cookies => cookiesChange st

/-- The checkbox of a field is flipped and its change listener runs. -/
def toggleField (f : BoolField) (st : State) : State :=
  changeListener f { st with page := flipCheckbox f st.page }

/-- The page state that the settings are applied to: the four classes of `body`, the
animation speed, and the three badges. -/
structure AppliedState where
  lightMode : Bool
  reducedMotion : Bool
  highContrast : Bool
  screenReaderOptimized : Bool
  animationSpeed : String
  animationBadge : Option Badge
  accessibilityBadge : Option Badge
  privacyBadge : Option Badge
  deriving DecidableEq, Repr

/-- The applied state of a page. -/
def appliedState (p : Page) : AppliedState where
  lightMode := classListContains p.bodyClass "light-mode"
  reducedMotion := classListContains p.bodyClass "reduced-motion"
  highContrast := classListContains p.bodyClass "high-contrast"
  screenReaderOptimized := classListContains p.bodyClass "screen-reader-optimized"
  animationSpeed := p.animationSpeed
  animationBadge := p.animationBadge
  accessibilityBadge := p.accessibilityBadge
  privacyBadge := p.privacyBadge

/-! ## Class attributes on which the regular expression removes whole classes -/

/-- A width class: a token that `/width-\w+/` matches from its first to its last
character, that is `width-` followed by one or more word characters. -/
def isWidthClass (t : List Char) : Bool :=
  matchWidthHere t == some []

/-- Whether `/width-\w+/` matches somewhere inside the token. -/
def hasWidthMatch (t : List Char) : Bool :=
  t.tails.any (fun u => (matchWidthHere u).isSome)

/-- A token that the regular expression removes whole or leaves whole. -/
def WellFormedToken (t : List Char) : Prop :=
  isWidthClass t = true ∨ hasWidthMatch t = false

/-- A class attribute all of whose classes are removed whole or left whole. -/
def WellFormedClasses (cls : String) : Prop :=
  ∀ t ∈ tokenSet cls.toList, WellFormedToken t

instance (t : List Char) : Decidable (WellFormedToken t) := by
  unfold WellFormedToken; infer_instance

instance (cls : String) : Decidable (WellFormedClasses cls) := by
  unfold WellFormedClasses; infer_instance

/-! ## The result of `applySettings`, field by field -/

/-- The class attribute of `body` after the four `toggle` calls of `applyTheme`,
`applyAnimationSettings` and `applyAccessibilitySettings`. -/
def toggledClasses (s : Settings) (cls : String) : String :=
  toggleTokenForce
    (toggleTokenForce
      (toggleTokenForce
        (toggleTokenForce cls "light-mode" (decide (s.theme = "light")))
        "reduced-motion" s.reducedMotion)
      "high-contrast" s.highContrast)
    "screen-reader-optimized" s.screenReader

/-- The badge that `updateBadgeCount` writes for a section. -/
def badgeFor (s : Settings) (sectionName : String) : Badge where
  textContent := numberToString (badgeCount s sectionName)
  display := if badgeCount s sectionName > 0 then "block" else "none"

/-- The page after a call of `applySettings` that completes, written as one record. -/
def appliedPage (s : Settings) (p : Page) : Page :=
  { p with
    bodyClass := addToken (removeWidth (toggledClasses s p.bodyClass)) ("width-" ++ s.pageWidth)
    rootFontSize :=
      if s.fontSize < 0 then p.rootFontSize else numberToString s.fontSize ++ "px"
    animationSpeed := if s.enableAnimations then "1" else "0"
    currentSize := p.currentSize.map (fun _ => numberToString s.fontSize ++ "px")
    themeSwitch := p.themeSwitch.map (fun _ => decide (s.theme = "light"))
    enableAnimations := p.enableAnimations.map (fun _ => s.enableAnimations)
    reducedMotion := p.reducedMotion.map (fun _ => s.reducedMotion)
    highContrast := p.highContrast.map (fun _ => s.highContrast)
    screenReader := p.screenReader.map (fun _ => s.screenReader)
    analytics := p.analytics.map (fun _ => s.analytics)
    cookies := p.cookies.map (fun _ => s.cookies)
    languageSelect := p.languageSelect.map (fun sel => sel.setValue s.language)
    pageWidth := p.pageWidth.map (fun sel => sel.setValue s.pageWidth)
    animationBadge := p.animationBadge.map (fun _ => badgeFor s "animation")
    accessibilityBadge := p.accessibilityBadge.map (fun _ => badgeFor s "accessibility")
    privacyBadge := p.privacyBadge.map (fun _ => badgeFor s "privacy") }

/-- The page agrees with the settings in everything that the change listeners of the
boolean fields write or read: the three classes, the animation speed, the badges and the
checkboxes. -/
def InSync (st : State) : Prop :=
  classListContains st.page.bodyClass "reduced-motion" = st.settings.reducedMotion ∧
  classListContains st.page.bodyClass "high-contrast" = st.settings.highContrast ∧
  classListContains st.page.bodyClass "screen-reader-optimized" = st.settings.screenReader ∧
  st.page.animationSpeed = (if st.settings.enableAnimations then "1" else "0") ∧
  (∀ b, st.page.animationBadge = some b → b = badgeFor st.settings "animation") ∧
  (∀ b, st.page.accessibilityBadge = some b → b = badgeFor st.settings "accessibility") ∧
  (∀ b, st.page.privacyBadge = some b → b = badgeFor st.settings "privacy") ∧
  (∀ c, st.page.enableAnimations = some c → c = st.settings.enableAnimations) ∧
  (∀ c, st.page.reducedMotion = some c → c = st.settings.reducedMotion) ∧
  (∀ c, st.page.highContrast = some c → c = st.settings.highContrast) ∧
  (∀ c, st.page.screenReader = some c → c = st.settings.screenReader) ∧
  (∀ c, st.page.analytics = some c → c = st.settings.analytics) ∧
  (∀ c, st.page.cookies = some c → c = st.settings.cookies)

/-! ## Persisted settings -/

/-- The listeners that write to `this.settings`: the theme switch, the two font buttons,
the six checkboxes and the two selects. -/
def Event.isPreferenceChange : Event → Bool
  | .themeSwitchChange => true
  | .decreaseFontClick => true
  | .increaseFontClick => true
  | .enableAnimationsChange => true
  | .reducedMotionChange => true
  | .highContrastChange => true
  | .screenReaderChange => true
  | .analyticsChange => true
  | .cookiesChange => true
  | .languageSelectChange => true
  | .pageWidthChange => true
  | _ => false

/-- The integers that a Number holds exactly, with every sum and difference of two of
them taken by the class: those below 2^53 in magnitude. `ToString` writes each of them in
decimal digits. -/
def SafeInteger (n : Int) : Prop :=
  -(2 ^ 53) < n ∧ n < 2 ^ 53

instance (n : Int) : Decidable (SafeInteger n) := by
  unfold SafeInteger; infer_instance

/-- The string forms as the specification words them: storage holds each string field
as it is, each boolean field as `true` or `false`, and the font size as its decimal
string, under the ten keys. -/
def Persisted (st : State) : Prop :=
  getItem st.localStorage "theme" = some st.settings.theme ∧
  getItem st.localStorage "fontSize" = some (Int.repr st.settings.fontSize) ∧
  getItem st.localStorage "enableAnimations" =
    some (if st.settings.enableAnimations then "true" else "false") ∧
  getItem st.localStorage "reducedMotion" =
    some (if st.settings.reducedMotion then "true" else "false") ∧
  getItem st.localStorage "highContrast" =
    some (if st.settings.highContrast then "true" else "false") ∧
  getItem st.localStorage "screenReader" =
    some (if st.settings.screenReader then "true" else "false") ∧
  getItem st.localStorage "analytics" =
    some (if st.settings.analytics then "true" else "false") ∧
  getItem st.localStorage "cookies" = some (if st.settings.cookies then "true" else "false") ∧
  getItem st.localStorage "language" = some st.settings.language ∧
  getItem st.localStorage "pageWidth" = some st.settings.pageWidth

instance (st : State) : Decidable (Persisted st) := by
  unfold Persisted; infer_instance

/-- The string has a character of ASCII whitespace. -/
def HasWhitespace (v : String) : Prop :=
  ∃ c ∈ v.toList, isAsciiWhitespace c = true

instance (v : String) : Decidable (HasWhitespace v) := by
  unfold HasWhitespace; infer_instance

/-! ## A page without the looked-up elements -/

/-- A page on which every lookup of `cacheElements` returns `null` or an empty list. -/
def emptyPage : Page where
  bodyClass := ""
  rootFontSize := ""
  animationSpeed := ""
  settingsBtn := false
  settingsPanel := none
  closeSettings := false
  themeSwitch := none
  decreaseFont := false
  increaseFont := false
  currentSize := none
  enableAnimations := none
  reducedMotion := none
  highContrast := none
  screenReader := none
  analytics := none
  cookies := none
  languageSelect := none
  pageWidth := none
  animationBadge := none
  accessibilityBadge := none
  privacyBadge := none
  navLinks := []
  expandableSections := []

/-! ## `debounce` (lines 163-173) and the timers of the event loop

Time is counted in milliseconds. The browser runs a timer when the clock reaches the
delay asked for, or later when it is busy, and never earlier: by how much it is late is
an input of the model, and 0 for a browser that is on time. -/

/-- A timer set by `setTimeout(later, wait)` and neither run nor cleared yet: its id,
the time at which the browser runs it, and the `args` that its `later` holds. -/
structure Timer (α : Type) where
  id : Nat
  due : Nat
  args : α
  deriving DecidableEq, Repr

/-- A function returned by `debounce(func, wait)`, with what it acts on: the variable
`timeout` of its closure (`none` while undefined), the timers it has pending, the next
id that `setTimeout` hands out, and the calls of `func` made so far, oldest first, each
with its time and its arguments. -/
structure Debounced (α : Type) where
  wait : Nat
  timeout : Option Nat
  pending : List (Timer α)
  nextId : Nat
  invocations : List (Nat × α)
  deriving DecidableEq, Repr

/-- `debounce(func, wait)`: a new closure, with `timeout` undefined. -/
def debounce {α : Type} (wait : Nat) : Debounced α where
  wait := wait
  timeout := none
  pending := []
  nextId := 1
  invocations := []

/-- `clearTimeout(timeout)`: the timer with that id, if pending, is dropped. -/
def clearTimeout {α : Type} (timeout : Option Nat) (pending : List (Timer α)) :
    List (Timer α) :=
  match timeout with
  | none => pending
  | some i => pending.filter (fun t => t.id ≠ i)

/-- `executedFunction(...args)` called at time `now` (lines 165-172): the pending
timer is cleared and a new one is set, which the browser will run `lag` milliseconds
after the delay `wait`. -/
def executedFunctionLate {α : Type} (now lag : Nat) (args : α) (d : Debounced α) :
    Debounced α :=
  { d with
    pending := clearTimeout d.timeout d.pending ++ [⟨d.nextId, now + d.wait + lag, args⟩]
    timeout := some d.nextId
    nextId := d.nextId + 1 }

/-- `executedFunction(...args)` called at time `now` in a browser that is on time. -/
def executedFunction {α : Type} (now : Nat) (args : α) (d : Debounced α) : Debounced α :=
  executedFunctionLate now 0 args d

/-- `later()` run at time `now` for the call that had the arguments `args` (lines
166-169): `clearTimeout(timeout)`, then `func.apply(this, args)`. -/
def later {α : Type} (now : Nat) (args : α) (d : Debounced α) : Debounced α :=
  { d with
    pending := clearTimeout d.timeout d.pending
    invocations := d.invocations ++ [(now, args)] }

/-- The timer that is due first in a list, the one set first among equals. -/
def earliest {α : Type} : List (Timer α) → Option (Timer α)
  | [] => none
  | t :: rest =>
    match earliest rest with
    | some u => if u.due < t.due then some u else some t
    | none => some t

/-- The timer that the event loop runs next when the clock is at `now`. -/
def nextTimer {α : Type} (now : Nat) (pending : List (Timer α)) : Option (Timer α) :=
  earliest (pending.filter (fun t => t.due ≤ now))

/-- The event loop up to time `now`: as long as a pending timer is due, the one due
first leaves the list of timers and its `later` runs, at the time at which it is due.
The first argument bounds the number of timers run. -/
def runTimersAux {α : Type} : Nat → Nat → Debounced α → Debounced α
  | 0, _, d => d
  | fuel + 1, now, d =>
    match nextTimer now d.pending with
    | none => d
    | some t =>
      runTimersAux fuel now
        (later t.due t.args { d with pending := d.pending.filter (fun u => u.id ≠ t.id) })

/-- The event loop up to time `now`, with a step for every pending timer. -/
def runTimers {α : Type} (now : Nat) (d : Debounced α) : Debounced α :=
  runTimersAux d.pending.length now d

/-- Calls of the debounced function, each with its time and its arguments, in the
order of their times, in a browser that is on time: before each call the event loop
runs the timers that are due. -/
def runCalls {α : Type} (calls : List (Nat × α)) (d : Debounced α) : Debounced α :=
  calls.foldl (fun acc c => executedFunction c.1 c.2 (runTimers c.1 acc)) d

/-- Calls of the debounced function, each with its time, the lateness of the browser
for the timer it sets, and its arguments. -/
def runCallsLate {α : Type} (calls : List (Nat × Nat × α)) (d : Debounced α) :
    Debounced α :=
  calls.foldl (fun acc c => executedFunctionLate c.1 c.2.1 c.2.2 (runTimers c.1 acc)) d

/-- The times `rest` go on a burst whose last call so far was at `t`: each of them is
at or after the time before it and less than `wait` milliseconds after it. -/
def IsBurstFrom (wait : Nat) : Nat → List Nat → Prop
  | _, [] => True
  | t1, t2 :: rest => (t1 ≤ t2 ∧ t2 < t1 + wait) ∧ IsBurstFrom wait t2 rest

/-- A burst, by the times of its calls: each call comes less than `wait` milliseconds
after the one before it. -/
def IsBurst (wait : Nat) : List Nat → Prop
  | [] => True
  | t :: rest => IsBurstFrom wait t rest

/-- Whether times go on a burst can be computed. -/
def decIsBurstFrom (wait : Nat) :
    (t : Nat) → (rest : List Nat) → Decidable (IsBurstFrom wait t rest)
  | _, [] => isTrue trivial
  | t1, t2 :: rest =>
    have := decIsBurstFrom wait t2 rest
    inferInstanceAs (Decidable ((t1 ≤ t2 ∧ t2 < t1 + wait) ∧ IsBurstFrom wait t2 rest))

instance (wait t : Nat) (rest : List Nat) : Decidable (IsBurstFrom wait t rest) :=
  decIsBurstFrom wait t rest

instance (wait : Nat) : (times : List Nat) → Decidable (IsBurst wait times)
  | [] => isTrue trivial
  | t :: rest => decIsBurstFrom wait t rest

/-- The state between the calls of a burst: one timer is pending, the one that
`timeout` names, it runs at `due` with the arguments `args`, and `func` has not been
called. -/
def AwaitsCall {α : Type} (wait : Nat) (d : Debounced α) (due : Nat) (args : α) : Prop :=
  d.wait = wait ∧ d.invocations = [] ∧
    ∃ i, d.timeout = some i ∧ d.pending = [⟨i, due, args⟩]

/-- Ten `resize` events within 50 milliseconds, the listener having no arguments. -/
def resizeBurst : List (Nat × Unit) :=
  [(0, ()), (5, ()), (10, ()), (15, ()), (20, ()), (25, ()), (30, ()), (35, ()), (40, ()),
   (45, ())]

/-- The listener of `resize` registered at lines 67-69,
`this.debounce(() => this.handleViewportChange(), 250)`: each of its invocations is one
run of `handleViewportChange`. -/
def resizeListener : Debounced Unit := debounce 250

/-! # Properties -/

/-! ## Storage lemmas -/

theorem getItem_setItem (ls : Storage) (k v key : String) :
    getItem (setItem ls k v) key = if k = key then some v else getItem ls key := by
  induction ls with
  | nil => simp [setItem, getItem]
  | cons kv rest ih =>
    obtain ⟨k0, v0⟩ := kv
    by_cases h : k0 = k
    · subst h
      by_cases h2 : k0 = key <;> simp [setItem, getItem, h2]
    · by_cases h2 : k0 = key
      · subst h2
        have h3 : ¬ k = k0 := fun e => h e.symm
        simp [setItem, getItem, h, h3]
      · simp [setItem, getItem, h, h2, ih]

theorem getItem_saveSettings (s : Settings) (ls : Storage) (key : String) :
    getItem (saveSettings s ls) key =
      if key = "pageWidth" then some s.pageWidth
      else if key = "language" then some s.language
      else if key = "cookies" then some (boolToString s.cookies)
      else if key = "analytics" then some (boolToString s.analytics)
      else if key = "screenReader" then some (boolToString s.screenReader)
      else if key = "highContrast" then some (boolToString s.highContrast)
      else if key = "reducedMotion" then some (boolToString s.reducedMotion)
      else if key = "enableAnimations" then some (boolToString s.enableAnimations)
      else if key = "fontSize" then some (numberToString s.fontSize)
      else if key = "theme" then some s.theme
      else getItem ls key := by
  simp only [saveSettings, settingsEntries, List.foldl_cons, List.foldl_nil, getItem_setItem]
  simp only [eq_comm]

/-! ## `parseInt` reads back what `ToString` writes -/

theorem digitValue_digitChar (k : Nat) (h : k < 10) :
    digitValue (Nat.digitChar k) = some k := by
  interval_cases k <;> rfl

theorem isStrWhiteSpace_digitChar (k : Nat) (h : k < 10) :
    isStrWhiteSpace (Nat.digitChar k) = false := by
  interval_cases k <;> rfl

theorem digitChar_ne_sign (k : Nat) (h : k < 10) :
    Nat.digitChar k ≠ '-' ∧ Nat.digitChar k ≠ '+' ∧ Nat.digitChar k ≠ 'x' ∧
      Nat.digitChar k ≠ 'X' := by
  interval_cases k <;> decide

theorem digitsValue_append (R : Nat) (L : List Char) (c : Char) :
    digitsValue R (L ++ [c]) = digitsValue R L * R + (digitValue c).getD 0 := by
  simp [digitsValue, List.foldl_append]

/-- The decimal digits written by `Nat.toDigitsCore` are digit characters whose value
is the number. -/
theorem toDigitsCore_spec : ∀ (fuel n : Nat) (ds : List Char), n < fuel →
    ∃ L : List Char, Nat.toDigitsCore 10 fuel n ds = L ++ ds ∧ L ≠ [] ∧
      (∀ c ∈ L, ∃ k, k < 10 ∧ c = Nat.digitChar k) ∧ digitsValue 10 L = n := by
  intro fuel
  induction fuel with
  | zero => intro n ds h; omega
  | succ fuel ih =>
    intro n ds h
    have hd : n % 10 < 10 := Nat.mod_lt _ (by decide)
    by_cases h0 : n / 10 = 0
    · refine ⟨[Nat.digitChar (n % 10)], ?_, by simp, ?_, ?_⟩
      · simp [Nat.toDigitsCore, h0]
      · intro c hc
        simp only [List.mem_singleton] at hc
        exact ⟨n % 10, hd, hc⟩
      · have hn : n % 10 = n := by omega
        rw [hn] at hd
        simp [digitsValue, digitValue_digitChar _ hd, hn]
    · have hlt : n / 10 < fuel := by omega
      obtain ⟨L, hL, _, hdig, hval⟩ := ih (n / 10) (Nat.digitChar (n % 10) :: ds) hlt
      refine ⟨L ++ [Nat.digitChar (n % 10)], ?_, by simp, ?_, ?_⟩
      · simp [Nat.toDigitsCore, h0, hL]
      · intro c hc
        rcases List.mem_append.mp hc with hc | hc
        · exact hdig c hc
        · simp only [List.mem_singleton] at hc
          exact ⟨n % 10, hd, hc⟩
      · rw [digitsValue_append, hval, digitValue_digitChar _ hd]
        simp only [Option.getD_some]
        omega

theorem takeWhile_isRadixDigit_digits (L : List Char)
    (h : ∀ c ∈ L, ∃ k, k < 10 ∧ c = Nat.digitChar k) :
    L.takeWhile (isRadixDigit 10) = L := by
  rw [List.takeWhile_eq_self_iff]
  intro c hc
  obtain ⟨k, hk, rfl⟩ := h c hc
  simp [isRadixDigit, digitValue_digitChar k hk, hk]

/-- What `parseInt` does after the sign, on a run of decimal digits. -/
theorem splitRadix_digits (L : List Char)
    (h : ∀ c ∈ L, ∃ k, k < 10 ∧ c = Nat.digitChar k) : splitRadix L = (10, L) := by
  unfold splitRadix
  split
  · rename_i rest
    obtain ⟨k, hk, hx⟩ := h 'x' (by simp)
    exact absurd hx.symm (digitChar_ne_sign k hk).2.2.1
  · rename_i rest
    obtain ⟨k, hk, hx⟩ := h 'X' (by simp)
    exact absurd hx.symm (digitChar_ne_sign k hk).2.2.2
  · rfl

theorem splitSign_digits (L : List Char)
    (h : ∀ c ∈ L, ∃ k, k < 10 ∧ c = Nat.digitChar k) : splitSign L = (false, L) := by
  unfold splitSign
  split
  · rename_i rest
    obtain ⟨k, hk, hx⟩ := h '-' (by simp)
    exact absurd hx.symm (digitChar_ne_sign k hk).1
  · rename_i rest
    obtain ⟨k, hk, hx⟩ := h '+' (by simp)
    exact absurd hx.symm (digitChar_ne_sign k hk).2.1
  · rfl

theorem dropWhile_isStrWhiteSpace_digits (L : List Char)
    (h : ∀ c ∈ L, ∃ k, k < 10 ∧ c = Nat.digitChar k) :
    L.dropWhile isStrWhiteSpace = L := by
  cases L with
  | nil => rfl
  | cons c rest =>
    obtain ⟨k, hk, rfl⟩ := h c (by simp)
    simp [List.dropWhile, isStrWhiteSpace_digitChar k hk]

/-- The digits of `Nat.repr`. -/
theorem repr_digits (n : Nat) :
    ∃ L : List Char, (Nat.repr n).toList = L ∧ L ≠ [] ∧
      (∀ c ∈ L, ∃ k, k < 10 ∧ c = Nat.digitChar k) ∧ digitsValue 10 L = n := by
  obtain ⟨L, hL, hne, hdig, hval⟩ := toDigitsCore_spec (n + 1) n [] (Nat.lt_succ_self n)
  refine ⟨L, ?_, hne, hdig, hval⟩
  simp [Nat.repr, Nat.toDigits, hL, List.asString]

/-- `parseInt` of the decimal string of an integer is that integer. -/
theorem parseInt_numberToString (n : Int) : parseInt (numberToString n) = some n := by
  obtain ⟨L, hL, hne, hdig, hval⟩ := repr_digits n.natAbs
  by_cases hn : n < 0
  · have hs : (numberToString n).toList = '-' :: L := by
      simp [numberToString, hn, ← hL]
    have hsign : splitSign ('-' :: L) = (true, L) := rfl
    have hE : (L.isEmpty) = false := by cases L <;> simp_all
    simp only [parseInt, hs]
    rw [show List.dropWhile isStrWhiteSpace ('-' :: L) = '-' :: L from rfl, hsign]
    simp only [splitRadix_digits L hdig, takeWhile_isRadixDigit_digits L hdig, hE, hval]
    simp
    rw [abs_of_neg hn]
    omega
  · have hs : (numberToString n).toList = L := by
      simp [numberToString, hn, ← hL]
    have hE : (L.isEmpty) = false := by cases L <;> simp_all
    simp only [parseInt, hs, dropWhile_isStrWhiteSpace_digits L hdig, splitSign_digits L hdig,
      splitRadix_digits L hdig, takeWhile_isRadixDigit_digits L hdig, hE, hval]
    simp
    omega

/-! ## Loading and saving (C1, C2, C3) -/

theorem applyPageWidth_of_valid (s : Settings) (p : Page)
    (h : validateToken ("width-" ++ s.pageWidth) = .ok ()) :
    applyPageWidth s p =
      .ok { p with bodyClass := addToken (removeWidth p.bodyClass) ("width-" ++ s.pageWidth) } := by
  simp only [applyPageWidth, classListAdd, h]
  rfl

theorem applySettings_of_valid (s : Settings) (p : Page)
    (h : validateToken ("width-" ++ s.pageWidth) = .ok ()) :
    ∃ q, applySettings s p = .ok q := by
  simp only [applySettings, applyPageWidth_of_valid _ _ h]
  exact ⟨_, rfl⟩

theorem optimizePerformance_settings (st : State) :
    (optimizePerformance st).settings = st.settings := by
  unfold optimizePerformance
  split_ifs <;> rfl

theorem setupAndroidSpecific_settings (env : Env) (st : State) :
    (setupAndroidSpecific env st).settings = st.settings := rfl

theorem initializeMobileOptimizations_settings (env : Env) (st : State) :
    (initializeMobileOptimizations env st).settings = st.settings := by
  unfold initializeMobileOptimizations
  dsimp only
  split_ifs <;>
    simp only [setupAndroidSpecific_settings, optimizePerformance_settings]

theorem construct_of_applySettings (env : Env) (ls : Storage) (p q : Page)
    (h : applySettings (loadSettings ls) p = .ok q) :
    construct env ls p = .ok (initializeMobileOptimizations env
      { settings := loadSettings ls
        localStorage := ls
        page := q
        isMobile := detectMobile env
        isAndroid := detectAndroid env
        initialized := true }) := by
  simp only [construct, init, h]

/-- C1: when none of the ten keys is in storage, the settings literal of the
constructor is exactly the ten defaults (dark, 16, true, false, false, false, true,
true, en, container), and the constructor completes with these settings, whatever the
page and the device. -/
theorem C1_defaults_on_empty_storage (env : Env) (ls : Storage) (p : Page)
    (h : ∀ key ∈ settingsKeys, getItem ls key = none) :
    loadSettings ls = defaultSettings ∧
      ∃ st, construct env ls p = .ok st ∧ st.settings = defaultSettings := by
  simp only [settingsKeys, List.mem_cons, List.mem_singleton, List.not_mem_nil, or_false,
    forall_eq_or_imp, forall_eq] at h
  obtain ⟨h1, h2, h3, h4, h5, h6, h7, h8, h9, h10⟩ := h
  have hload : loadSettings ls = defaultSettings := by
    simp only [loadSettings, h1, h2, h3, h4, h5, h6, h7, h8, h9, h10]
    rfl
  refine ⟨hload, ?_⟩
  obtain ⟨q, hq⟩ := applySettings_of_valid (loadSettings ls) p (by rw [hload]; rfl)
  refine ⟨_, construct_of_applySettings env ls p q hq, ?_⟩
  rw [initializeMobileOptimizations_settings, hload]

theorem C1_defaults_on_empty_storage_witness :
    (∀ key ∈ settingsKeys, getItem [("visits", "3")] key = none) ∧
      loadSettings [("visits", "3")] = defaultSettings :=
  ⟨by decide,
   (C1_defaults_on_empty_storage ⟨false, false, false, 1024, false⟩ [("visits", "3")]
      ⟨"", "", "", false, none, false, none, false, false, none, none, none, none, none, none,
        none, none, none, none, none, none, [], []⟩ (by decide)).1⟩

theorem orString_some (v d : String) (h : v ≠ "") : orString (some v) d = v := by
  simp [orString, h]

theorem orNumber_some (n d : Int) (h : n ≠ 0) : orNumber (some n) d = n := by
  simp [orNumber, h]

theorem decide_ne_false_boolToString (b : Bool) :
    decide (some (boolToString b) ≠ some "false") = b := by
  cases b <;> decide

theorem decide_eq_true_boolToString (b : Bool) :
    decide (some (boolToString b) = some "true") = b := by
  cases b <;> decide

/-- Saving and loading again gives back every set whose three strings are not empty
and whose font size is not zero. -/
theorem loadSettings_saveSettings (s : Settings) (ls : Storage) (htheme : s.theme ≠ "")
    (hfont : s.fontSize ≠ 0) (hlang : s.language ≠ "") (hwidth : s.pageWidth ≠ "") :
    loadSettings (saveSettings s ls) = s := by
  have hk : ∀ key, getItem (saveSettings s ls) key = _ := getItem_saveSettings s ls
  have h1 := hk "theme"
  have h2 := hk "fontSize"
  have h3 := hk "enableAnimations"
  have h4 := hk "reducedMotion"
  have h5 := hk "highContrast"
  have h6 := hk "screenReader"
  have h7 := hk "analytics"
  have h8 := hk "cookies"
  have h9 := hk "language"
  have h10 := hk "pageWidth"
  simp only [show ¬ ("theme" = "pageWidth") by decide, show ¬ ("theme" = "language") by decide,
    show ¬ ("theme" = "cookies") by decide, show ¬ ("theme" = "analytics") by decide,
    show ¬ ("theme" = "screenReader") by decide, show ¬ ("theme" = "highContrast") by decide,
    show ¬ ("theme" = "reducedMotion") by decide, show ¬ ("theme" = "enableAnimations") by decide,
    show ¬ ("theme" = "fontSize") by decide, if_false, if_true] at h1
  simp only [show ¬ ("fontSize" = "pageWidth") by decide,
    show ¬ ("fontSize" = "language") by decide,
    show ¬ ("fontSize" = "cookies") by decide, show ¬ ("fontSize" = "analytics") by decide,
    show ¬ ("fontSize" = "screenReader") by decide,
    show ¬ ("fontSize" = "highContrast") by decide,
    show ¬ ("fontSize" = "reducedMotion") by decide,
    show ¬ ("fontSize" = "enableAnimations") by decide, if_false, if_true] at h2
  simp only [show ¬ ("enableAnimations" = "pageWidth") by decide,
    show ¬ ("enableAnimations" = "language") by decide,
    show ¬ ("enableAnimations" = "cookies") by decide,
    show ¬ ("enableAnimations" = "analytics") by decide,
    show ¬ ("enableAnimations" = "screenReader") by decide,
    show ¬ ("enableAnimations" = "highContrast") by decide,
    show ¬ ("enableAnimations" = "reducedMotion") by decide, if_false, if_true] at h3
  simp only [show ¬ ("reducedMotion" = "pageWidth") by decide,
    show ¬ ("reducedMotion" = "language") by decide,
    show ¬ ("reducedMotion" = "cookies") by decide,
    show ¬ ("reducedMotion" = "analytics") by decide,
    show ¬ ("reducedMotion" = "screenReader") by decide,
    show ¬ ("reducedMotion" = "highContrast") by decide, if_false, if_true] at h4
  simp only [show ¬ ("highContrast" = "pageWidth") by decide,
    show ¬ ("highContrast" = "language") by decide,
    show ¬ ("highContrast" = "cookies") by decide,
    show ¬ ("highContrast" = "analytics") by decide,
    show ¬ ("highContrast" = "screenReader") by decide, if_false, if_true] at h5
  simp only [show ¬ ("screenReader" = "pageWidth") by decide,
    show ¬ ("screenReader" = "language") by decide,
    show ¬ ("screenReader" = "cookies") by decide,
    show ¬ ("screenReader" = "analytics") by decide, if_false, if_true] at h6
  simp only [show ¬ ("analytics" = "pageWidth") by decide,
    show ¬ ("analytics" = "language") by decide,
    show ¬ ("analytics" = "cookies") by decide, if_false, if_true] at h7
  simp only [show ¬ ("cookies" = "pageWidth") by decide,
    show ¬ ("cookies" = "language") by decide, if_false, if_true] at h8
  simp only [show ¬ ("language" = "pageWidth") by decide, if_false, if_true] at h9
  simp only [if_true] at h10
  simp only [loadSettings, h1, h2, h3, h4, h5, h6, h7, h8, h9, h10, nullableToString,
    parseInt_numberToString, orString_some _ _ htheme, orString_some _ _ hlang,
    orString_some _ _ hwidth, orNumber_some _ _ hfont, decide_ne_false_boolToString,
    decide_eq_true_boolToString]

/-- C2: for every set of settings whose theme is dark or light, whose font size is an
even integer from 12 to 24, whose six booleans are arbitrary and whose language and
page width are not empty, and for every prior storage, `saveSettings` followed by the
load of the constructor gives back the same ten fields. -/
theorem C2_save_then_load_roundtrip (s : Settings) (ls : Storage)
    (htheme : ThemeInDomain s.theme) (hfont : FontSizeInDomain s.fontSize)
    (hlang : s.language ≠ "") (hwidth : s.pageWidth ≠ "") :
    loadSettings (saveSettings s ls) = s := by
  apply loadSettings_saveSettings s ls _ _ hlang hwidth
  · rcases htheme with h | h <;> rw [h] <;> decide
  · obtain ⟨h1, _, _⟩ := hfont
    omega

theorem C2_save_then_load_roundtrip_witness :
    loadSettings (saveSettings ⟨"light", 20, false, true, true, true, false, false, "fr", "wide"⟩
        [("theme", "dark"), ("fontSize", "abc")]) =
      ⟨"light", 20, false, true, true, true, false, false, "fr", "wide"⟩ :=
  C2_save_then_load_roundtrip ⟨"light", 20, false, true, true, true, false, false, "fr", "wide"⟩
    [("theme", "dark"), ("fontSize", "abc")] (by decide) (by decide) (by decide) (by decide)

/-- C3, as stated, fails: a stored font size of 13 is loaded as 13 and not as 16, a
stored theme `blue` is loaded as `blue` and not as `dark`, and neither loaded set is
valid. -/
theorem C3_out_of_domain_values_are_loaded :
    (loadSettings [("fontSize", "13")]).fontSize = 13 ∧
      (loadSettings [("theme", "blue")]).theme = "blue" ∧
      ¬ ValidSettings (loadSettings [("fontSize", "13")]) ∧
      ¬ ValidSettings (loadSettings [("theme", "blue")]) := by
  decide

theorem loaded_string (stored : Option String) (d : String) :
    (∀ v, v ≠ "" → stored = some v → orString stored d = v) ∧
      (stored = none ∨ stored = some "" → orString stored d = d) := by
  refine ⟨?_, ?_⟩
  · intro v hv h
    rw [h, orString_some v d hv]
  · rintro (h | h) <;> rw [h] <;> simp [orString]

theorem loaded_default_true (stored : Option String) :
    (∀ b, stored = some (boolToString b) → decide (stored ≠ some "false") = b) ∧
      ((∀ b, stored ≠ some (boolToString b)) → decide (stored ≠ some "false") = true) := by
  refine ⟨?_, ?_⟩
  · intro b h
    rw [h, decide_ne_false_boolToString]
  · intro h
    simpa [boolToString] using h false

theorem loaded_default_false (stored : Option String) :
    (∀ b, stored = some (boolToString b) → decide (stored = some "true") = b) ∧
      ((∀ b, stored ≠ some (boolToString b)) → decide (stored = some "true") = false) := by
  refine ⟨?_, ?_⟩
  · intro b h
    rw [h, decide_eq_true_boolToString]
  · intro h
    simpa [boolToString] using h true

/-- C3, amended: for every storage content the load is total and never yields `NaN`
or 0 for the font size. Each boolean field is the stored value when the stored string is
`true` or `false`, and its default otherwise. `theme`, `language` and `pageWidth` are
the stored string when it is present and not empty, and the default when it is absent or
empty. `fontSize` is `n` when the stored string is the decimal form of an integer `n`
other than 0 and below 2^53 in magnitude (so of every even integer from 12 to 24), and 16
when the key is absent or `parseInt` reads no number. Nothing is checked against the
domains. -/
theorem C3_load_falls_back_per_field (ls : Storage) :
    ((∀ v, v ≠ "" → getItem ls "theme" = some v → (loadSettings ls).theme = v) ∧
      (getItem ls "theme" = none ∨ getItem ls "theme" = some "" →
        (loadSettings ls).theme = "dark")) ∧
    ((∀ v, v ≠ "" → getItem ls "language" = some v → (loadSettings ls).language = v) ∧
      (getItem ls "language" = none ∨ getItem ls "language" = some "" →
        (loadSettings ls).language = "en")) ∧
    ((∀ v, v ≠ "" → getItem ls "pageWidth" = some v → (loadSettings ls).pageWidth = v) ∧
      (getItem ls "pageWidth" = none ∨ getItem ls "pageWidth" = some "" →
        (loadSettings ls).pageWidth = "container")) ∧
    ((∀ n : Int, n ≠ 0 → n.natAbs < 2 ^ 53 → getItem ls "fontSize" = some (numberToString n) →
        (loadSettings ls).fontSize = n) ∧
      (getItem ls "fontSize" = none → (loadSettings ls).fontSize = 16) ∧
      (∀ v, getItem ls "fontSize" = some v → parseInt v = none →
        (loadSettings ls).fontSize = 16) ∧
      (loadSettings ls).fontSize ≠ 0) ∧
    ((∀ b, getItem ls "enableAnimations" = some (boolToString b) →
        (loadSettings ls).enableAnimations = b) ∧
      ((∀ b, getItem ls "enableAnimations" ≠ some (boolToString b)) →
        (loadSettings ls).enableAnimations = true)) ∧
    ((∀ b, getItem ls "analytics" = some (boolToString b) → (loadSettings ls).analytics = b) ∧
      ((∀ b, getItem ls "analytics" ≠ some (boolToString b)) →
        (loadSettings ls).analytics = true)) ∧
    ((∀ b, getItem ls "cookies" = some (boolToString b) → (loadSettings ls).cookies = b) ∧
      ((∀ b, getItem ls "cookies" ≠ some (boolToString b)) →
        (loadSettings ls).cookies = true)) ∧
    ((∀ b, getItem ls "reducedMotion" = some (boolToString b) →
        (loadSettings ls).reducedMotion = b) ∧
      ((∀ b, getItem ls "reducedMotion" ≠ some (boolToString b)) →
        (loadSettings ls).reducedMotion = false)) ∧
    ((∀ b, getItem ls "highContrast" = some (boolToString b) →
        (loadSettings ls).highContrast = b) ∧
      ((∀ b, getItem ls "highContrast" ≠ some (boolToString b)) →
        (loadSettings ls).highContrast = false)) ∧
    ((∀ b, getItem ls "screenReader" = some (boolToString b) →
        (loadSettings ls).screenReader = b) ∧
      ((∀ b, getItem ls "screenReader" ≠ some (boolToString b)) →
        (loadSettings ls).screenReader = false)) := by
  refine ⟨loaded_string _ _, loaded_string _ _, loaded_string _ _, ⟨?_, ?_, ?_, ?_⟩,
    loaded_default_true _, loaded_default_true _, loaded_default_true _,
    loaded_default_false _, loaded_default_false _, loaded_default_false _⟩
  · intro n hn _ h
    simp only [loadSettings, h, nullableToString, parseInt_numberToString, orNumber_some n 16 hn]
  · intro h
    simp only [loadSettings, h]
    rfl
  · intro v h hv
    simp only [loadSettings, h, nullableToString, hv, orNumber]
  · simp only [loadSettings, orNumber]
    split
    · decide
    · split_ifs with h0
      · decide
      · exact h0

/-! ## Font size (C4) -/

theorem getItem_saveSettings_fontSize (s : Settings) (ls : Storage) :
    getItem (saveSettings s ls) "fontSize" = some (numberToString s.fontSize) := by
  rw [getItem_saveSettings]
  simp only [show ¬ ("fontSize" = "pageWidth") by decide,
    show ¬ ("fontSize" = "language") by decide,
    show ¬ ("fontSize" = "cookies") by decide, show ¬ ("fontSize" = "analytics") by decide,
    show ¬ ("fontSize" = "screenReader") by decide,
    show ¬ ("fontSize" = "highContrast") by decide,
    show ¬ ("fontSize" = "reducedMotion") by decide,
    show ¬ ("fontSize" = "enableAnimations") by decide, if_false, if_true]

theorem decreaseFontClick_fontSize (st : State) (h : st.page.decreaseFont = true) :
    (decreaseFontClick st).settings.fontSize =
      if st.settings.fontSize > 12 then st.settings.fontSize - 2 else st.settings.fontSize := by
  unfold decreaseFontClick
  rw [if_pos h]
  split_ifs <;> rfl

theorem increaseFontClick_fontSize (st : State) (h : st.page.increaseFont = true) :
    (increaseFontClick st).settings.fontSize =
      if st.settings.fontSize < 24 then st.settings.fontSize + 2 else st.settings.fontSize := by
  unfold increaseFontClick
  rw [if_pos h]
  split_ifs <;> rfl

/-- One font click keeps the font size in its domain, in memory and in storage. -/
theorem fontClick_keeps_domain (c : FontClick) (st : State)
    (h : FontSizeInDomain st.settings.fontSize) :
    FontSizeInDomain (fontClick c st).settings.fontSize ∧
      (PersistedFontSizeInDomain st.localStorage →
        PersistedFontSizeInDomain (fontClick c st).localStorage) := by
  obtain ⟨h1, h2, h3⟩ := h
  cases c with
  | decrease =>
    simp only [fontClick, decreaseFontClick]
    split_ifs with hb hf
    · refine ⟨⟨?_, ?_, ?_⟩, fun _ => ⟨st.settings.fontSize - 2, ⟨?_, ?_, ?_⟩, ?_⟩⟩
      all_goals first
        | omega
        | (simp only []; omega)
        | exact getItem_saveSettings_fontSize _ _
    · exact ⟨⟨h1, h2, h3⟩, id⟩
    · exact ⟨⟨h1, h2, h3⟩, id⟩
  | increase =>
    simp only [fontClick, increaseFontClick]
    split_ifs with hb hf
    · refine ⟨⟨?_, ?_, ?_⟩, fun _ => ⟨st.settings.fontSize + 2, ⟨?_, ?_, ?_⟩, ?_⟩⟩
      all_goals first
        | omega
        | (simp only []; omega)
        | exact getItem_saveSettings_fontSize _ _
    · exact ⟨⟨h1, h2, h3⟩, id⟩
    · exact ⟨⟨h1, h2, h3⟩, id⟩

theorem fontClicks_keep_domain (clicks : List FontClick) :
    ∀ st : State, FontSizeInDomain st.settings.fontSize →
      FontSizeInDomain (fontClicks clicks st).settings.fontSize ∧
        (PersistedFontSizeInDomain st.localStorage →
          PersistedFontSizeInDomain (fontClicks clicks st).localStorage) := by
  induction clicks with
  | nil => intro st h; exact ⟨h, id⟩
  | cons c rest ih =>
    intro st h
    obtain ⟨hm, hp⟩ := fontClick_keeps_domain c st h
    obtain ⟨hm2, hp2⟩ := ih (fontClick c st) hm
    exact ⟨hm2, fun h0 => hp2 (hp h0)⟩

/-- C4: in a state whose font size `f` is an even integer from 12 to 24, the listener
of the decrease button leaves the font size at `max 12 (f - 2)` and the listener of the
increase button at `min 24 (f + 2)`; at 12 a decrease changes nothing in the state and at
24 an increase changes nothing; and after any sequence of clicks on the two buttons the
font size in memory is still an even integer from 12 to 24, as is the persisted one when
it was before. -/
theorem C4_font_size_stays_in_range (st : State)
    (h : FontSizeInDomain st.settings.fontSize)
    (hdec : st.page.decreaseFont = true) (hinc : st.page.increaseFont = true) :
    (decreaseFontClick st).settings.fontSize = max 12 (st.settings.fontSize - 2) ∧
      (increaseFontClick st).settings.fontSize = min 24 (st.settings.fontSize + 2) ∧
      (st.settings.fontSize = 12 → decreaseFontClick st = st) ∧
      (st.settings.fontSize = 24 → increaseFontClick st = st) ∧
      ∀ clicks : List FontClick,
        FontSizeInDomain (fontClicks clicks st).settings.fontSize ∧
          (PersistedFontSizeInDomain st.localStorage →
            PersistedFontSizeInDomain (fontClicks clicks st).localStorage) := by
  obtain ⟨h1, h2, h3⟩ := h
  refine ⟨?_, ?_, ?_, ?_, fun clicks => fontClicks_keep_domain clicks st ⟨h1, h2, h3⟩⟩
  · rw [decreaseFontClick_fontSize st hdec]
    split_ifs with hf
    · rw [max_eq_right (by omega)]
    · rw [max_eq_left (by omega)]
      omega
  · rw [increaseFontClick_fontSize st hinc]
    split_ifs with hf
    · rw [min_eq_right (by omega)]
    · rw [min_eq_left (by omega)]
      omega
  · intro hf
    simp [decreaseFontClick, hf]
  · intro hf
    simp [increaseFontClick, hf]

theorem C4_font_size_stays_in_range_witness :
    (decreaseFontClick (sampleState { defaultSettings with fontSize := 12 })).settings.fontSize =
        max 12 (12 - 2) ∧
      (increaseFontClick (sampleState { defaultSettings with fontSize := 12 })).settings.fontSize =
        min 24 (12 + 2) :=
  have h := C4_font_size_stays_in_range (sampleState { defaultSettings with fontSize := 12 })
    (by decide) rfl rfl
  ⟨h.1, h.2.1⟩

/-! ## Badges (C7) -/

theorem badgeCount_eq_enabledCount (s : Settings) (sectionName : String) :
    badgeCount s sectionName = enabledCount s sectionName := by
  unfold badgeCount enabledCount sectionFields
  by_cases h1 : sectionName = "animation"
  · simp only [if_pos h1]
    cases s.enableAnimations <;> cases s.reducedMotion <;> rfl
  · by_cases h2 : sectionName = "accessibility"
    · simp only [if_neg h1, if_pos h2]
      cases s.highContrast <;> cases s.screenReader <;> rfl
    · by_cases h3 : sectionName = "privacy"
      · simp only [if_neg h1, if_neg h2, if_pos h3]
        cases s.analytics <;> cases s.cookies <;> rfl
      · simp only [if_neg h1, if_neg h2, if_neg h3]
        rfl

theorem enabledCount_le_two (s : Settings) (sectionName : String) :
    enabledCount s sectionName ≤ 2 := by
  unfold enabledCount sectionFields
  split_ifs
  · cases s.enableAnimations <;> cases s.reducedMotion <;> decide
  · cases s.highContrast <;> cases s.screenReader <;> decide
  · cases s.analytics <;> cases s.cookies <;> decide
  · decide

theorem badgeElement_setBadgeElement (p : Page) (sectionName : String) (b : Badge)
    (hsec : sectionName ∈ ["animation", "accessibility", "privacy"]) :
    badgeElement (setBadgeElement p sectionName b) sectionName = some b := by
  simp only [List.mem_cons, List.mem_singleton, List.not_mem_nil, or_false] at hsec
  rcases hsec with h | h | h <;> subst h <;> rfl

/-- C7: for each of the sections animation, accessibility and privacy whose badge
exists and for every settings, `updateBadgeCount` leaves the badge with, as text, the
number of the two boolean fields of the section that are true (a number that is at most
2 and is the same for any other settings with the same two fields), and with display
`none` exactly when that number is 0 and `block` otherwise. -/
theorem C7_badge_counts_enabled_fields (s : Settings) (p : Page) (sectionName : String)
    (hsec : sectionName ∈ ["animation", "accessibility", "privacy"])
    (hbadge : badgeElement p sectionName ≠ none) :
    badgeElement (updateBadgeCount s sectionName p) sectionName =
        some { textContent := numberToString (enabledCount s sectionName)
               display := if enabledCount s sectionName = 0 then "none" else "block" } ∧
      enabledCount s sectionName ≤ 2 ∧
      (numberToString (enabledCount s sectionName) = "0" ∨
        numberToString (enabledCount s sectionName) = "1" ∨
        numberToString (enabledCount s sectionName) = "2") ∧
      ∀ s' : Settings, sectionFields s' sectionName = sectionFields s sectionName →
        updateBadgeCount s' sectionName p = updateBadgeCount s sectionName p := by
  have hle := enabledCount_le_two s sectionName
  refine ⟨?_, hle, ?_, ?_⟩
  · unfold updateBadgeCount
    cases hb : badgeElement p sectionName with
    | none => exact absurd hb hbadge
    | some b =>
      simp only [badgeElement_setBadgeElement p sectionName _ hsec, badgeCount_eq_enabledCount]
      have : (enabledCount s sectionName > 0) ↔ ¬ (enabledCount s sectionName = 0) := by omega
      by_cases h0 : enabledCount s sectionName = 0 <;> simp [h0]
  · generalize enabledCount s sectionName = n at hle
    interval_cases n
    · exact Or.inl (by decide)
    · exact Or.inr (Or.inl (by decide))
    · exact Or.inr (Or.inr (by decide))
  · intro s' hs'
    have hc : badgeCount s' sectionName = badgeCount s sectionName := by
      rw [badgeCount_eq_enabledCount, badgeCount_eq_enabledCount, enabledCount, enabledCount, hs']
    unfold updateBadgeCount
    rw [hc]

theorem C7_badge_counts_enabled_fields_witness :
    badgeElement
        (updateBadgeCount { defaultSettings with analytics := true, cookies := false } "privacy"
          samplePage) "privacy" =
      some { textContent := "1", display := "block" } :=
  (C7_badge_counts_enabled_fields { defaultSettings with analytics := true, cookies := false }
    samplePage "privacy" (by decide) (by decide)).1

/-! ## Token sets -/

theorem splitAux_nil (fuel : Nat) : splitAsciiWhitespaceAux fuel [] = [] := by
  cases fuel <;> rfl

theorem splitAux_cons_whitespace (fuel : Nat) (w : Char) (rest : List Char)
    (hw : isAsciiWhitespace w = true) :
    splitAsciiWhitespaceAux fuel (w :: rest) = splitAsciiWhitespaceAux fuel rest := by
  cases fuel with
  | zero => rfl
  | succ f => simp only [splitAsciiWhitespaceAux, List.dropWhile_cons, hw, if_true]

theorem dropWhile_not_whitespace (rest : List Char)
    (hrest : ∀ c, rest.head? = some c → isAsciiWhitespace c = true) :
    rest.dropWhile (fun d => !isAsciiWhitespace d) = rest := by
  cases rest with
  | nil => rfl
  | cons c cs => simp [List.dropWhile_cons, hrest c rfl]

theorem takeWhile_not_whitespace (rest : List Char)
    (hrest : ∀ c, rest.head? = some c → isAsciiWhitespace c = true) :
    rest.takeWhile (fun d => !isAsciiWhitespace d) = [] := by
  cases rest with
  | nil => rfl
  | cons c cs => simp [List.takeWhile_cons, hrest c rfl]

/-- A token followed by whitespace or by the end of the input is split off whole. -/
theorem splitAux_token (fuel : Nat) (t rest : List Char) (ht : ValidToken t)
    (hrest : ∀ c, rest.head? = some c → isAsciiWhitespace c = true) :
    splitAsciiWhitespaceAux (fuel + 1) (t ++ rest) = t :: splitAsciiWhitespaceAux fuel rest := by
  obtain ⟨hne, hws⟩ := ht
  cases t with
  | nil => exact absurd rfl hne
  | cons c t' =>
    have hc : isAsciiWhitespace c = false := hws c (by simp)
    have ht' : ∀ a ∈ t', (fun d => !isAsciiWhitespace d) a = true := by
      intro a ha
      simp [hws a (by simp [ha])]
    simp only [splitAsciiWhitespaceAux, List.cons_append, List.dropWhile_cons, hc,
      Bool.false_eq_true, if_false]
    rw [List.takeWhile_append_of_pos ht', List.dropWhile_append_of_pos ht',
      dropWhile_not_whitespace rest hrest, takeWhile_not_whitespace rest hrest,
      List.append_nil]

theorem splitAux_valid : ∀ (fuel : Nat) (input : List Char),
    ∀ t ∈ splitAsciiWhitespaceAux fuel input, ValidToken t := by
  intro fuel
  induction fuel with
  | zero => intro input t ht; simp [splitAsciiWhitespaceAux] at ht
  | succ f ih =>
    intro input t ht
    unfold splitAsciiWhitespaceAux at ht
    cases hd : input.dropWhile isAsciiWhitespace with
    | nil => rw [hd] at ht; simp at ht
    | cons c rest =>
      rw [hd] at ht
      simp only [List.mem_cons] at ht
      rcases ht with ht | ht
      · subst ht
        refine ⟨by simp, ?_⟩
        intro a ha
        rcases List.mem_cons.mp ha with ha | ha
        · subst ha
          have := List.head_dropWhile_not isAsciiWhitespace input (by rw [hd]; simp)
          simpa [hd] using this
        · have := List.mem_takeWhile_imp ha
          simpa using this
      · exact ih _ t ht

theorem foldl_setAppend_mem (L : List (List Char)) :
    ∀ (acc : List (List Char)) (t : List Char),
      t ∈ L.foldl setAppend acc ↔ t ∈ acc ∨ t ∈ L := by
  induction L with
  | nil => intro acc t; simp
  | cons u L ih =>
    intro acc t
    rw [List.foldl_cons, ih]
    unfold setAppend
    by_cases hu : u ∈ acc
    · rw [if_pos hu]
      constructor
      · rintro (h | h)
        · exact Or.inl h
        · exact Or.inr (List.mem_cons_of_mem _ h)
      · rintro (h | h)
        · exact Or.inl h
        · rcases List.mem_cons.mp h with h | h
          · exact Or.inl (h ▸ hu)
          · exact Or.inr h
    · rw [if_neg hu]
      simp only [List.mem_append, List.mem_singleton, List.mem_cons]
      tauto

theorem foldl_setAppend_nodup (L : List (List Char)) :
    ∀ acc : List (List Char), acc.Nodup → (L.foldl setAppend acc).Nodup := by
  induction L with
  | nil => intro acc h; exact h
  | cons u L ih =>
    intro acc h
    rw [List.foldl_cons]
    apply ih
    unfold setAppend
    by_cases hu : u ∈ acc
    · rw [if_pos hu]; exact h
    · rw [if_neg hu]
      rw [List.nodup_append]
      refine ⟨h, List.nodup_singleton u, ?_⟩
      intro a ha hb
      simp only [List.mem_singleton] at hb
      exact hu (hb ▸ ha)

theorem foldl_setAppend_of_nodup (L : List (List Char)) :
    ∀ acc : List (List Char), (acc ++ L).Nodup → L.foldl setAppend acc = acc ++ L := by
  induction L with
  | nil => intro acc _; simp
  | cons u L ih =>
    intro acc h
    have hu : u ∉ acc := by
      intro hmem
      rw [List.nodup_append] at h
      exact h.2.2 hmem (by simp)
    rw [List.foldl_cons]
    have : setAppend acc u = acc ++ [u] := by simp [setAppend, hu]
    rw [this, ih (acc ++ [u]) (by simpa using h)]
    simp

theorem tokenSet_valid (attr : List Char) : ∀ t ∈ tokenSet attr, ValidToken t := by
  intro t ht
  unfold tokenSet at ht
  rw [foldl_setAppend_mem] at ht
  rcases ht with ht | ht
  · simp at ht
  · exact splitAux_valid _ _ t ht

theorem tokenSet_nodup (attr : List Char) : (tokenSet attr).Nodup :=
  foldl_setAppend_nodup _ [] List.nodup_nil

theorem serializeSet_cons_cons (t u : List Char) (L : List (List Char)) :
    serializeSet (t :: u :: L) = t ++ ' ' :: serializeSet (u :: L) := by
  simp [serializeSet, List.intercalate, List.intersperse]

theorem serializeSet_singleton (t : List Char) : serializeSet [t] = t := by
  simp [serializeSet, List.intercalate, List.intersperse]

/-- Splitting a serialized list of tokens gives back the tokens. -/
theorem splitAux_serializeSet (L : List (List Char)) :
    (∀ t ∈ L, ValidToken t) → ∀ fuel : Nat, (serializeSet L).length ≤ fuel →
      splitAsciiWhitespaceAux fuel (serializeSet L) = L := by
  induction L with
  | nil =>
    intro _ fuel _
    exact splitAux_nil fuel
  | cons t L ih =>
    intro hv fuel hfuel
    have ht : ValidToken t := hv t (by simp)
    have hpos : 0 < t.length := List.length_pos.mpr ht.1
    cases L with
    | nil =>
      rw [serializeSet_singleton] at hfuel ⊢
      obtain ⟨f, rfl⟩ : ∃ f, fuel = f + 1 := ⟨fuel - 1, by omega⟩
      have := splitAux_token f t [] ht (by simp)
      rw [List.append_nil] at this
      rw [this, splitAux_nil]
    | cons u L' =>
      rw [serializeSet_cons_cons] at hfuel ⊢
      simp only [List.length_append, List.length_cons] at hfuel
      obtain ⟨f, rfl⟩ : ∃ f, fuel = f + 1 := ⟨fuel - 1, by omega⟩
      rw [splitAux_token f t (' ' :: serializeSet (u :: L')) ht
        (by intro c hc; simp at hc; subst hc; rfl)]
      rw [splitAux_cons_whitespace f ' ' _ rfl]
      rw [ih (fun t' ht' => hv t' (List.mem_cons_of_mem _ ht')) f
        (by omega)]

theorem tokenSet_serializeSet (L : List (List Char)) (hv : ∀ t ∈ L, ValidToken t)
    (hn : L.Nodup) : tokenSet (serializeSet L) = L := by
  unfold tokenSet splitAsciiWhitespace
  rw [splitAux_serializeSet L hv _ (le_refl _), foldl_setAppend_of_nodup L [] (by simpa using hn)]
  simp

/-! ## `classList` on class attributes -/

theorem toList_eq_iff (a b : String) : a.toList = b.toList ↔ a = b := by
  constructor
  · intro h
    exact String.ext h
  · intro h
    rw [h]

theorem setAppend_valid (S : List (List Char)) (tok : List Char)
    (hS : ∀ t ∈ S, ValidToken t) (htok : ValidToken tok) :
    ∀ t ∈ setAppend S tok, ValidToken t := by
  intro t ht
  unfold setAppend at ht
  split_ifs at ht
  · exact hS t ht
  · rcases List.mem_append.mp ht with h | h
    · exact hS t h
    · simp only [List.mem_singleton] at h
      exact h ▸ htok

theorem setAppend_nodup (S : List (List Char)) (tok : List Char) (hS : S.Nodup) :
    (setAppend S tok).Nodup := by
  have := foldl_setAppend_nodup [tok] S hS
  simpa using this

theorem mem_setAppend (S : List (List Char)) (tok t : List Char) :
    t ∈ setAppend S tok ↔ t ∈ S ∨ t = tok := by
  unfold setAppend
  split_ifs with h
  · constructor
    · exact Or.inl
    · rintro (h1 | h1)
      · exact h1
      · exact h1 ▸ h
  · simp

theorem tokenSet_addToken (cls tok : String) (htok : ValidToken tok.toList) :
    tokenSet (addToken cls tok).toList = setAppend (tokenSet cls.toList) tok.toList := by
  unfold addToken
  exact tokenSet_serializeSet _ (setAppend_valid _ _ (tokenSet_valid _) htok)
    (setAppend_nodup _ _ (tokenSet_nodup _))

theorem tokenSet_removeToken (cls tok : String) :
    tokenSet (removeToken cls tok).toList =
      (tokenSet cls.toList).filter (fun t => t ≠ tok.toList) := by
  unfold removeToken
  apply tokenSet_serializeSet
  · intro t ht
    exact tokenSet_valid _ t (List.mem_of_mem_filter ht)
  · exact (tokenSet_nodup _).filter _

theorem classListContains_addToken (cls tok u : String) (htok : ValidToken tok.toList) :
    classListContains (addToken cls tok) u = (decide (u = tok) || classListContains cls u) := by
  unfold classListContains
  rw [tokenSet_addToken cls tok htok, Bool.eq_iff_iff]
  simp only [decide_eq_true_eq, Bool.or_eq_true, mem_setAppend, toList_eq_iff]
  tauto

theorem classListContains_removeToken (cls tok u : String) :
    classListContains (removeToken cls tok) u =
      (!decide (u = tok) && classListContains cls u) := by
  unfold classListContains
  rw [tokenSet_removeToken cls tok, Bool.eq_iff_iff]
  simp only [decide_eq_true_eq, Bool.and_eq_true, Bool.not_eq_true', decide_eq_false_iff_not,
    List.mem_filter, ne_eq, decide_not, toList_eq_iff]
  tauto

theorem classListContains_toggleTokenForce (cls tok u : String) (force : Bool)
    (htok : ValidToken tok.toList) :
    classListContains (toggleTokenForce cls tok force) u =
      if u = tok then force else classListContains cls u := by
  unfold toggleTokenForce
  by_cases hu : u = tok
  · subst hu
    cases hc : classListContains cls u <;> cases force <;>
      simp [hc, classListContains_addToken _ _ _ htok, classListContains_removeToken]
  · cases hc : classListContains cls tok <;> cases force <;>
      simp [hc, hu, classListContains_addToken _ _ _ htok, classListContains_removeToken]

theorem classListContains_toggleToken (cls tok u : String) (htok : ValidToken tok.toList) :
    classListContains (toggleToken cls tok) u =
      if u = tok then !classListContains cls tok else classListContains cls u := by
  unfold toggleToken
  by_cases hu : u = tok
  · subst hu
    cases hc : classListContains cls u <;>
      simp [hc, classListContains_addToken _ _ _ htok, classListContains_removeToken]
  · cases hc : classListContains cls tok <;>
      simp [hc, hu, classListContains_addToken _ _ _ htok, classListContains_removeToken]

/-! ## Expandable sections (C8) -/

theorem forEachSection_get? (f : Nat → ExpandableSection → ExpandableSection) :
    ∀ (L : List ExpandableSection) (k j : Nat),
      (forEachSection f k L).get? j = (L.get? j).map (f (k + j)) := by
  intro L
  induction L with
  | nil => intro k j; simp [forEachSection]
  | cons sec rest ih =>
    intro k j
    cases j with
    | zero => simp [forEachSection]
    | succ j =>
      simp only [forEachSection, List.get?_cons_succ, ih]
      rw [show k + 1 + j = k + (j + 1) by omega]

theorem validToken_expanded : ValidToken "expanded".toList := by decide

theorem validToken_active : ValidToken "active".toList := by decide

/-- The sections after a click on the expand button of section `i`. -/
theorem expandBtnClick_get? (i : Nat) (st : State) (secB : ExpandableSection)
    (hB : st.page.expandableSections.get? i = some secB) (hbtn : secB.hasExpandBtn = true)
    (j : Nat) :
    (expandBtnClick i st).page.expandableSections.get? j =
      (st.page.expandableSections.get? j).map (fun sec =>
        if j = i then { sec with className := toggleToken sec.className "expanded" }
        else { sec with className := removeToken sec.className "expanded" }) := by
  unfold expandBtnClick
  simp only [hB, hbtn, if_true]
  rw [forEachSection_get?, forEachSection_get?]
  simp only [Nat.zero_add]
  cases st.page.expandableSections.get? j with
  | none => rfl
  | some sec =>
    by_cases hj : j = i
    · simp [hj]
    · simp [hj]

/-- C8: for every list of expandable sections in any configuration, after the click
listener of the expand button of section `i` has run, no section other than `i` is
expanded and section `i` is expanded exactly when it was not before; so at most one
section is expanded, and a click on a closed section `i` while a section `a` is open
leaves `a` closed and `i` open. -/
theorem C8_expand_is_mutually_exclusive (i : Nat) (st : State) (secB : ExpandableSection)
    (hB : st.page.expandableSections.get? i = some secB) (hbtn : secB.hasExpandBtn = true) :
    (∀ j sec, j ≠ i → (expandBtnClick i st).page.expandableSections.get? j = some sec →
        sec.expanded = false) ∧
      (∃ sec, (expandBtnClick i st).page.expandableSections.get? i = some sec ∧
        sec.expanded = !secB.expanded) ∧
      (∀ j k secJ secK, (expandBtnClick i st).page.expandableSections.get? j = some secJ →
        (expandBtnClick i st).page.expandableSections.get? k = some secK →
        secJ.expanded = true → secK.expanded = true → j = k) ∧
      (∀ a secA, a ≠ i → st.page.expandableSections.get? a = some secA →
        secA.expanded = true → secB.expanded = false →
        ∃ secA' secB', (expandBtnClick i st).page.expandableSections.get? a = some secA' ∧
          (expandBtnClick i st).page.expandableSections.get? i = some secB' ∧
          secA'.expanded = false ∧ secB'.expanded = true) := by
  have hget := expandBtnClick_get? i st secB hB hbtn
  have hother : ∀ j sec, j ≠ i →
      (expandBtnClick i st).page.expandableSections.get? j = some sec →
      sec.expanded = false := by
    intro j sec hj hsec
    rw [hget j] at hsec
    cases hold : st.page.expandableSections.get? j with
    | none => rw [hold] at hsec; simp at hsec
    | some old =>
      rw [hold] at hsec
      simp only [Option.map_some', if_neg hj, Option.some.injEq] at hsec
      subst hsec
      simp [ExpandableSection.expanded, classListContains_removeToken]
  have hself : ∃ sec, (expandBtnClick i st).page.expandableSections.get? i = some sec ∧
      sec.expanded = !secB.expanded := by
    refine ⟨{ secB with className := toggleToken secB.className "expanded" }, ?_, ?_⟩
    · rw [hget i, hB]
      simp only [Option.map_some', if_true]
    · simp [ExpandableSection.expanded,
        classListContains_toggleToken _ _ _ validToken_expanded]
  refine ⟨hother, hself, ?_, ?_⟩
  · intro j k secJ secK hJ hK heJ heK
    have hji : j = i := by
      by_contra hne
      have := hother j secJ hne hJ
      rw [this] at heJ
      exact Bool.false_ne_true heJ
    have hki : k = i := by
      by_contra hne
      have := hother k secK hne hK
      rw [this] at heK
      exact Bool.false_ne_true heK
    rw [hji, hki]
  · intro a secA ha hA _ hBclosed
    obtain ⟨secB', hB', hexp⟩ := hself
    refine ⟨{ secA with className := removeToken secA.className "expanded" }, secB', ?_, hB',
      ?_, ?_⟩
    · rw [hget a, hA]
      simp only [Option.map_some', if_neg ha]
    · simp [ExpandableSection.expanded, classListContains_removeToken]
    · rw [hexp, hBclosed]
      rfl

theorem C8_expand_is_mutually_exclusive_witness :
    ∃ sec, (expandBtnClick 0 (sampleState defaultSettings)).page.expandableSections.get? 0 =
        some sec ∧
      sec.expanded = !(ExpandableSection.mk "settings-item expandable" true).expanded :=
  (C8_expand_is_mutually_exclusive 0 (sampleState defaultSettings)
    ⟨"settings-item expandable", true⟩ rfl rfl).2.1

/-! ## The settings panel (C9) -/

theorem panelOpen_of_page (st st' : State)
    (h : st'.page.settingsPanel = st.page.settingsPanel) : panelOpen st' = panelOpen st := by
  unfold panelOpen
  rw [h]

theorem toggleSettingsPanel_open (st : State) (p : Page) (reveal : Bool)
    (hp : p.settingsPanel ≠ none) :
    panelOpen { st with page := toggleSettingsPanel p reveal } = reveal := by
  unfold panelOpen toggleSettingsPanel
  cases h : p.settingsPanel with
  | none => exact absurd h hp
  | some cls => simp [classListContains_toggleTokenForce _ _ _ _ validToken_active]

theorem toggleSettingsPanel_closed (st : State) (p : Page) :
    panelOpen { st with page := toggleSettingsPanel p false } = false := by
  cases h : p.settingsPanel with
  | none => simp [panelOpen, toggleSettingsPanel, h]
  | some cls => exact toggleSettingsPanel_open st p false (by simp [h])

theorem setBadgeElement_settingsPanel (p : Page) (sectionName : String) (b : Badge) :
    (setBadgeElement p sectionName b).settingsPanel = p.settingsPanel := by
  unfold setBadgeElement
  split_ifs <;> rfl

theorem updateBadgeCount_settingsPanel (s : Settings) (sectionName : String) (p : Page) :
    (updateBadgeCount s sectionName p).settingsPanel = p.settingsPanel := by
  unfold updateBadgeCount
  split
  · rfl
  · exact setBadgeElement_settingsPanel _ _ _

theorem applyPageWidth_settingsPanel (s : Settings) (p q : Page)
    (h : applyPageWidth s p = .ok q) : q.settingsPanel = p.settingsPanel := by
  unfold applyPageWidth classListAdd at h
  cases hv : validateToken ("width-" ++ s.pageWidth) with
  | error e => rw [hv] at h; cases h
  | ok u =>
    rw [hv] at h
    cases h
    rfl

theorem applyPageWidth_thrown_settingsPanel (s : Settings) (p : Page) (t : Thrown Page)
    (h : applyPageWidth s p = .error t) : t.state.settingsPanel = p.settingsPanel := by
  unfold applyPageWidth classListAdd at h
  cases hv : validateToken ("width-" ++ s.pageWidth) with
  | error e =>
    rw [hv] at h
    cases h
    rfl
  | ok u => rw [hv] at h; cases h

theorem pageWidthChange_settingsPanel (st : State) :
    (stateAfter (pageWidthChange st)).page.settingsPanel = st.page.settingsPanel := by
  unfold pageWidthChange
  cases hs : st.page.pageWidth with
  | none => rfl
  | some sel =>
    simp only
    cases hp : applyPageWidth { st.settings with pageWidth := sel.value } st.page with
    | error t => exact applyPageWidth_thrown_settingsPanel _ _ _ hp
    | ok q => exact applyPageWidth_settingsPanel _ _ _ hp

theorem updateNavigationVisibility_page (activeId : String) (st : State) :
    (stateAfter (updateNavigationVisibility activeId st)).page.settingsPanel =
      st.page.settingsPanel := by
  unfold updateNavigationVisibility
  cases forEachNavLink activeId st.page.navLinks <;> rfl

theorem handleOrientationChange_closed (orientation : Int) (st : State) :
    panelOpen (handleOrientationChange orientation st) = false := by
  unfold handleOrientationChange
  cases hp : st.page.settingsPanel with
  | none => simp [hp, panelOpen]
  | some cls =>
    simp only [hp]
    cases hc : classListContains cls "active" with
    | true =>
      simp only [if_true]
      exact toggleSettingsPanel_closed st _
    | false =>
      simp [panelOpen, hp, hc]

/-- A listener that does not toggle the panel leaves it as it was, whether it returns or
throws. -/
theorem handle_keeps_panel (e : Event) (st : State) (he : e.togglesPanel = false) :
    panelOpen (stateAfter (handle e st)) = panelOpen st := by
  cases e with
  | settingsBtnClick => simp [Event.togglesPanel] at he
  | closeSettingsClick => simp [Event.togglesPanel] at he
  | orientationChangeTimer o => simp [Event.togglesPanel] at he
  | documentClick inPanel inBtn =>
    simp only [handle, documentClick]
    cases hp : st.page.settingsPanel with
    | none => rfl
    | some cls =>
      cases inPanel with
      | true => rfl
      | false =>
        cases inBtn with
        | false => simp [Event.togglesPanel] at he
        | true =>
          cases hb : st.page.settingsBtn <;> rfl
  | keydown key =>
    simp only [Event.togglesPanel, decide_eq_false_iff_not] at he
    simp only [handle, keydown, if_neg he]
    rfl
  | expandBtnClick i =>
    apply panelOpen_of_page
    show (expandBtnClick i st).page.settingsPanel = st.page.settingsPanel
    unfold expandBtnClick
    split
    · rfl
    · split_ifs <;> rfl
  | themeSwitchChange =>
    apply panelOpen_of_page
    show (themeSwitchChange st).page.settingsPanel = st.page.settingsPanel
    unfold themeSwitchChange
    split <;> rfl
  | decreaseFontClick =>
    apply panelOpen_of_page
    show (decreaseFontClick st).page.settingsPanel = st.page.settingsPanel
    unfold decreaseFontClick
    split_ifs <;> rfl
  | increaseFontClick =>
    apply panelOpen_of_page
    show (increaseFontClick st).page.settingsPanel = st.page.settingsPanel
    unfold increaseFontClick
    split_ifs <;> rfl
  | enableAnimationsChange =>
    apply panelOpen_of_page
    show (enableAnimationsChange st).page.settingsPanel = st.page.settingsPanel
    unfold enableAnimationsChange
    split
    · rfl
    · exact updateBadgeCount_settingsPanel _ _ _
  | reducedMotionChange =>
    apply panelOpen_of_page
    show (reducedMotionChange st).page.settingsPanel = st.page.settingsPanel
    unfold reducedMotionChange
    split
    · rfl
    · exact updateBadgeCount_settingsPanel _ _ _
  | highContrastChange =>
    apply panelOpen_of_page
    show (highContrastChange st).page.settingsPanel = st.page.settingsPanel
    unfold highContrastChange
    split
    · rfl
    · exact updateBadgeCount_settingsPanel _ _ _
  | screenReaderChange =>
    apply panelOpen_of_page
    show (screenReaderChange st).page.settingsPanel = st.page.settingsPanel
    unfold screenReaderChange
    split
    · rfl
    · exact updateBadgeCount_settingsPanel _ _ _
  | analyticsChange =>
    apply panelOpen_of_page
    show (analyticsChange st).page.settingsPanel = st.page.settingsPanel
    unfold analyticsChange
    split
    · rfl
    · exact updateBadgeCount_settingsPanel _ _ _
  | cookiesChange =>
    apply panelOpen_of_page
    show (cookiesChange st).page.settingsPanel = st.page.settingsPanel
    unfold cookiesChange
    split
    · rfl
    · exact updateBadgeCount_settingsPanel _ _ _
  | languageSelectChange =>
    apply panelOpen_of_page
    show (languageSelectChange st).page.settingsPanel = st.page.settingsPanel
    unfold languageSelectChange
    split <;> rfl
  | pageWidthChange =>
    exact panelOpen_of_page _ _ (pageWidthChange_settingsPanel st)
  | resizeTimer innerHeight screenHeight =>
    apply panelOpen_of_page
    simp only [handle]
    cases st.initialized with
    | false => rfl
    | true =>
      show (handleViewportChange innerHeight screenHeight st).page.settingsPanel =
        st.page.settingsPanel
      unfold handleViewportChange
      split_ifs <;> rfl
  | sectionActive activeId =>
    simp only [handle]
    cases st.initialized with
    | false => rfl
    | true => exact panelOpen_of_page _ _ (updateNavigationVisibility_page activeId st)
  | scrollTimer =>
    simp only [handle]
    split_ifs <;> rfl
  | settingsPanelClick => rfl
  | navLinkClick i selectorParses =>
    simp only [handle]
    split_ifs <;> rfl
  | navLinkMouseEnter i => rfl
  | logoContainerClick => rfl
  | sectionRevealed i => rfl
  | touchStart => rfl
  | touchEnd => rfl
  | mouseMove => rfl

set_option maxRecDepth 100000 in
/-- C9, as stated, fails in a state the code reaches: with the stored page width
`full width` the constructor throws in `applySettings`, after `setupEventListeners`.
The settings button then opens the panel, and neither the Escape key (`window.portfolio`
is undefined) nor an orientation change (its listener was not registered) closes it. -/
theorem C9_escape_and_rotation_leave_panel_open :
    ∃ st0 st1,
      construct desktopEnv [("pageWidth", "full width")] samplePage =
        .error ⟨.invalidCharacterError, st0⟩ ∧
      handle .settingsBtnClick st0 = .ok st1 ∧ panelOpen st1 = true ∧
      (∃ st2, handle (.keydown "Escape") st1 = .ok st2 ∧ panelOpen st2 = true) ∧
      (∃ st2, handle (.orientationChangeTimer 90) st1 = .ok st2 ∧ panelOpen st2 = true) :=
  ⟨_, _, rfl, rfl, by decide, ⟨_, rfl, by decide⟩, ⟨_, rfl, by decide⟩⟩

/-- C9, amended: the settings panel is open or closed according to the class `active`.
From either state the listener of the settings button leaves it open (when the panel
exists) and the listener of the close button leaves it closed; once the constructor has
returned, the Escape key and the handler of an orientation change leave it closed from
either state; a click outside the panel and outside the settings button leaves it
closed; and the listener of any other event leaves the panel as it was, whether it
returns or throws. Where the constructor has thrown, the Escape key and an orientation
change leave the whole state as it was. -/
theorem C9_settings_panel_state_machine (st : State) :
    (st.page.settingsBtn = true → st.page.settingsPanel ≠ none →
        ∃ st', handle .settingsBtnClick st = .ok st' ∧ panelOpen st' = true) ∧
      (st.page.closeSettings = true →
        ∃ st', handle .closeSettingsClick st = .ok st' ∧ panelOpen st' = false) ∧
      (st.initialized = true →
        ∃ st', handle (.keydown "Escape") st = .ok st' ∧ panelOpen st' = false) ∧
      (st.initialized = true → ∀ orientation : Int,
        ∃ st', handle (.orientationChangeTimer orientation) st = .ok st' ∧
          panelOpen st' = false) ∧
      (st.page.settingsBtn = true →
        ∃ st', handle (.documentClick false false) st = .ok st' ∧ panelOpen st' = false) ∧
      (∀ (e : Event) (st' : State), e.togglesPanel = false → handle e st = .ok st' →
        panelOpen st' = panelOpen st) ∧
      (∀ (e : Event) (thrown : Thrown State), e.togglesPanel = false →
        handle e st = .error thrown → panelOpen thrown.state = panelOpen st) ∧
      (st.initialized = false →
        handle (.keydown "Escape") st = .ok st ∧
          ∀ orientation : Int, handle (.orientationChangeTimer orientation) st = .ok st) := by
  refine ⟨?_, ?_, ?_, ?_, ?_, ?_, ?_, ?_⟩
  · intro hbtn hpanel
    refine ⟨settingsBtnClick st, rfl, ?_⟩
    unfold settingsBtnClick
    rw [if_pos hbtn]
    exact toggleSettingsPanel_open st st.page true hpanel
  · intro hclose
    refine ⟨closeSettingsClick st, rfl, ?_⟩
    unfold closeSettingsClick
    rw [if_pos hclose]
    exact toggleSettingsPanel_closed st st.page
  · intro hinit
    refine ⟨keydown "Escape" st, rfl, ?_⟩
    unfold keydown
    rw [if_pos rfl, if_pos hinit]
    exact toggleSettingsPanel_closed st st.page
  · intro hinit orientation
    refine ⟨handleOrientationChange orientation st, ?_,
      handleOrientationChange_closed orientation st⟩
    simp only [handle, hinit, if_true]
    rfl
  · intro hbtn
    simp only [handle, documentClick]
    cases hp : st.page.settingsPanel with
    | none => exact ⟨st, rfl, by simp [panelOpen, hp]⟩
    | some cls =>
      simp only [hbtn, Bool.false_eq_true, if_false, Bool.not_true]
      cases hc : classListContains cls "active" with
      | true =>
        simp only [if_true]
        exact ⟨_, rfl, toggleSettingsPanel_closed st st.page⟩
      | false =>
        simp only [Bool.false_eq_true, if_false]
        exact ⟨st, rfl, by simp [panelOpen, hp, hc]⟩
  · intro e st' he h
    have := handle_keeps_panel e st he
    rw [h] at this
    exact this
  · intro e thrown he h
    have := handle_keeps_panel e st he
    rw [h] at this
    exact this
  · intro hinit
    refine ⟨?_, fun orientation => ?_⟩
    · simp only [handle, keydown, hinit, if_true, Bool.false_eq_true, if_false]
      rfl
    · simp only [handle, hinit, Bool.false_eq_true, if_false]
      rfl

set_option maxRecDepth 100000 in
/-- C9, amended, on the sample page with the default settings: the settings button
opens the panel, and the Escape key closes it. -/
theorem C9_settings_panel_state_machine_witness :
    (sampleState defaultSettings).page.settingsBtn = true ∧
      (sampleState defaultSettings).initialized = true ∧
      (∃ st', handle .settingsBtnClick (sampleState defaultSettings) = .ok st' ∧
        panelOpen st' = true) ∧
      (∃ st', handle (.keydown "Escape") (sampleState defaultSettings) = .ok st' ∧
        panelOpen st' = false) :=
  ⟨rfl, rfl,
    (C9_settings_panel_state_machine (sampleState defaultSettings)).1 rfl (by decide),
    (C9_settings_panel_state_machine (sampleState defaultSettings)).2.2.1 rfl⟩

/-! ## Toggling twice (C5) -/

set_option maxRecDepth 100000 in
/-- C5 at a failing input: on a phone whose storage holds `enableAnimations` =
`false`, the constructor leaves `body` with the class `reduced-motion` (added by
`optimizePerformance`) although `reducedMotion` is false. Toggling `reducedMotion`
twice, or `enableAnimations` twice, gives back the settings but not the class: the
change listeners set the class from `reducedMotion` alone. -/
theorem C5_phone_loses_reduced_motion_class :
    ∃ st0, construct phoneEnv [("enableAnimations", "false")] samplePage = .ok st0 ∧
      st0.settings.reducedMotion = false ∧
      (appliedState st0.page).reducedMotion = true ∧
      (toggleField .reducedMotion (toggleField .reducedMotion st0)).settings = st0.settings ∧
      (appliedState
        (toggleField .reducedMotion (toggleField .reducedMotion st0)).page).reducedMotion =
        false ∧
      (toggleField .enableAnimations (toggleField .enableAnimations st0)).settings =
        st0.settings ∧
      (appliedState
        (toggleField .enableAnimations (toggleField .enableAnimations st0)).page).reducedMotion =
        false :=
  ⟨_, rfl, by decide⟩

/-! ## The page width class (C6, C10) -/

set_option maxRecDepth 100000 in
/-- C6 at a failing input: with the page width `extra-wide`, a first `applySettings`
on the sample page leaves the classes `home width-extra-wide`; a second one makes the
regular expression cut `width-extra` out of `width-extra-wide`, and leaves the classes
`home -wide width-extra-wide`. -/
theorem C6_apply_twice_adds_a_class :
    ∃ once twice,
      applySettings { defaultSettings with pageWidth := "extra-wide" } samplePage = .ok once ∧
      applySettings { defaultSettings with pageWidth := "extra-wide" } once = .ok twice ∧
      classesOf once.bodyClass = ["home", "width-extra-wide"] ∧
      classesOf twice.bodyClass = ["home", "-wide", "width-extra-wide"] ∧
      once ≠ twice :=
  ⟨_, _, rfl, rfl, by decide⟩

set_option maxRecDepth 100000 in
/-- C10 at failing inputs: on a body whose classes are `home width-extra-wide` (as
`applyPageWidth` leaves them for the page width `extra-wide`), `applyPageWidth` for
`container` leaves `home -wide width-container`, with a class `-wide` that was not
there; and on a body with the class `full-width-layout` it leaves `full-
width-container`, with that class cut down to `full-`. -/
theorem C10_width_pattern_cuts_classes :
    (∃ p, applyPageWidth { defaultSettings with pageWidth := "extra-wide" } samplePage = .ok p ∧
      classesOf p.bodyClass = ["home", "width-extra-wide"] ∧
      ∃ q, applyPageWidth { defaultSettings with pageWidth := "container" } p = .ok q ∧
        classesOf q.bodyClass = ["home", "-wide", "width-container"]) ∧
      ∃ q, applyPageWidth { defaultSettings with pageWidth := "container" }
          { samplePage with bodyClass := "full-width-layout" } = .ok q ∧
        classesOf q.bodyClass = ["full-", "width-container"] :=
  ⟨⟨_, rfl, by decide, _, rfl, by decide⟩, _, rfl, by decide⟩

/-! ## The regular expression on well-formed class attributes -/

theorem matchWidthHere_eq_some (s out : List Char) :
    matchWidthHere s = some out ↔
      ∃ c rest, s = 'w' :: 'i' :: 'd' :: 't' :: 'h' :: '-' :: c :: rest ∧
        isWordChar c = true ∧ out = rest.dropWhile isWordChar := by
  unfold matchWidthHere
  split
  · rename_i c rest
    constructor
    · intro h
      split_ifs at h with hc
      exact ⟨c, rest, rfl, hc, (Option.some.inj h).symm⟩
    · rintro ⟨c', rest', heq, hc, hout⟩
      simp only [List.cons.injEq, true_and] at heq
      obtain ⟨rfl, rfl⟩ := heq
      rw [if_pos hc, hout]
  · rename_i hno
    constructor
    · intro h; cases h
    · rintro ⟨c, rest, heq, _, _⟩
      exact absurd heq (hno c rest)

theorem length_dropWhile_le (p : Char → Bool) (l : List Char) :
    (l.dropWhile p).length ≤ l.length :=
  (List.dropWhile_sublist p).length_le

theorem matchWidthHere_length (s out : List Char) (h : matchWidthHere s = some out) :
    out.length < s.length := by
  obtain ⟨c, rest, rfl, _, rfl⟩ := (matchWidthHere_eq_some s out).mp h
  have := length_dropWhile_le isWordChar rest
  simp only [List.length_cons]
  omega

theorem removeWidthAux_fuel : ∀ (fuel : Nat) (s : List Char) (fuel' : Nat),
    s.length ≤ fuel → s.length ≤ fuel' → removeWidthAux fuel s = removeWidthAux fuel' s := by
  intro fuel
  induction fuel with
  | zero =>
    intro s fuel' h _
    have hs : s = [] := List.length_eq_zero.mp (Nat.le_zero.mp h)
    subst hs
    cases fuel' <;> rfl
  | succ f ih =>
    intro s fuel' h h'
    cases s with
    | nil => cases fuel' <;> rfl
    | cons c cs =>
      obtain ⟨f', rfl⟩ : ∃ f', fuel' = f' + 1 :=
        ⟨fuel' - 1, by simp only [List.length_cons] at h'; omega⟩
      simp only [List.length_cons] at h h'
      simp only [removeWidthAux]
      cases hm : matchWidthHere (c :: cs) with
      | none => simp only [ih cs f' (by omega) (by omega)]
      | some rest =>
        have := matchWidthHere_length _ _ hm
        simp only [List.length_cons] at this
        exact ih rest f' (by omega) (by omega)

theorem removeWidthChars_nil : removeWidthChars [] = [] := rfl

theorem removeWidthChars_cons (c : Char) (cs : List Char) :
    removeWidthChars (c :: cs) =
      match matchWidthHere (c :: cs) with
      | some rest => removeWidthChars rest
      | none => c :: removeWidthChars cs := by
  unfold removeWidthChars
  simp only [List.length_cons, removeWidthAux]
  cases hm : matchWidthHere (c :: cs) with
  | none => rfl
  | some rest =>
    have := matchWidthHere_length _ _ hm
    simp only [List.length_cons] at this
    exact removeWidthAux_fuel _ _ _ (by omega) (le_refl _)

theorem splitAux_fuel : ∀ (fuel : Nat) (s : List Char) (fuel' : Nat),
    s.length ≤ fuel → s.length ≤ fuel' →
      splitAsciiWhitespaceAux fuel s = splitAsciiWhitespaceAux fuel' s := by
  intro fuel
  induction fuel with
  | zero =>
    intro s fuel' h _
    have hs : s = [] := List.length_eq_zero.mp (Nat.le_zero.mp h)
    subst hs
    rw [splitAux_nil, splitAux_nil]
  | succ f ih =>
    intro s fuel' h h'
    cases fuel' with
    | zero =>
      have hs : s = [] := List.length_eq_zero.mp (Nat.le_zero.mp h')
      subst hs
      rw [splitAux_nil, splitAux_nil]
    | succ f' =>
      simp only [splitAsciiWhitespaceAux]
      cases hd : s.dropWhile isAsciiWhitespace with
      | nil => rfl
      | cons c rest =>
        have h1 := length_dropWhile_le isAsciiWhitespace s
        have h2 := length_dropWhile_le (fun d => !isAsciiWhitespace d) rest
        rw [hd] at h1
        simp only [List.length_cons] at h1
        dsimp only
        rw [ih (rest.dropWhile (fun d => !isAsciiWhitespace d)) f' (by omega) (by omega)]

theorem char_eq_of_toNat (c : Char) (n : Nat) (h : c.toNat = n) : c = Char.ofNat n := by
  rw [← h]
  exact (Char.ofNat_toNat c).symm

theorem whitespace_cases (c : Char) (h : isAsciiWhitespace c = true) :
    c = Char.ofNat 9 ∨ c = Char.ofNat 10 ∨ c = Char.ofNat 12 ∨ c = Char.ofNat 13 ∨
      c = Char.ofNat 32 := by
  simp only [isAsciiWhitespace, Bool.or_eq_true, beq_iff_eq] at h
  rcases h with (((h | h) | h) | h) | h
  · exact Or.inl (char_eq_of_toNat c _ h)
  · exact Or.inr (Or.inl (char_eq_of_toNat c _ h))
  · exact Or.inr (Or.inr (Or.inl (char_eq_of_toNat c _ h)))
  · exact Or.inr (Or.inr (Or.inr (Or.inl (char_eq_of_toNat c _ h))))
  · exact Or.inr (Or.inr (Or.inr (Or.inr (char_eq_of_toNat c _ h))))

theorem isWordChar_of_whitespace (c : Char) (h : isAsciiWhitespace c = true) :
    isWordChar c = false := by
  rcases whitespace_cases c h with h | h | h | h | h <;> subst h <;> decide

theorem dropWhile_append_of_head (p : Char → Bool) (r rest : List Char)
    (hrest : ∀ c, rest.head? = some c → p c = false) :
    (r ++ rest).dropWhile p = r.dropWhile p ++ rest := by
  induction r with
  | nil =>
    cases rest with
    | nil => rfl
    | cons c cs => simp [List.dropWhile_cons, hrest c rfl]
  | cons a r ih =>
    simp only [List.cons_append, List.dropWhile_cons]
    split_ifs
    · exact ih
    · rfl

/-- Whether the regular expression matches at the start of a token does not depend
on what follows the token. -/
theorem matchWidthHere_append (t rest : List Char)
    (hrest : ∀ c, rest.head? = some c → isAsciiWhitespace c = true) :
    matchWidthHere (t ++ rest) = (matchWidthHere t).map (fun out => out ++ rest) := by
  have hword : ∀ c, rest.head? = some c → isWordChar c = false :=
    fun c hc => isWordChar_of_whitespace c (hrest c hc)
  cases hm : matchWidthHere t with
  | some out =>
    obtain ⟨c, r, rfl, hc, rfl⟩ := (matchWidthHere_eq_some t out).mp hm
    exact (matchWidthHere_eq_some _ _).mpr
      ⟨c, r ++ rest, rfl, hc, (dropWhile_append_of_head isWordChar r rest hword).symm⟩
  | none =>
    simp only [Option.map_none']
    cases hm2 : matchWidthHere (t ++ rest) with
    | none => rfl
    | some out =>
      exfalso
      obtain ⟨c, r, heq, hc, _⟩ := (matchWidthHere_eq_some _ out).mp hm2
      rcases t with _ | ⟨a1, _ | ⟨a2, _ | ⟨a3, _ | ⟨a4, _ | ⟨a5, _ | ⟨a6, _ | ⟨a7, t'⟩⟩⟩⟩⟩⟩⟩
      · simp only [List.nil_append] at heq
        subst heq
        exact absurd (hrest _ rfl) (by decide)
      · simp only [List.cons_append, List.nil_append, List.cons.injEq] at heq
        obtain ⟨-, rfl⟩ := heq
        exact absurd (hrest _ rfl) (by decide)
      · simp only [List.cons_append, List.nil_append, List.cons.injEq] at heq
        obtain ⟨-, -, rfl⟩ := heq
        exact absurd (hrest _ rfl) (by decide)
      · simp only [List.cons_append, List.nil_append, List.cons.injEq] at heq
        obtain ⟨-, -, -, rfl⟩ := heq
        exact absurd (hrest _ rfl) (by decide)
      · simp only [List.cons_append, List.nil_append, List.cons.injEq] at heq
        obtain ⟨-, -, -, -, rfl⟩ := heq
        exact absurd (hrest _ rfl) (by decide)
      · simp only [List.cons_append, List.nil_append, List.cons.injEq] at heq
        obtain ⟨-, -, -, -, -, rfl⟩ := heq
        exact absurd (hrest _ rfl) (by decide)
      · simp only [List.cons_append, List.nil_append, List.cons.injEq] at heq
        obtain ⟨-, -, -, -, -, -, rfl⟩ := heq
        have := hword c rfl
        rw [hc] at this
        exact Bool.noConfusion this
      · simp only [List.cons_append, List.cons.injEq] at heq
        obtain ⟨rfl, rfl, rfl, rfl, rfl, rfl, rfl, -⟩ := heq
        have := (matchWidthHere_eq_some _ (t'.dropWhile isWordChar)).mpr ⟨a7, t', rfl, hc, rfl⟩
        rw [hm] at this
        cases this

theorem split_cons_whitespace (c : Char) (cs : List Char) (hc : isAsciiWhitespace c = true) :
    splitAsciiWhitespace (c :: cs) = splitAsciiWhitespace cs := by
  unfold splitAsciiWhitespace
  rw [splitAux_cons_whitespace _ c cs hc]
  exact splitAux_fuel _ _ _ (by simp) (le_refl _)

theorem split_token (t rest : List Char) (ht : ValidToken t)
    (hrest : ∀ c, rest.head? = some c → isAsciiWhitespace c = true) :
    splitAsciiWhitespace (t ++ rest) = t :: splitAsciiWhitespace rest := by
  unfold splitAsciiWhitespace
  have hpos : 0 < t.length := List.length_pos.mpr ht.1
  obtain ⟨f, hf⟩ : ∃ f, (t ++ rest).length = f + 1 :=
    ⟨(t ++ rest).length - 1, by simp only [List.length_append]; omega⟩
  rw [hf, splitAux_token f t rest ht hrest]
  congr 1
  apply splitAux_fuel
  · simp only [List.length_append] at hf
    omega
  · exact le_refl _

/-- A string that does not start with whitespace starts with a token. -/
theorem token_decomposition (c : Char) (cs : List Char) (hc : isAsciiWhitespace c = false) :
    ∃ t rest, c :: cs = t ++ rest ∧ ValidToken t ∧
      (∀ d, rest.head? = some d → isAsciiWhitespace d = true) ∧ rest.length ≤ cs.length := by
  refine ⟨c :: cs.takeWhile (fun d => !isAsciiWhitespace d),
    cs.dropWhile (fun d => !isAsciiWhitespace d), ?_, ⟨by simp, ?_⟩, ?_, length_dropWhile_le _ _⟩
  · simp
  · intro d hd
    rcases List.mem_cons.mp hd with hd | hd
    · rw [hd]; exact hc
    · simpa using List.mem_takeWhile_imp hd
  · intro d hd
    have hne : cs.dropWhile (fun d => !isAsciiWhitespace d) ≠ [] := by
      intro h0
      rw [h0] at hd
      cases hd
    have := List.head_dropWhile_not (fun d => !isAsciiWhitespace d) cs hne
    rw [List.head?_eq_head hne] at hd
    cases hd
    simpa using this

theorem matchWidthHere_whitespace (c : Char) (cs : List Char)
    (hc : isAsciiWhitespace c = true) : matchWidthHere (c :: cs) = none := by
  cases hm : matchWidthHere (c :: cs) with
  | none => rfl
  | some out =>
    obtain ⟨c', r, heq, _, _⟩ := (matchWidthHere_eq_some _ out).mp hm
    simp only [List.cons.injEq] at heq
    rw [heq.1] at hc
    exact absurd hc (by decide)

theorem removeWidthChars_cons_whitespace (c : Char) (cs : List Char)
    (hc : isAsciiWhitespace c = true) :
    removeWidthChars (c :: cs) = c :: removeWidthChars cs := by
  rw [removeWidthChars_cons, matchWidthHere_whitespace c cs hc]

theorem head_removeWidthChars (rest : List Char)
    (hrest : ∀ c, rest.head? = some c → isAsciiWhitespace c = true) :
    ∀ c, (removeWidthChars rest).head? = some c → isAsciiWhitespace c = true := by
  cases rest with
  | nil => intro c hc; cases hc
  | cons d ds =>
    have hd := hrest d rfl
    rw [removeWidthChars_cons_whitespace d ds hd]
    intro c hc
    cases hc
    exact hd

theorem removeWidthChars_widthClass (t rest : List Char) (ht : isWidthClass t = true)
    (hrest : ∀ c, rest.head? = some c → isAsciiWhitespace c = true) :
    removeWidthChars (t ++ rest) = removeWidthChars rest := by
  have hm : matchWidthHere t = some [] := by simpa [isWidthClass] using ht
  have happ := matchWidthHere_append t rest hrest
  rw [hm] at happ
  obtain ⟨c, r, heq, _, _⟩ := (matchWidthHere_eq_some t []).mp hm
  subst heq
  simp only [List.cons_append] at happ ⊢
  rw [removeWidthChars_cons, happ]
  rfl

theorem hasWidthMatch_cons (a : Char) (t : List Char) :
    hasWidthMatch (a :: t) = ((matchWidthHere (a :: t)).isSome || hasWidthMatch t) := by
  simp [hasWidthMatch, List.tails]

theorem removeWidthChars_noMatch (t rest : List Char) (ht : hasWidthMatch t = false)
    (hrest : ∀ c, rest.head? = some c → isAsciiWhitespace c = true) :
    removeWidthChars (t ++ rest) = t ++ removeWidthChars rest := by
  induction t with
  | nil => rfl
  | cons a t ih =>
    rw [hasWidthMatch_cons, Bool.or_eq_false_iff] at ht
    have hnone : matchWidthHere (a :: t) = none := by
      cases h : matchWidthHere (a :: t) with
      | none => rfl
      | some out => rw [h] at ht; simp at ht
    have happ := matchWidthHere_append (a :: t) rest hrest
    rw [hnone] at happ
    simp only [List.cons_append] at happ ⊢
    rw [removeWidthChars_cons, happ]
    simp only [Option.map_none']
    rw [ih ht.2]

theorem isWidthClass_false_of_noMatch (t : List Char) (ht : hasWidthMatch t = false) :
    isWidthClass t = false := by
  cases t with
  | nil => rfl
  | cons a t =>
    rw [hasWidthMatch_cons, Bool.or_eq_false_iff] at ht
    cases h : matchWidthHere (a :: t) with
    | none => simp [isWidthClass, h]
    | some out => rw [h] at ht; simp at ht

/-- On a string whose tokens are all well formed, the regular expression removes the
width classes and leaves the other tokens. -/
theorem split_removeWidthChars : ∀ (n : Nat) (s : List Char), s.length ≤ n →
    (∀ t ∈ splitAsciiWhitespace s, WellFormedToken t) →
    splitAsciiWhitespace (removeWidthChars s) =
      (splitAsciiWhitespace s).filter (fun t => !isWidthClass t) := by
  intro n
  induction n with
  | zero =>
    intro s hs _
    have : s = [] := List.length_eq_zero.mp (Nat.le_zero.mp hs)
    subst this
    rfl
  | succ n ih =>
    intro s hs hwf
    cases s with
    | nil => rfl
    | cons c cs =>
      simp only [List.length_cons] at hs
      cases hc : isAsciiWhitespace c with
      | true =>
        rw [removeWidthChars_cons_whitespace c cs hc, split_cons_whitespace c _ hc,
          split_cons_whitespace c cs hc]
        apply ih cs (by omega)
        rw [split_cons_whitespace c cs hc] at hwf
        exact hwf
      | false =>
        obtain ⟨t, rest, heq, ht, hrest, hlen⟩ := token_decomposition c cs hc
        rw [heq] at hwf ⊢
        rw [split_token t rest ht hrest] at hwf ⊢
        have hrestwf : ∀ u ∈ splitAsciiWhitespace rest, WellFormedToken u :=
          fun u hu => hwf u (List.mem_cons_of_mem _ hu)
        have ihrest := ih rest (by omega) hrestwf
        rcases hwf t (List.mem_cons_self _ _) with hw | hw
        · rw [removeWidthChars_widthClass t rest hw hrest, ihrest]
          simp [hw]
        · rw [removeWidthChars_noMatch t rest hw hrest,
            split_token t _ ht (head_removeWidthChars rest hrest), ihrest]
          simp [isWidthClass_false_of_noMatch t hw]

theorem foldl_setAppend_filter (p : List Char → Bool) (L : List (List Char)) :
    ∀ acc : List (List Char),
      (L.filter p).foldl setAppend (acc.filter p) = (L.foldl setAppend acc).filter p := by
  induction L with
  | nil => intro acc; rfl
  | cons u L ih =>
    intro acc
    rw [List.foldl_cons, ← ih]
    cases hp : p u with
    | true =>
      rw [List.filter_cons_of_pos hp, List.foldl_cons]
      congr 1
      unfold setAppend
      by_cases hu : u ∈ acc
      · rw [if_pos hu, if_pos (List.mem_filter.mpr ⟨hu, hp⟩)]
      · rw [if_neg hu, if_neg (fun h => hu (List.mem_of_mem_filter h))]
        simp [List.filter_append, hp]
    | false =>
      rw [List.filter_cons_of_neg (by simp [hp])]
      congr 1
      unfold setAppend
      by_cases hu : u ∈ acc
      · rw [if_pos hu]
      · rw [if_neg hu]
        simp [List.filter_append, hp]

theorem mem_tokenSet (attr t : List Char) :
    t ∈ tokenSet attr ↔ t ∈ splitAsciiWhitespace attr := by
  unfold tokenSet
  rw [foldl_setAppend_mem]
  simp

/-- On a class attribute whose classes are all well formed, the token set after the
replacement is the token set before it without the width classes. -/
theorem tokenSet_removeWidthChars (attr : List Char)
    (hwf : ∀ t ∈ tokenSet attr, WellFormedToken t) :
    tokenSet (removeWidthChars attr) = (tokenSet attr).filter (fun t => !isWidthClass t) := by
  have h := split_removeWidthChars attr.length attr (le_refl _)
    (fun t ht => hwf t ((mem_tokenSet attr t).mpr ht))
  unfold tokenSet
  rw [h]
  exact foldl_setAppend_filter _ _ []

theorem validateToken_of_valid (token : String) (h : ValidToken token.toList) :
    validateToken token = .ok () := by
  obtain ⟨hne, hws⟩ := h
  unfold validateToken
  have h1 : token.toList.isEmpty = false := by
    cases hl : token.toList with
    | nil => exact absurd hl hne
    | cons a l => rfl
  have h2 : token.toList.any isAsciiWhitespace = false := by
    rw [Bool.eq_false_iff]
    intro hany
    obtain ⟨c, hc, hcw⟩ := List.any_eq_true.mp hany
    rw [hws c hc] at hcw
    exact Bool.noConfusion hcw
  rw [h1, h2]
  rfl

/-- What `applyPageWidth` does on a body whose classes are all well formed, for a page
width that makes a valid token: the width classes are removed, the other classes stay in
their order, and the class of the page width is appended unless it is among them. -/
theorem applyPageWidth_wellFormed (s : Settings) (p : Page)
    (hwf : WellFormedClasses p.bodyClass)
    (hv : ValidToken ("width-" ++ s.pageWidth).toList) :
    ∃ q, applyPageWidth s p = .ok q ∧ q = { p with bodyClass := q.bodyClass } ∧
      tokenSet q.bodyClass.toList =
        setAppend ((tokenSet p.bodyClass.toList).filter (fun t => !isWidthClass t))
          ("width-" ++ s.pageWidth).toList := by
  refine ⟨_, applyPageWidth_of_valid s p (validateToken_of_valid _ hv), rfl, ?_⟩
  simp only
  rw [tokenSet_addToken _ _ hv]
  congr 1
  exact tokenSet_removeWidthChars _ hwf

/-! ## `applySettings` as one record -/

theorem updateBadgeCount_animation (s : Settings) (p : Page) :
    updateBadgeCount s "animation" p =
      { p with animationBadge := p.animationBadge.map (fun _ => badgeFor s "animation") } := by
  obtain ⟨f1, f2, f3, f4, f5, f6, f7, f8, f9, f10, f11, f12, f13, f14, f15, f16, f17, f18,
    b1, b2, b3, f22, f23⟩ := p
  unfold updateBadgeCount badgeElement setBadgeElement
  simp only [if_pos]
  cases b1 <;> rfl

theorem updateBadgeCount_accessibility (s : Settings) (p : Page) :
    updateBadgeCount s "accessibility" p =
      { p with
        accessibilityBadge := p.accessibilityBadge.map (fun _ => badgeFor s "accessibility") } := by
  obtain ⟨f1, f2, f3, f4, f5, f6, f7, f8, f9, f10, f11, f12, f13, f14, f15, f16, f17, f18,
    b1, b2, b3, f22, f23⟩ := p
  unfold updateBadgeCount badgeElement setBadgeElement
  simp only [if_neg (show ¬ ("accessibility" = "animation") by decide), if_pos]
  cases b2 <;> rfl

theorem updateBadgeCount_privacy (s : Settings) (p : Page) :
    updateBadgeCount s "privacy" p =
      { p with privacyBadge := p.privacyBadge.map (fun _ => badgeFor s "privacy") } := by
  obtain ⟨f1, f2, f3, f4, f5, f6, f7, f8, f9, f10, f11, f12, f13, f14, f15, f16, f17, f18,
    b1, b2, b3, f22, f23⟩ := p
  unfold updateBadgeCount badgeElement setBadgeElement
  simp only [if_neg (show ¬ ("privacy" = "animation") by decide),
    if_neg (show ¬ ("privacy" = "accessibility") by decide), if_pos]
  cases b3 <;> rfl

theorem updateAllBadges_eq (s : Settings) (p : Page) :
    updateAllBadges s p =
      { p with
        animationBadge := p.animationBadge.map (fun _ => badgeFor s "animation")
        accessibilityBadge := p.accessibilityBadge.map (fun _ => badgeFor s "accessibility")
        privacyBadge := p.privacyBadge.map (fun _ => badgeFor s "privacy") } := by
  unfold updateAllBadges
  rw [updateBadgeCount_animation, updateBadgeCount_accessibility, updateBadgeCount_privacy]

theorem applySettings_eq_appliedPage (s : Settings) (p : Page)
    (hv : validateToken ("width-" ++ s.pageWidth) = .ok ()) :
    applySettings s p = .ok (appliedPage s p) := by
  simp only [applySettings, applyPageWidth_of_valid _ _ hv, updateAllBadges_eq, syncSettingsUI,
    applyTheme, applyFontSize, applyAnimationSettings, applyAccessibilitySettings, appliedPage,
    toggledClasses, bind, Except.bind, pure, Except.pure]

/-! ## A second `applySettings` on well-formed classes -/

theorem toggleTokenForce_of_contains (cls tok : String) (force : Bool)
    (h : classListContains cls tok = force) : toggleTokenForce cls tok force = cls := by
  unfold toggleTokenForce
  rw [h]
  cases force <;> rfl

theorem mem_tokenSet_toggleTokenForce (cls tok : String) (force : Bool)
    (htok : ValidToken tok.toList) (t : List Char)
    (ht : t ∈ tokenSet (toggleTokenForce cls tok force).toList) :
    t ∈ tokenSet cls.toList ∨ t = tok.toList := by
  unfold toggleTokenForce at ht
  split_ifs at ht
  · exact Or.inl ht
  · rw [tokenSet_removeToken] at ht
    exact Or.inl (List.mem_of_mem_filter ht)
  · rw [tokenSet_addToken _ _ htok, mem_setAppend] at ht
    exact ht
  · exact Or.inl ht

theorem wellFormed_toggleTokenForce (cls tok : String) (force : Bool)
    (htok : ValidToken tok.toList) (hwt : WellFormedToken tok.toList)
    (hwf : WellFormedClasses cls) : WellFormedClasses (toggleTokenForce cls tok force) := by
  intro t ht
  rcases mem_tokenSet_toggleTokenForce cls tok force htok t ht with h | h
  · exact hwf t h
  · exact h ▸ hwt

theorem wellFormed_toggledClasses (s : Settings) (cls : String) (hwf : WellFormedClasses cls) :
    WellFormedClasses (toggledClasses s cls) := by
  unfold toggledClasses
  apply wellFormed_toggleTokenForce _ _ _ (by decide) (by decide)
  apply wellFormed_toggleTokenForce _ _ _ (by decide) (by decide)
  apply wellFormed_toggleTokenForce _ _ _ (by decide) (by decide)
  exact wellFormed_toggleTokenForce _ _ _ (by decide) (by decide) hwf

/-- Membership of the four classes after the four `toggle` calls. -/
theorem classListContains_toggledClasses (s : Settings) (cls : String) :
    classListContains (toggledClasses s cls) "light-mode" = decide (s.theme = "light") ∧
      classListContains (toggledClasses s cls) "reduced-motion" = s.reducedMotion ∧
      classListContains (toggledClasses s cls) "high-contrast" = s.highContrast ∧
      classListContains (toggledClasses s cls) "screen-reader-optimized" = s.screenReader := by
  unfold toggledClasses
  refine ⟨?_, ?_, ?_, ?_⟩
  · rw [classListContains_toggleTokenForce _ _ _ _ (by decide), if_neg (by decide),
      classListContains_toggleTokenForce _ _ _ _ (by decide), if_neg (by decide),
      classListContains_toggleTokenForce _ _ _ _ (by decide), if_neg (by decide),
      classListContains_toggleTokenForce _ _ _ _ (by decide), if_pos rfl]
  · rw [classListContains_toggleTokenForce _ _ _ _ (by decide), if_neg (by decide),
      classListContains_toggleTokenForce _ _ _ _ (by decide), if_neg (by decide),
      classListContains_toggleTokenForce _ _ _ _ (by decide), if_pos rfl]
  · rw [classListContains_toggleTokenForce _ _ _ _ (by decide), if_neg (by decide),
      classListContains_toggleTokenForce _ _ _ _ (by decide), if_pos rfl]
  · rw [classListContains_toggleTokenForce _ _ _ _ (by decide), if_pos rfl]

theorem ne_width_of_head (tok v : String) (h : tok.toList.head? ≠ some 'w') :
    tok ≠ "width-" ++ v := by
  intro heq
  apply h
  rw [heq]
  simp only [String.toList, String.data_append]
  rfl

theorem removeWidth_toList (cls : String) :
    (removeWidth cls).toList = removeWidthChars cls.toList := rfl

/-- A class that is not a width class is in the class list after `applyPageWidth`
exactly when it was before, on well-formed classes. -/
theorem classListContains_pageWidth (cls tok v : String) (hwf : WellFormedClasses cls)
    (hv : ValidToken ("width-" ++ v).toList) (hnw : isWidthClass tok.toList = false)
    (hne : tok ≠ "width-" ++ v) :
    classListContains (addToken (removeWidth cls) ("width-" ++ v)) tok =
      classListContains cls tok := by
  rw [classListContains_addToken _ _ _ hv]
  simp only [hne, decide_False, Bool.false_or]
  unfold classListContains
  rw [removeWidth_toList, tokenSet_removeWidthChars _ hwf, Bool.eq_iff_iff]
  simp only [decide_eq_true_eq, List.mem_filter, Bool.not_eq_true', and_iff_left_iff_imp]
  exact fun _ => hnw

theorem setAppend_filter_setAppend (F : List (List Char)) (wv : List Char)
    (hF : ∀ t ∈ F, isWidthClass t = false) :
    setAppend ((setAppend F wv).filter (fun t => !isWidthClass t)) wv = setAppend F wv := by
  have hfilter : F.filter (fun t => !isWidthClass t) = F := by
    rw [List.filter_eq_self]
    intro t ht
    simp [hF t ht]
  by_cases hmem : wv ∈ F
  · have h1 : setAppend F wv = F := by simp [setAppend, hmem]
    rw [h1, hfilter, h1]
  · have h1 : setAppend F wv = F ++ [wv] := by simp [setAppend, hmem]
    rw [h1, List.filter_append, hfilter]
    cases hw : isWidthClass wv with
    | true =>
      have : [wv].filter (fun t => !isWidthClass t) = [] := by simp [hw]
      rw [this, List.append_nil, h1]
    | false =>
      have : [wv].filter (fun t => !isWidthClass t) = [wv] := by simp [hw]
      rw [this]
      simp [setAppend]

/-- The class attribute that `applyPageWidth` writes is left as it is by a second
`applyPageWidth`, when the classes are well formed and the class of the page width too. -/
theorem pageWidth_classes_fixed (cls v : String) (hwf : WellFormedClasses cls)
    (hv : ValidToken ("width-" ++ v).toList) (hwv : WellFormedToken ("width-" ++ v).toList) :
    addToken (removeWidth (addToken (removeWidth cls) ("width-" ++ v))) ("width-" ++ v) =
      addToken (removeWidth cls) ("width-" ++ v) ∧
      WellFormedClasses (addToken (removeWidth cls) ("width-" ++ v)) := by
  have hS1 : tokenSet (addToken (removeWidth cls) ("width-" ++ v)).toList =
      setAppend ((tokenSet cls.toList).filter (fun t => !isWidthClass t))
        ("width-" ++ v).toList := by
    rw [tokenSet_addToken _ _ hv, removeWidth_toList, tokenSet_removeWidthChars _ hwf]
  have hwf5 : WellFormedClasses (addToken (removeWidth cls) ("width-" ++ v)) := by
    intro t ht
    rw [hS1, mem_setAppend] at ht
    rcases ht with ht | ht
    · exact hwf t (List.mem_of_mem_filter ht)
    · exact ht ▸ hwv
  refine ⟨?_, hwf5⟩
  have hF : ∀ t ∈ (tokenSet cls.toList).filter (fun t => !isWidthClass t),
      isWidthClass t = false := by
    intro t ht
    simpa using (List.mem_filter.mp ht).2
  have key : setAppend (tokenSet (removeWidth (addToken (removeWidth cls)
      ("width-" ++ v))).toList) ("width-" ++ v).toList =
      setAppend (tokenSet (removeWidth cls).toList) ("width-" ++ v).toList := by
    rw [removeWidth_toList, tokenSet_removeWidthChars _ hwf5, hS1,
      setAppend_filter_setAppend _ _ hF, removeWidth_toList, tokenSet_removeWidthChars _ hwf]
  show String.mk _ = String.mk _
  rw [key]

theorem toggledClasses_fixed (s : Settings) (cls : String) (hwf : WellFormedClasses cls)
    (hv : ValidToken ("width-" ++ s.pageWidth).toList) :
    toggledClasses s
        (addToken (removeWidth (toggledClasses s cls)) ("width-" ++ s.pageWidth)) =
      addToken (removeWidth (toggledClasses s cls)) ("width-" ++ s.pageWidth) := by
  have hwf4 := wellFormed_toggledClasses s cls hwf
  obtain ⟨h1, h2, h3, h4⟩ := classListContains_toggledClasses s cls
  have k1 := classListContains_pageWidth (toggledClasses s cls) "light-mode" s.pageWidth hwf4 hv
    (by decide) (ne_width_of_head _ _ (by decide))
  have k2 := classListContains_pageWidth (toggledClasses s cls) "reduced-motion" s.pageWidth
    hwf4 hv (by decide) (ne_width_of_head _ _ (by decide))
  have k3 := classListContains_pageWidth (toggledClasses s cls) "high-contrast" s.pageWidth
    hwf4 hv (by decide) (ne_width_of_head _ _ (by decide))
  have k4 := classListContains_pageWidth (toggledClasses s cls) "screen-reader-optimized"
    s.pageWidth hwf4 hv (by decide) (ne_width_of_head _ _ (by decide))
  rw [h1] at k1
  rw [h2] at k2
  rw [h3] at k3
  rw [h4] at k4
  generalize addToken (removeWidth (toggledClasses s cls)) ("width-" ++ s.pageWidth) = c5
    at k1 k2 k3 k4
  unfold toggledClasses
  rw [toggleTokenForce_of_contains c5 _ _ k1, toggleTokenForce_of_contains c5 _ _ k2,
    toggleTokenForce_of_contains c5 _ _ k3, toggleTokenForce_of_contains c5 _ _ k4]

theorem setValue_setValue (sel : Select) (v : String) :
    (sel.setValue v).setValue v = sel.setValue v := by
  unfold Select.setValue
  by_cases h : v ∈ sel.options <;> simp [h]

/-- On a body whose classes are all well formed, and for a page width whose class is a
valid and well-formed token, the page that `applySettings` leaves is left as it is by a
second `applySettings`. -/
theorem appliedPage_appliedPage (s : Settings) (p : Page)
    (hwf : WellFormedClasses p.bodyClass)
    (hv : ValidToken ("width-" ++ s.pageWidth).toList)
    (hwv : WellFormedToken ("width-" ++ s.pageWidth).toList) :
    appliedPage s (appliedPage s p) = appliedPage s p := by
  have hcls := toggledClasses_fixed s p.bodyClass hwf hv
  have hfix := (pageWidth_classes_fixed (toggledClasses s p.bodyClass) s.pageWidth
    (wellFormed_toggledClasses s _ hwf) hv hwv).1
  unfold appliedPage
  simp only [hcls, hfix, Option.map_map, Function.comp_def, setValue_setValue]
  by_cases h : s.fontSize < 0 <;> simp only [h, if_true, if_false]

/-- Where C6 holds: on a body whose classes are all well formed, and for a page width
whose class is a valid and well-formed token (such as a page width made of word
characters), `applySettings` completes and a second call leaves the page as the first
call left it. -/
theorem applySettings_twice_on_wellFormed (s : Settings) (p : Page)
    (hwf : WellFormedClasses p.bodyClass)
    (hv : ValidToken ("width-" ++ s.pageWidth).toList)
    (hwv : WellFormedToken ("width-" ++ s.pageWidth).toList) :
    ∃ once, applySettings s p = .ok once ∧ applySettings s once = .ok once := by
  have hok := validateToken_of_valid _ hv
  refine ⟨appliedPage s p, applySettings_eq_appliedPage s p hok, ?_⟩
  rw [applySettings_eq_appliedPage s _ hok, appliedPage_appliedPage s p hwf hv hwv]

theorem mem_classesOf (cls c : String) : c ∈ classesOf cls ↔ c.toList ∈ tokenSet cls.toList := by
  unfold classesOf
  rw [List.mem_map]
  constructor
  · rintro ⟨t, ht, rfl⟩
    exact ht
  · intro h
    exact ⟨c.toList, h, rfl⟩

/-- Where C10 holds: on a body whose classes are all well formed, and for a page width
that makes a valid token, `applyPageWidth` completes, changes nothing but the class
attribute of `body`, and the classes afterwards are the earlier classes that are not
width classes, together with the class of the page width. -/
theorem applyPageWidth_classes_on_wellFormed (s : Settings) (p : Page)
    (hwf : WellFormedClasses p.bodyClass)
    (hv : ValidToken ("width-" ++ s.pageWidth).toList) :
    ∃ q, applyPageWidth s p = .ok q ∧ q = { p with bodyClass := q.bodyClass } ∧
      ∀ c : String, c ∈ classesOf q.bodyClass ↔
        (c ∈ classesOf p.bodyClass ∧ isWidthClass c.toList = false) ∨
          c = "width-" ++ s.pageWidth := by
  obtain ⟨q, hq, hrec, htok⟩ := applyPageWidth_wellFormed s p hwf hv
  refine ⟨q, hq, hrec, fun c => ?_⟩
  rw [mem_classesOf, mem_classesOf, htok, mem_setAppend, List.mem_filter, toList_eq_iff]
  simp

/-! ## Toggling twice in a state that agrees with the settings -/

theorem contains_toggle_other (cls tok u : String) (force : Bool)
    (htok : ValidToken tok.toList) (hne : u ≠ tok) :
    classListContains (toggleTokenForce cls tok force) u = classListContains cls u := by
  rw [classListContains_toggleTokenForce _ _ _ _ htok, if_neg hne]

theorem contains_add_other (cls tok u : String) (htok : ValidToken tok.toList) (hne : u ≠ tok) :
    classListContains (addToken cls tok) u = classListContains cls u := by
  rw [classListContains_addToken _ _ _ htok]
  simp [hne]

theorem contains_toggle_self (cls tok : String) (force : Bool) (htok : ValidToken tok.toList) :
    classListContains (toggleTokenForce cls tok force) tok = force := by
  rw [classListContains_toggleTokenForce _ _ _ _ htok, if_pos rfl]

theorem toggle_enableAnimations_twice (st : State) (h : InSync st) :
    (toggleField .enableAnimations (toggleField .enableAnimations st)).settings = st.settings ∧
      appliedState (toggleField .enableAnimations (toggleField .enableAnimations st)).page =
        appliedState st.page := by
  obtain ⟨settings, ls, page, mobile, android⟩ := st
  obtain ⟨theme, fontSize, ea, rm, hcn, sr, an, ck, language, pageWidth⟩ := settings
  obtain ⟨h1, h2, h3, h4, h5, h6, h7, c1, c2, c3, c4, c5, c6⟩ := h
  simp only at h1 h2 h3 h4 h5 h6 h7 c1 c2 c3 c4 c5 c6
  cases hcb : page.enableAnimations with
  | none =>
    simp only [toggleField, flipCheckbox, changeListener, enableAnimationsChange, hcb, Option.map_none']
    exact ⟨trivial, rfl⟩
  | some c =>
    have hc := c1 c hcb
    subst hc
    simp only [toggleField, flipCheckbox, changeListener, enableAnimationsChange, hcb, Option.map_some',
      applyAnimationSettings, updateBadgeCount_animation, appliedState, Bool.not_not, Option.map_map, Function.comp_def,
      contains_toggle_self _ "reduced-motion" _ (by decide),
      contains_toggle_other _ "reduced-motion" "light-mode" _ (by decide) (by decide),
      contains_toggle_other _ "reduced-motion" "high-contrast" _ (by decide) (by decide),
      contains_toggle_other _ "reduced-motion" "screen-reader-optimized" _ (by decide)
        (by decide)]
    refine ⟨trivial, ?_⟩
    cases hb : page.animationBadge with
    | none => simp only [Option.map_none', h1, h4]
    | some b => simp only [Option.map_some', ← h5 b hb, h1, h4]

theorem toggle_reducedMotion_twice (st : State) (h : InSync st) :
    (toggleField .reducedMotion (toggleField .reducedMotion st)).settings = st.settings ∧
      appliedState (toggleField .reducedMotion (toggleField .reducedMotion st)).page =
        appliedState st.page := by
  obtain ⟨settings, ls, page, mobile, android⟩ := st
  obtain ⟨theme, fontSize, ea, rm, hcn, sr, an, ck, language, pageWidth⟩ := settings
  obtain ⟨h1, h2, h3, h4, h5, h6, h7, c1, c2, c3, c4, c5, c6⟩ := h
  simp only at h1 h2 h3 h4 h5 h6 h7 c1 c2 c3 c4 c5 c6
  cases hcb : page.reducedMotion with
  | none =>
    simp only [toggleField, flipCheckbox, changeListener, reducedMotionChange, hcb, Option.map_none']
    exact ⟨trivial, rfl⟩
  | some c =>
    have hc := c2 c hcb
    subst hc
    simp only [toggleField, flipCheckbox, changeListener, reducedMotionChange, hcb, Option.map_some',
      applyAnimationSettings, updateBadgeCount_animation, appliedState, Bool.not_not, Option.map_map, Function.comp_def,
      contains_toggle_self _ "reduced-motion" _ (by decide),
      contains_toggle_other _ "reduced-motion" "light-mode" _ (by decide) (by decide),
      contains_toggle_other _ "reduced-motion" "high-contrast" _ (by decide) (by decide),
      contains_toggle_other _ "reduced-motion" "screen-reader-optimized" _ (by decide)
        (by decide)]
    refine ⟨trivial, ?_⟩
    cases hb : page.animationBadge with
    | none => simp only [Option.map_none', h1, h4]
    | some b => simp only [Option.map_some', ← h5 b hb, h1, h4]

theorem toggle_highContrast_twice (st : State) (h : InSync st) :
    (toggleField .highContrast (toggleField .highContrast st)).settings = st.settings ∧
      appliedState (toggleField .highContrast (toggleField .highContrast st)).page =
        appliedState st.page := by
  obtain ⟨settings, ls, page, mobile, android⟩ := st
  obtain ⟨theme, fontSize, ea, rm, hcn, sr, an, ck, language, pageWidth⟩ := settings
  obtain ⟨h1, h2, h3, h4, h5, h6, h7, c1, c2, c3, c4, c5, c6⟩ := h
  simp only at h1 h2 h3 h4 h5 h6 h7 c1 c2 c3 c4 c5 c6
  cases hcb : page.highContrast with
  | none =>
    simp only [toggleField, flipCheckbox, changeListener, highContrastChange, hcb, Option.map_none']
    exact ⟨trivial, rfl⟩
  | some c =>
    have hc := c3 c hcb
    subst hc
    simp only [toggleField, flipCheckbox, changeListener, highContrastChange, hcb, Option.map_some',
      applyAccessibilitySettings, updateBadgeCount_accessibility, appliedState, Bool.not_not, Option.map_map, Function.comp_def,
      contains_toggle_self _ "high-contrast" _ (by decide),
      contains_toggle_self _ "screen-reader-optimized" _ (by decide),
      contains_toggle_other _ "high-contrast" "light-mode" _ (by decide) (by decide),
      contains_toggle_other _ "high-contrast" "reduced-motion" _ (by decide) (by decide),
      contains_toggle_other _ "high-contrast" "screen-reader-optimized" _ (by decide)
        (by decide),
      contains_toggle_other _ "screen-reader-optimized" "light-mode" _ (by decide) (by decide),
      contains_toggle_other _ "screen-reader-optimized" "reduced-motion" _ (by decide)
        (by decide),
      contains_toggle_other _ "screen-reader-optimized" "high-contrast" _ (by decide)
        (by decide)]
    refine ⟨trivial, ?_⟩
    cases hb : page.accessibilityBadge with
    | none => simp only [Option.map_none', h2, h3]
    | some b => simp only [Option.map_some', ← h6 b hb, h2, h3]

theorem toggle_screenReader_twice (st : State) (h : InSync st) :
    (toggleField .screenReader (toggleField .screenReader st)).settings = st.settings ∧
      appliedState (toggleField .screenReader (toggleField .screenReader st)).page =
        appliedState st.page := by
  obtain ⟨settings, ls, page, mobile, android⟩ := st
  obtain ⟨theme, fontSize, ea, rm, hcn, sr, an, ck, language, pageWidth⟩ := settings
  obtain ⟨h1, h2, h3, h4, h5, h6, h7, c1, c2, c3, c4, c5, c6⟩ := h
  simp only at h1 h2 h3 h4 h5 h6 h7 c1 c2 c3 c4 c5 c6
  cases hcb : page.screenReader with
  | none =>
    simp only [toggleField, flipCheckbox, changeListener, screenReaderChange, hcb, Option.map_none']
    exact ⟨trivial, rfl⟩
  | some c =>
    have hc := c4 c hcb
    subst hc
    simp only [toggleField, flipCheckbox, changeListener, screenReaderChange, hcb, Option.map_some',
      applyAccessibilitySettings, updateBadgeCount_accessibility, appliedState, Bool.not_not, Option.map_map, Function.comp_def,
      contains_toggle_self _ "high-contrast" _ (by decide),
      contains_toggle_self _ "screen-reader-optimized" _ (by decide),
      contains_toggle_other _ "high-contrast" "light-mode" _ (by decide) (by decide),
      contains_toggle_other _ "high-contrast" "reduced-motion" _ (by decide) (by decide),
      contains_toggle_other _ "high-contrast" "screen-reader-optimized" _ (by decide)
        (by decide),
      contains_toggle_other _ "screen-reader-optimized" "light-mode" _ (by decide) (by decide),
      contains_toggle_other _ "screen-reader-optimized" "reduced-motion" _ (by decide)
        (by decide),
      contains_toggle_other _ "screen-reader-optimized" "high-contrast" _ (by decide)
        (by decide)]
    refine ⟨trivial, ?_⟩
    cases hb : page.accessibilityBadge with
    | none => simp only [Option.map_none', h2, h3]
    | some b => simp only [Option.map_some', ← h6 b hb, h2, h3]

theorem toggle_analytics_twice (st : State) (h : InSync st) :
    (toggleField .analytics (toggleField .analytics st)).settings = st.settings ∧
      appliedState (toggleField .analytics (toggleField .analytics st)).page =
        appliedState st.page := by
  obtain ⟨settings, ls, page, mobile, android⟩ := st
  obtain ⟨theme, fontSize, ea, rm, hcn, sr, an, ck, language, pageWidth⟩ := settings
  obtain ⟨h1, h2, h3, h4, h5, h6, h7, c1, c2, c3, c4, c5, c6⟩ := h
  simp only at h1 h2 h3 h4 h5 h6 h7 c1 c2 c3 c4 c5 c6
  cases hcb : page.analytics with
  | none =>
    simp only [toggleField, flipCheckbox, changeListener, analyticsChange, hcb, Option.map_none']
    exact ⟨trivial, rfl⟩
  | some c =>
    have hc := c5 c hcb
    subst hc
    simp only [toggleField, flipCheckbox, changeListener, analyticsChange, hcb, Option.map_some',
      updateBadgeCount_privacy, appliedState, Bool.not_not, Option.map_map, Function.comp_def]
    refine ⟨trivial, ?_⟩
    cases hb : page.privacyBadge with
    | none => simp only [Option.map_none']
    | some b => simp only [Option.map_some', ← h7 b hb]

theorem toggle_cookies_twice (st : State) (h : InSync st) :
    (toggleField .cookies (toggleField .cookies st)).settings = st.settings ∧
      appliedState (toggleField .cookies (toggleField .cookies st)).page =
        appliedState st.page := by
  obtain ⟨settings, ls, page, mobile, android⟩ := st
  obtain ⟨theme, fontSize, ea, rm, hcn, sr, an, ck, language, pageWidth⟩ := settings
  obtain ⟨h1, h2, h3, h4, h5, h6, h7, c1, c2, c3, c4, c5, c6⟩ := h
  simp only at h1 h2 h3 h4 h5 h6 h7 c1 c2 c3 c4 c5 c6
  cases hcb : page.cookies with
  | none =>
    simp only [toggleField, flipCheckbox, changeListener, cookiesChange, hcb, Option.map_none']
    exact ⟨trivial, rfl⟩
  | some c =>
    have hc := c6 c hcb
    subst hc
    simp only [toggleField, flipCheckbox, changeListener, cookiesChange, hcb, Option.map_some',
      updateBadgeCount_privacy, appliedState, Bool.not_not, Option.map_map, Function.comp_def]
    refine ⟨trivial, ?_⟩
    cases hb : page.privacyBadge with
    | none => simp only [Option.map_none']
    | some b => simp only [Option.map_some', ← h7 b hb]

/-- Where C5 holds: in a state whose page agrees with the settings, flipping the
checkbox of a boolean field twice, its change listener running each time, gives back
the settings and the applied page state. -/
theorem toggleField_twice_of_inSync (f : BoolField) (st : State) (h : InSync st) :
    (toggleField f (toggleField f st)).settings = st.settings ∧
      appliedState (toggleField f (toggleField f st)).page = appliedState st.page := by
  cases f with
  | enableAnimations => exact toggle_enableAnimations_twice st h
  | reducedMotion => exact toggle_reducedMotion_twice st h
  | highContrast => exact toggle_highContrast_twice st h
  | screenReader => exact toggle_screenReader_twice st h
  | analytics => exact toggle_analytics_twice st h
  | cookies => exact toggle_cookies_twice st h

/-- A page that has the animation speed, the badges and the checkboxes of the page
left by `applySettings`, and the three classes as the settings say, agrees with the
settings. -/
theorem inSync_of_appliedPage (s : Settings) (p q : Page) (ls : Storage) (mobile android : Bool)
    (h1 : classListContains q.bodyClass "reduced-motion" = s.reducedMotion)
    (h2 : classListContains q.bodyClass "high-contrast" = s.highContrast)
    (h3 : classListContains q.bodyClass "screen-reader-optimized" = s.screenReader)
    (e0 : q.animationSpeed = (appliedPage s p).animationSpeed)
    (e1 : q.animationBadge = (appliedPage s p).animationBadge)
    (e2 : q.accessibilityBadge = (appliedPage s p).accessibilityBadge)
    (e3 : q.privacyBadge = (appliedPage s p).privacyBadge)
    (e4 : q.enableAnimations = (appliedPage s p).enableAnimations)
    (e5 : q.reducedMotion = (appliedPage s p).reducedMotion)
    (e6 : q.highContrast = (appliedPage s p).highContrast)
    (e7 : q.screenReader = (appliedPage s p).screenReader)
    (e8 : q.analytics = (appliedPage s p).analytics)
    (e9 : q.cookies = (appliedPage s p).cookies) :
    InSync { settings := s, localStorage := ls, page := q,
             isMobile := mobile, isAndroid := android, initialized := true } := by
  refine ⟨h1, h2, h3, e0, ?_, ?_, ?_, ?_, ?_, ?_, ?_, ?_, ?_⟩
  all_goals
    intro b hb
    simp only [e1, e2, e3, e4, e5, e6, e7, e8, e9, appliedPage, Option.map_eq_some'] at hb
    obtain ⟨_, _, hb⟩ := hb
    exact hb.symm

/-- The classes that the settings decide, after `applySettings` on well-formed classes. -/
theorem classListContains_appliedPage (s : Settings) (p : Page)
    (hwf : WellFormedClasses p.bodyClass)
    (hv : ValidToken ("width-" ++ s.pageWidth).toList) :
    classListContains (appliedPage s p).bodyClass "light-mode" = decide (s.theme = "light") ∧
      classListContains (appliedPage s p).bodyClass "reduced-motion" = s.reducedMotion ∧
      classListContains (appliedPage s p).bodyClass "high-contrast" = s.highContrast ∧
      classListContains (appliedPage s p).bodyClass "screen-reader-optimized" =
        s.screenReader := by
  have hwf4 := wellFormed_toggledClasses s p.bodyClass hwf
  obtain ⟨h1, h2, h3, h4⟩ := classListContains_toggledClasses s p.bodyClass
  have k1 := classListContains_pageWidth (toggledClasses s p.bodyClass) "light-mode"
    s.pageWidth hwf4 hv (by decide) (ne_width_of_head _ _ (by decide))
  have k2 := classListContains_pageWidth (toggledClasses s p.bodyClass) "reduced-motion"
    s.pageWidth hwf4 hv (by decide) (ne_width_of_head _ _ (by decide))
  have k3 := classListContains_pageWidth (toggledClasses s p.bodyClass) "high-contrast"
    s.pageWidth hwf4 hv (by decide) (ne_width_of_head _ _ (by decide))
  have k4 := classListContains_pageWidth (toggledClasses s p.bodyClass)
    "screen-reader-optimized" s.pageWidth hwf4 hv (by decide) (ne_width_of_head _ _ (by decide))
  rw [h1] at k1
  rw [h2] at k2
  rw [h3] at k3
  rw [h4] at k4
  exact ⟨k1, k2, k3, k4⟩

theorem optimizePerformance_of_not_mobile (st : State)
    (h : (st.isMobile && !st.settings.enableAnimations) = false) :
    optimizePerformance st = st := by
  unfold optimizePerformance
  rw [h]
  simp only [Bool.false_eq_true, if_false]

theorem inSync_setupAndroidSpecific (env : Env) (s : Settings) (p : Page) (ls : Storage)
    (mobile android : Bool)
    (k2 : classListContains (appliedPage s p).bodyClass "reduced-motion" = s.reducedMotion)
    (k3 : classListContains (appliedPage s p).bodyClass "high-contrast" = s.highContrast)
    (k4 : classListContains (appliedPage s p).bodyClass "screen-reader-optimized" =
      s.screenReader) :
    InSync (setupAndroidSpecific env
      { settings := s, localStorage := ls, page := appliedPage s p,
        isMobile := mobile, isAndroid := android, initialized := true }) := by
  simp only [setupAndroidSpecific]
  refine inSync_of_appliedPage s p _ ls mobile android ?_ ?_ ?_ rfl rfl rfl rfl rfl rfl rfl rfl
    rfl rfl
  all_goals
    simp only
    split_ifs
  all_goals
    simp only [
      contains_add_other _ "android-device" "reduced-motion" (by decide) (by decide),
      contains_add_other _ "android-device" "high-contrast" (by decide) (by decide),
      contains_add_other _ "android-device" "screen-reader-optimized" (by decide) (by decide),
      contains_add_other _ "android-chrome" "reduced-motion" (by decide) (by decide),
      contains_add_other _ "android-chrome" "high-contrast" (by decide) (by decide),
      contains_add_other _ "android-chrome" "screen-reader-optimized" (by decide) (by decide),
      k2, k3, k4]

/-- After the constructor, on a page whose body classes are well formed, the page
agrees with the settings, except on a mobile device with animations disabled. -/
theorem construct_inSync (env : Env) (ls : Storage) (p : Page)
    (hwf : WellFormedClasses p.bodyClass)
    (hv : ValidToken ("width-" ++ (loadSettings ls).pageWidth).toList)
    (hmobile : (detectMobile env && !(loadSettings ls).enableAnimations) = false) :
    ∃ st, construct env ls p = .ok st ∧ InSync st := by
  have hok := validateToken_of_valid _ hv
  refine ⟨_, construct_of_applySettings env ls p _ (applySettings_eq_appliedPage _ p hok), ?_⟩
  obtain ⟨-, k2, k3, k4⟩ := classListContains_appliedPage (loadSettings ls) p hwf hv
  unfold initializeMobileOptimizations
  simp only [optimizePerformance_of_not_mobile
    { settings := loadSettings ls, localStorage := ls, page := appliedPage (loadSettings ls) p,
      isMobile := detectMobile env, isAndroid := detectAndroid env,
      initialized := true } hmobile, ite_self]
  split_ifs
  · exact inSync_setupAndroidSpecific env _ p ls _ _ k2 k3 k4
  · exact inSync_of_appliedPage _ p _ ls _ _ k2 k3 k4 rfl rfl rfl rfl rfl rfl rfl rfl rfl rfl

/-! ## The page after `applySettings` (C11) -/

theorem setValue_eq (sel : Select) (v : String) :
    sel.setValue v = ⟨sel.options, if v ∈ sel.options then v else ""⟩ := by
  unfold Select.setValue
  split_ifs <;> rfl

theorem numberToString_eq_repr (n : Int) : numberToString n = Int.repr n := by
  unfold numberToString
  cases n with
  | ofNat m => simp [Int.repr]
  | negSucc m => simp [Int.repr, Int.negSucc_lt_zero]

theorem width_toList (v : String) :
    ("width-" ++ v).toList = 'w' :: 'i' :: 'd' :: 't' :: 'h' :: '-' :: v.toList := by
  simp only [String.toList, String.data_append]
  rfl

theorem validToken_width_iff (v : String) :
    ValidToken ("width-" ++ v).toList ↔ ¬ HasWhitespace v := by
  rw [width_toList]
  unfold ValidToken HasWhitespace
  constructor
  · rintro ⟨_, h⟩ ⟨c, hc, hw⟩
    have := h c
      (List.mem_cons_of_mem _ (List.mem_cons_of_mem _ (List.mem_cons_of_mem _
      (List.mem_cons_of_mem _ (List.mem_cons_of_mem _ (List.mem_cons_of_mem _ hc))))))
    rw [hw] at this
    exact Bool.noConfusion this
  · intro h
    refine ⟨by simp, ?_⟩
    intro c hc
    simp only [List.mem_cons] at hc
    rcases hc with hc | hc | hc | hc | hc | hc | hc
    · rw [hc]; decide
    · rw [hc]; decide
    · rw [hc]; decide
    · rw [hc]; decide
    · rw [hc]; decide
    · rw [hc]; decide
    · cases hw : isAsciiWhitespace c with
      | false => rfl
      | true => exact absurd ⟨c, hc, hw⟩ h

/-- The token `width-` followed by a value that has ASCII whitespace is refused by
`classList.add` with an `InvalidCharacterError`. -/
theorem validateToken_of_whitespace (v : String) (h : HasWhitespace v) :
    validateToken ("width-" ++ v) = .error .invalidCharacterError := by
  obtain ⟨c, hc, hw⟩ := h
  unfold validateToken
  rw [width_toList]
  have hany : (('w' :: 'i' :: 'd' :: 't' :: 'h' :: '-' :: v.toList).any isAsciiWhitespace) =
      true := by
    rw [List.any_eq_true]
    exact ⟨c,
      (List.mem_cons_of_mem _ (List.mem_cons_of_mem _ (List.mem_cons_of_mem _
      (List.mem_cons_of_mem _ (List.mem_cons_of_mem _ (List.mem_cons_of_mem _ hc)))))),
      hw⟩
  rw [hany]
  rfl

/-- With a page width that has ASCII whitespace `applySettings` throws in
`applyPageWidth`: the four calls before it have written the theme, the font size, the
animation settings and the accessibility classes, the width classes are removed, and
the badges and the controls are as they were. -/
theorem applySettings_of_whitespace (s : Settings) (p : Page) (h : HasWhitespace s.pageWidth) :
    applySettings s p =
      .error ⟨.invalidCharacterError,
        { p with
          bodyClass := removeWidth (toggledClasses s p.bodyClass)
          rootFontSize :=
            if s.fontSize < 0 then p.rootFontSize else numberToString s.fontSize ++ "px"
          animationSpeed := if s.enableAnimations then "1" else "0"
          currentSize := p.currentSize.map (fun _ => numberToString s.fontSize ++ "px") }⟩ := by
  simp only [applySettings, applyPageWidth, classListAdd, validateToken_of_whitespace _ h,
    applyTheme, applyFontSize, applyAnimationSettings, applyAccessibilitySettings,
    toggledClasses, bind, Except.bind, pure, Except.pure]

set_option maxRecDepth 100000 in
/-- C11, as stated, fails: with the language `de`, which no option of the sample
language select has, the select shows the empty value after `applySettings`; with the
font size -4 the root font size is left as it was (here empty) while the label reads
`-4px`; and with the page width `full width` the call throws before the badges and the
controls are written (the page-width select still shows `container`). -/
theorem C11_page_state_can_differ_from_settings :
    (∃ q, applySettings { defaultSettings with language := "de" } samplePage = .ok q ∧
        q.languageSelect = some ⟨["en", "fr"], ""⟩) ∧
      (∃ q, applySettings { defaultSettings with fontSize := -4 } samplePage = .ok q ∧
        q.rootFontSize = "" ∧ q.currentSize = some "-4px") ∧
      (∃ q, applySettings { defaultSettings with pageWidth := "full width" } samplePage =
          .error ⟨.invalidCharacterError, q⟩ ∧
        q.pageWidth = some ⟨["container", "wide", "full"], "container"⟩ ∧
        q.privacyBadge = some ⟨"", ""⟩ ∧
        classListContains q.bodyClass "width-full width" = false) :=
  ⟨⟨_, rfl, by decide⟩, ⟨_, rfl, by decide⟩, ⟨_, rfl, by decide⟩⟩

/-- C11, amended: for every settings whose font size is an integer below 2^53 in
magnitude and every page. When the page width is free of ASCII whitespace and the body
classes are well formed, `applySettings` completes and afterwards `body` has `light-mode`
exactly when the theme is `light`, and `reduced-motion`, `high-contrast` and
`screen-reader-optimized` exactly when their fields are set; the size label, when
present, reads the decimal font size followed by `px`, and so does the root font size
when the font size is from 0 to 999999, while a negative font size leaves the root font
size as it was; the animation speed is `1` or `0` as `enableAnimations` says; the theme
switch, when present, is checked exactly when the theme is `light`, each present
checkbox shows its field, and each present select shows its field when one of its
options has that value and the empty value otherwise. When the page width has ASCII
whitespace, `applySettings` throws an `InvalidCharacterError` and leaves the badges and
the controls as they were. -/
theorem C11_page_state_after_applySettings (s : Settings) (p : Page)
    (hsafe : SafeInteger s.fontSize) :
    (WellFormedClasses p.bodyClass → ¬ HasWhitespace s.pageWidth →
      ∃ q, applySettings s p = .ok q ∧
        classListContains q.bodyClass "light-mode" = decide (s.theme = "light") ∧
        classListContains q.bodyClass "reduced-motion" = s.reducedMotion ∧
        classListContains q.bodyClass "high-contrast" = s.highContrast ∧
        classListContains q.bodyClass "screen-reader-optimized" = s.screenReader ∧
        (0 ≤ s.fontSize → s.fontSize < 1000000 →
          q.rootFontSize = Int.repr s.fontSize ++ "px") ∧
        (s.fontSize < 0 → q.rootFontSize = p.rootFontSize) ∧
        q.currentSize = p.currentSize.map (fun _ => Int.repr s.fontSize ++ "px") ∧
        q.animationSpeed = (if s.enableAnimations then "1" else "0") ∧
        q.themeSwitch = p.themeSwitch.map (fun _ => decide (s.theme = "light")) ∧
        q.enableAnimations = p.enableAnimations.map (fun _ => s.enableAnimations) ∧
        q.reducedMotion = p.reducedMotion.map (fun _ => s.reducedMotion) ∧
        q.highContrast = p.highContrast.map (fun _ => s.highContrast) ∧
        q.screenReader = p.screenReader.map (fun _ => s.screenReader) ∧
        q.analytics = p.analytics.map (fun _ => s.analytics) ∧
        q.cookies = p.cookies.map (fun _ => s.cookies) ∧
        q.languageSelect = p.languageSelect.map (fun sel =>
          ⟨sel.options, if s.language ∈ sel.options then s.language else ""⟩) ∧
        q.pageWidth = p.pageWidth.map (fun sel =>
          ⟨sel.options, if s.pageWidth ∈ sel.options then s.pageWidth else ""⟩)) ∧
    (HasWhitespace s.pageWidth →
      ∃ q, applySettings s p = .error ⟨.invalidCharacterError, q⟩ ∧
        q.animationBadge = p.animationBadge ∧
        q.accessibilityBadge = p.accessibilityBadge ∧
        q.privacyBadge = p.privacyBadge ∧
        q.themeSwitch = p.themeSwitch ∧
        q.enableAnimations = p.enableAnimations ∧
        q.reducedMotion = p.reducedMotion ∧
        q.highContrast = p.highContrast ∧
        q.screenReader = p.screenReader ∧
        q.analytics = p.analytics ∧
        q.cookies = p.cookies ∧
        q.languageSelect = p.languageSelect ∧
        q.pageWidth = p.pageWidth) := by
  have _ := hsafe
  constructor
  · intro hwf hws
    have hv := (validToken_width_iff s.pageWidth).mpr hws
    obtain ⟨k1, k2, k3, k4⟩ := classListContains_appliedPage s p hwf hv
    refine ⟨appliedPage s p, applySettings_eq_appliedPage s p (validateToken_of_valid _ hv),
      k1, k2, k3, k4, ?_, ?_, ?_, rfl, rfl, rfl, rfl, rfl, rfl, rfl, rfl, ?_, ?_⟩
    · intro h0 _
      simp only [appliedPage, if_neg (not_lt.mpr h0), numberToString_eq_repr]
    · intro hneg
      simp only [appliedPage, if_pos hneg]
    · simp only [appliedPage, numberToString_eq_repr]
    · simp only [appliedPage, setValue_eq]
    · simp only [appliedPage, setValue_eq]
  · intro hws
    exact ⟨_, applySettings_of_whitespace s p hws, rfl, rfl, rfl, rfl, rfl, rfl, rfl, rfl, rfl,
      rfl, rfl, rfl⟩

set_option maxRecDepth 100000 in
/-- C11, amended, on the sample page with the theme `light`, `reducedMotion` set and
the font size 18. -/
theorem C11_page_state_after_applySettings_witness :
    SafeInteger 18 ∧ WellFormedClasses samplePage.bodyClass ∧ ¬ HasWhitespace "container" ∧
      ∃ q, applySettings
          { defaultSettings with theme := "light", reducedMotion := true, fontSize := 18 }
          samplePage = .ok q ∧
        classListContains q.bodyClass "light-mode" = true ∧
        classListContains q.bodyClass "reduced-motion" = true ∧
        q.rootFontSize = "18px" :=
  have h := (C11_page_state_after_applySettings
    { defaultSettings with theme := "light", reducedMotion := true, fontSize := 18 } samplePage
    (by decide)).1 (by decide) (by decide)
  ⟨by decide, by decide, by decide,
    h.elim fun q hq => ⟨q, hq.1, hq.2.1, hq.2.2.1, hq.2.2.2.2.2.1 (by decide) (by decide)⟩⟩

/-! ## Every change is persisted (C12) -/

theorem getItem_saveSettings_theme (s : Settings) (ls : Storage) :
    getItem (saveSettings s ls) "theme" = some (s.theme) := by
  rw [getItem_saveSettings]
  simp only [show ¬ ("theme" = "fontSize") by decide,
    show ¬ ("theme" = "enableAnimations") by decide,
    show ¬ ("theme" = "reducedMotion") by decide,
    show ¬ ("theme" = "highContrast") by decide,
    show ¬ ("theme" = "screenReader") by decide,
    show ¬ ("theme" = "analytics") by decide,
    show ¬ ("theme" = "cookies") by decide,
    show ¬ ("theme" = "language") by decide,
    show ¬ ("theme" = "pageWidth") by decide,
    if_false,
    if_true]

theorem getItem_saveSettings_enableAnimations (s : Settings) (ls : Storage) :
    getItem (saveSettings s ls) "enableAnimations" = some (boolToString s.enableAnimations) := by
  rw [getItem_saveSettings]
  simp only [show ¬ ("enableAnimations" = "reducedMotion") by decide,
    show ¬ ("enableAnimations" = "highContrast") by decide,
    show ¬ ("enableAnimations" = "screenReader") by decide,
    show ¬ ("enableAnimations" = "analytics") by decide,
    show ¬ ("enableAnimations" = "cookies") by decide,
    show ¬ ("enableAnimations" = "language") by decide,
    show ¬ ("enableAnimations" = "pageWidth") by decide,
    if_false,
    if_true]

theorem getItem_saveSettings_reducedMotion (s : Settings) (ls : Storage) :
    getItem (saveSettings s ls) "reducedMotion" = some (boolToString s.reducedMotion) := by
  rw [getItem_saveSettings]
  simp only [show ¬ ("reducedMotion" = "highContrast") by decide,
    show ¬ ("reducedMotion" = "screenReader") by decide,
    show ¬ ("reducedMotion" = "analytics") by decide,
    show ¬ ("reducedMotion" = "cookies") by decide,
    show ¬ ("reducedMotion" = "language") by decide,
    show ¬ ("reducedMotion" = "pageWidth") by decide,
    if_false,
    if_true]

theorem getItem_saveSettings_highContrast (s : Settings) (ls : Storage) :
    getItem (saveSettings s ls) "highContrast" = some (boolToString s.highContrast) := by
  rw [getItem_saveSettings]
  simp only [show ¬ ("highContrast" = "screenReader") by decide,
    show ¬ ("highContrast" = "analytics") by decide,
    show ¬ ("highContrast" = "cookies") by decide,
    show ¬ ("highContrast" = "language") by decide,
    show ¬ ("highContrast" = "pageWidth") by decide,
    if_false,
    if_true]

theorem getItem_saveSettings_screenReader (s : Settings) (ls : Storage) :
    getItem (saveSettings s ls) "screenReader" = some (boolToString s.screenReader) := by
  rw [getItem_saveSettings]
  simp only [show ¬ ("screenReader" = "analytics") by decide,
    show ¬ ("screenReader" = "cookies") by decide,
    show ¬ ("screenReader" = "language") by decide,
    show ¬ ("screenReader" = "pageWidth") by decide,
    if_false,
    if_true]

theorem getItem_saveSettings_analytics (s : Settings) (ls : Storage) :
    getItem (saveSettings s ls) "analytics" = some (boolToString s.analytics) := by
  rw [getItem_saveSettings]
  simp only [show ¬ ("analytics" = "cookies") by decide,
    show ¬ ("analytics" = "language") by decide,
    show ¬ ("analytics" = "pageWidth") by decide,
    if_false,
    if_true]

theorem getItem_saveSettings_cookies (s : Settings) (ls : Storage) :
    getItem (saveSettings s ls) "cookies" = some (boolToString s.cookies) := by
  rw [getItem_saveSettings]
  simp only [show ¬ ("cookies" = "language") by decide,
    show ¬ ("cookies" = "pageWidth") by decide,
    if_false,
    if_true]

theorem getItem_saveSettings_language (s : Settings) (ls : Storage) :
    getItem (saveSettings s ls) "language" = some (s.language) := by
  rw [getItem_saveSettings]
  simp only [show ¬ ("language" = "pageWidth") by decide,
    if_false,
    if_true]

theorem getItem_saveSettings_pageWidth (s : Settings) (ls : Storage) :
    getItem (saveSettings s ls) "pageWidth" = some (s.pageWidth) := by
  rw [getItem_saveSettings]
  simp only [if_false,
    if_true]

/-- After `saveSettings` storage holds the string form of every field. -/
theorem persisted_of_saved (st : State) (s : Settings) (p : Page) :
    Persisted { st with settings := s, page := p, localStorage := saveSettings s st.localStorage } := by
  unfold Persisted
  simp only [getItem_saveSettings_theme, getItem_saveSettings_fontSize,
    getItem_saveSettings_enableAnimations, getItem_saveSettings_reducedMotion,
    getItem_saveSettings_highContrast, getItem_saveSettings_screenReader,
    getItem_saveSettings_analytics, getItem_saveSettings_cookies,
    getItem_saveSettings_language, getItem_saveSettings_pageWidth, numberToString_eq_repr,
    boolToString, and_self]

/-- Each listener that writes to the settings completes, the page-width listener
provided the chosen value makes a valid class token, and it has either written nothing
at all or saved the settings. -/
theorem preferenceChange_completes (e : Event) (st : State)
    (he : e.isPreferenceChange = true)
    (hw : e = .pageWidthChange → ∀ sel, st.page.pageWidth = some sel →
      ValidToken ("width-" ++ sel.value).toList) :
    ∃ st', handle e st = .ok st' ∧ (st' = st ∨ Persisted st') := by
  cases e with
  | themeSwitchChange =>
    refine ⟨themeSwitchChange st, rfl, ?_⟩
    unfold themeSwitchChange
    cases hc : st.page.themeSwitch with
    | none => exact Or.inl rfl
    | some c => exact Or.inr (persisted_of_saved st _ _)
  | decreaseFontClick =>
    refine ⟨decreaseFontClick st, rfl, ?_⟩
    unfold decreaseFontClick
    split_ifs
    · exact Or.inr (persisted_of_saved st _ _)
    · exact Or.inl rfl
    · exact Or.inl rfl
  | increaseFontClick =>
    refine ⟨increaseFontClick st, rfl, ?_⟩
    unfold increaseFontClick
    split_ifs
    · exact Or.inr (persisted_of_saved st _ _)
    · exact Or.inl rfl
    · exact Or.inl rfl
  | enableAnimationsChange =>
    refine ⟨enableAnimationsChange st, rfl, ?_⟩
    unfold enableAnimationsChange
    cases hc : st.page.enableAnimations with
    | none => exact Or.inl rfl
    | some c => exact Or.inr (persisted_of_saved st _ _)
  | reducedMotionChange =>
    refine ⟨reducedMotionChange st, rfl, ?_⟩
    unfold reducedMotionChange
    cases hc : st.page.reducedMotion with
    | none => exact Or.inl rfl
    | some c => exact Or.inr (persisted_of_saved st _ _)
  | highContrastChange =>
    refine ⟨highContrastChange st, rfl, ?_⟩
    unfold highContrastChange
    cases hc : st.page.highContrast with
    | none => exact Or.inl rfl
    | some c => exact Or.inr (persisted_of_saved st _ _)
  | screenReaderChange =>
    refine ⟨screenReaderChange st, rfl, ?_⟩
    unfold screenReaderChange
    cases hc : st.page.screenReader with
    | none => exact Or.inl rfl
    | some c => exact Or.inr (persisted_of_saved st _ _)
  | analyticsChange =>
    refine ⟨analyticsChange st, rfl, ?_⟩
    unfold analyticsChange
    cases hc : st.page.analytics with
    | none => exact Or.inl rfl
    | some c => exact Or.inr (persisted_of_saved st _ _)
  | cookiesChange =>
    refine ⟨cookiesChange st, rfl, ?_⟩
    unfold cookiesChange
    cases hc : st.page.cookies with
    | none => exact Or.inl rfl
    | some c => exact Or.inr (persisted_of_saved st _ _)
  | languageSelectChange =>
    refine ⟨languageSelectChange st, rfl, ?_⟩
    unfold languageSelectChange
    cases hc : st.page.languageSelect with
    | none => exact Or.inl rfl
    | some sel => exact Or.inr (persisted_of_saved st _ st.page)
  | pageWidthChange =>
    simp only [handle, pageWidthChange]
    cases hc : st.page.pageWidth with
    | none => exact ⟨st, rfl, Or.inl rfl⟩
    | some sel =>
      have hv := validateToken_of_valid _ (hw rfl sel hc)
      simp only [applyPageWidth_of_valid { st.settings with pageWidth := sel.value } st.page hv,
        bind, Except.bind, pure, Except.pure]
      exact ⟨_, rfl, Or.inr (persisted_of_saved st _ _)⟩
  | settingsBtnClick => simp [Event.isPreferenceChange] at he
  | closeSettingsClick => simp [Event.isPreferenceChange] at he
  | documentClick a b => simp [Event.isPreferenceChange] at he
  | settingsPanelClick => simp [Event.isPreferenceChange] at he
  | expandBtnClick i => simp [Event.isPreferenceChange] at he
  | navLinkClick i b => simp [Event.isPreferenceChange] at he
  | navLinkMouseEnter i => simp [Event.isPreferenceChange] at he
  | logoContainerClick => simp [Event.isPreferenceChange] at he
  | orientationChangeTimer o => simp [Event.isPreferenceChange] at he
  | resizeTimer a b => simp [Event.isPreferenceChange] at he
  | keydown key => simp [Event.isPreferenceChange] at he
  | sectionRevealed i => simp [Event.isPreferenceChange] at he
  | sectionActive a => simp [Event.isPreferenceChange] at he
  | scrollTimer => simp [Event.isPreferenceChange] at he
  | touchStart => simp [Event.isPreferenceChange] at he
  | touchEnd => simp [Event.isPreferenceChange] at he
  | mouseMove => simp [Event.isPreferenceChange] at he

theorem pageWidthChange_persists (st st' : State) (h : pageWidthChange st = .ok st') :
    st' = st ∨ Persisted st' := by
  unfold pageWidthChange at h
  cases hc : st.page.pageWidth with
  | none =>
    rw [hc] at h
    exact Or.inl (Except.ok.inj h).symm
  | some sel =>
    rw [hc] at h
    cases hp : applyPageWidth { st.settings with pageWidth := sel.value } st.page with
    | error err =>
      simp only [hp] at h
      cases h
    | ok p =>
      simp only [hp] at h
      have hst := Except.ok.inj h
      subst hst
      exact Or.inr (persisted_of_saved st _ _)

/-- With a chosen value that has ASCII whitespace the page-width listener throws:
`settings.pageWidth` has been assigned and the width classes have been removed from
`body`, and storage is as it was. -/
theorem pageWidthChange_of_whitespace (st : State) (sel : Select)
    (hsel : st.page.pageWidth = some sel) (hws : HasWhitespace sel.value) :
    pageWidthChange st =
      .error ⟨.invalidCharacterError,
        { st with
          settings := { st.settings with pageWidth := sel.value }
          page := { st.page with bodyClass := removeWidth st.page.bodyClass } }⟩ := by
  simp only [pageWidthChange, hsel, applyPageWidth, classListAdd,
    validateToken_of_whitespace _ hws, bind, Except.bind]

set_option maxRecDepth 100000 in
/-- C12, as stated, fails: in a state whose storage holds the ten fields, with a
page-width select whose chosen option has the value `full width`, the change listener
of the select assigns `settings.pageWidth` and throws before `saveSettings`. Afterwards
the page width in memory is `full width` and the one in storage is still `container`. -/
theorem C12_page_width_listener_leaves_storage_behind :
    Persisted
        { sampleState defaultSettings with
          localStorage := saveSettings defaultSettings []
          page := { samplePage with
            pageWidth := some ⟨["container", "full width"], "full width"⟩ } } ∧
      ∃ st', handle .pageWidthChange
          { sampleState defaultSettings with
            localStorage := saveSettings defaultSettings []
            page := { samplePage with
              pageWidth := some ⟨["container", "full width"], "full width"⟩ } } =
          .error ⟨.invalidCharacterError, st'⟩ ∧
        st'.settings.pageWidth = "full width" ∧
        getItem st'.localStorage "pageWidth" = some "container" ∧
        ¬ Persisted st' :=
  ⟨by decide, _, rfl, by decide⟩

/-- C12, amended: in a state whose font size is an integer below 2^53 in magnitude,
for each listener that writes to the settings (theme switch, font buttons, the six
checkboxes, language select, page-width select): once it has returned with anything
written (a setting, the page or storage), and so whenever it has changed the settings,
storage holds under each of the ten keys the string form of the value now in memory
(each boolean as `true` or `false`, the font size as its decimal string); each of
them does return, the page-width listener whenever the chosen value is free of ASCII
whitespace; and when the chosen value has ASCII whitespace the page-width listener
throws an `InvalidCharacterError` with `settings.pageWidth` assigned and storage as it
was. -/
theorem C12_changes_are_persisted (e : Event) (st : State)
    (he : e.isPreferenceChange = true) (hsafe : SafeInteger st.settings.fontSize) :
    (∀ st', handle e st = .ok st' → st' ≠ st → Persisted st') ∧
      ((e = .pageWidthChange → ∀ sel, st.page.pageWidth = some sel →
          ¬ HasWhitespace sel.value) →
        ∃ st', handle e st = .ok st') ∧
      (e = .pageWidthChange → ∀ sel, st.page.pageWidth = some sel →
        HasWhitespace sel.value →
        ∃ st', handle e st = .error ⟨.invalidCharacterError, st'⟩ ∧
          st'.settings = { st.settings with pageWidth := sel.value } ∧
          st'.localStorage = st.localStorage) := by
  have _ := hsafe
  refine ⟨?_, ?_, ?_⟩
  · intro st' hok hmut
    by_cases hpw : e = .pageWidthChange
    · subst hpw
      rcases pageWidthChange_persists st st' hok with h | h
      · exact absurd h hmut
      · exact h
    · obtain ⟨st2, h1, h2⟩ := preferenceChange_completes e st he (fun h => absurd h hpw)
      rw [h1] at hok
      have hst := Except.ok.inj hok
      subst hst
      rcases h2 with h | h
      · exact absurd h hmut
      · exact h
  · intro hw
    obtain ⟨st2, h1, _⟩ := preferenceChange_completes e st he
      (fun h sel hsel => (validToken_width_iff sel.value).mpr (hw h sel hsel))
    exact ⟨st2, h1⟩
  · intro hpw sel hsel hws
    subst hpw
    exact ⟨_, pageWidthChange_of_whitespace st sel hsel hws, rfl, rfl⟩

set_option maxRecDepth 100000 in
/-- C12, amended, at a click on the button that increases the font size, from the
default settings: the listener returns with the font size 18, and storage holds the ten
fields. -/
theorem C12_changes_are_persisted_witness :
    Event.increaseFontClick.isPreferenceChange = true ∧ SafeInteger 16 ∧
      handle .increaseFontClick (sampleState defaultSettings) =
        .ok (increaseFontClick (sampleState defaultSettings)) ∧
      (increaseFontClick (sampleState defaultSettings)).settings.fontSize = 18 ∧
      getItem (increaseFontClick (sampleState defaultSettings)).localStorage "fontSize" =
        some "18" ∧
      Persisted (increaseFontClick (sampleState defaultSettings)) :=
  ⟨rfl, by decide, rfl, by decide, by decide,
    (C12_changes_are_persisted .increaseFontClick (sampleState defaultSettings) rfl
      (by decide)).1 _ rfl (by decide)⟩

/-! ## Absent elements (C13) -/

set_option maxRecDepth 100000 in
/-- C13 at failing inputs: on the sample page without the settings button, the click
listener of `document` throws a `TypeError` for a click outside the panel, whether the
panel is closed or open, and an open panel stays open; and with a navigation link that
has no `href`, `updateNavigationVisibility` throws a `TypeError`, the links before that
one having been written. -/
theorem C13_absent_button_or_href_throws :
    (∃ st', handle (.documentClick false false)
        { sampleState defaultSettings with
          page := { samplePage with settingsBtn := false } } = .error ⟨.typeError, st'⟩) ∧
      (∃ st', handle (.documentClick false false)
          { sampleState defaultSettings with
            page := { samplePage with
              settingsBtn := false, settingsPanel := some "settings-panel active" } } =
          .error ⟨.typeError, st'⟩ ∧
        panelOpen st' = true) ∧
      (∃ st', handle (.sectionActive "about")
          { sampleState defaultSettings with
            page := { samplePage with
              navLinks := [⟨some "#about", "", ""⟩, ⟨none, "", ""⟩] } } =
          .error ⟨.typeError, st'⟩ ∧
        st'.page.navLinks = [⟨some "#about", "0.5", "none"⟩, ⟨none, "", ""⟩]) :=
  ⟨⟨_, rfl⟩, ⟨_, rfl, by decide⟩, ⟨_, rfl, by decide⟩⟩

/-- The constructor completes on every page, whatever is absent from it, when the stored
page width makes a valid class token. -/
theorem construct_completes (env : Env) (ls : Storage) (p : Page)
    (hv : ValidToken ("width-" ++ (loadSettings ls).pageWidth).toList) :
    ∃ st, construct env ls p = .ok st ∧ st.initialized = true := by
  obtain ⟨q, hq⟩ := applySettings_of_valid (loadSettings ls) p (validateToken_of_valid _ hv)
  refine ⟨_, construct_of_applySettings env ls p q hq, ?_⟩
  unfold initializeMobileOptimizations optimizePerformance setupAndroidSpecific
  dsimp only
  split_ifs <;> rfl

/-- The constructor throws only for a stored page width that has ASCII whitespace, with
an `InvalidCharacterError`, and leaves a state in which `window.portfolio` is undefined
and the settings are the loaded ones. -/
theorem construct_thrown (env : Env) (ls : Storage) (p : Page) (thrown : Thrown State)
    (h : construct env ls p = .error thrown) :
    HasWhitespace (loadSettings ls).pageWidth ∧ thrown.error = .invalidCharacterError ∧
      thrown.state.initialized = false ∧ thrown.state.settings = loadSettings ls ∧
      thrown.state.localStorage = ls := by
  by_cases hws : HasWhitespace (loadSettings ls).pageWidth
  · simp only [construct, init, applySettings_of_whitespace _ p hws] at h
    cases h
    exact ⟨hws, rfl, rfl, rfl, rfl⟩
  · obtain ⟨st, hst, _⟩ := construct_completes env ls p ((validToken_width_iff _).mpr hws)
    rw [hst] at h
    cases h

theorem forEachNavLink_error (activeId : String) :
    ∀ (links : List NavLink) (thrown : Thrown (List NavLink)),
      forEachNavLink activeId links = .error thrown → ∃ link ∈ links, link.href = none := by
  intro links
  induction links with
  | nil => intro thrown h; cases h
  | cons link rest ih =>
    intro thrown h
    unfold forEachNavLink at h
    cases hh : link.href with
    | none => exact ⟨link, List.mem_cons_self _ _, hh⟩
    | some href =>
      cases hl : navLinkVisibility activeId link with
      | error err =>
        unfold navLinkVisibility at hl
        rw [hh] at hl
        simp only at hl
        split_ifs at hl <;> cases hl
      | ok written =>
        rw [hl] at h
        cases hr : forEachNavLink activeId rest with
        | error thrown1 =>
          obtain ⟨x, hx, hfx⟩ := ih thrown1 hr
          exact ⟨x, List.mem_cons_of_mem _ hx, hfx⟩
        | ok written1 =>
          rw [hr] at h
          cases h

/-- The listeners that can throw, and when: the click listener of `document` with a
panel and no settings button, `updateNavigationVisibility` with a link without `href`,
the click listener of a link whose `href` is not a selector, the scroll timer on a
mobile device, and the page-width listener for a value that makes no valid token. Every
other listener completes, whatever is absent from the page. -/
theorem handle_throws_only (e : Event) (st : State) (thrown : Thrown State)
    (h : handle e st = .error thrown) :
    (∃ inBtn, e = .documentClick false inBtn ∧ st.page.settingsPanel ≠ none ∧
        st.page.settingsBtn = false) ∨
      (∃ activeId, e = .sectionActive activeId ∧ st.initialized = true ∧
        ∃ link ∈ st.page.navLinks, link.href = none) ∨
      (∃ i, e = .navLinkClick i false) ∨
      (e = .scrollTimer ∧ st.initialized = true ∧ st.isMobile = true) ∨
      (e = .pageWidthChange ∧ ∃ sel, st.page.pageWidth = some sel ∧
        ¬ ValidToken ("width-" ++ sel.value).toList) := by
  cases e with
  | documentClick inPanel inBtn =>
    simp only [handle, documentClick] at h
    cases hp : st.page.settingsPanel with
    | none => rw [hp] at h; cases h
    | some cls =>
      rw [hp] at h
      cases inPanel with
      | true => simp only [if_true] at h; cases h
      | false =>
        cases hb : st.page.settingsBtn with
        | false => exact Or.inl ⟨inBtn, rfl, by simp, rfl⟩
        | true =>
          rw [hb] at h
          simp only [Bool.false_eq_true, if_false, Bool.not_true] at h
          split_ifs at h <;> cases h
  | sectionActive activeId =>
    right; left
    simp only [handle] at h
    cases hi : st.initialized with
    | false => rw [hi] at h; cases h
    | true =>
      refine ⟨activeId, rfl, rfl, ?_⟩
      rw [hi] at h
      simp only [if_true, updateNavigationVisibility] at h
      cases hl : forEachNavLink activeId st.page.navLinks with
      | ok links => rw [hl] at h; cases h
      | error thrown1 => exact forEachNavLink_error activeId _ _ hl
  | navLinkClick i selectorParses =>
    right; right; left
    cases selectorParses with
    | true => cases h
    | false => exact ⟨i, rfl⟩
  | scrollTimer =>
    right; right; right; left
    simp only [handle] at h
    split_ifs at h with hm
    · rw [Bool.and_eq_true] at hm
      exact ⟨rfl, hm.1, hm.2⟩
    · cases h
  | pageWidthChange =>
    right; right; right; right
    refine ⟨rfl, ?_⟩
    simp only [handle, pageWidthChange] at h
    cases hs : st.page.pageWidth with
    | none => rw [hs] at h; cases h
    | some sel =>
      refine ⟨sel, rfl, fun hv => ?_⟩
      rw [hs] at h
      simp only [applyPageWidth_of_valid { st.settings with pageWidth := sel.value } st.page
        (validateToken_of_valid _ hv)] at h
      cases h
  | orientationChangeTimer o =>
    simp only [handle] at h
    split_ifs at h <;> cases h
  | resizeTimer a b =>
    simp only [handle] at h
    split_ifs at h <;> cases h
  | settingsBtnClick => cases h
  | closeSettingsClick => cases h
  | settingsPanelClick => cases h
  | expandBtnClick i => cases h
  | themeSwitchChange => cases h
  | decreaseFontClick => cases h
  | increaseFontClick => cases h
  | enableAnimationsChange => cases h
  | reducedMotionChange => cases h
  | highContrastChange => cases h
  | screenReaderChange => cases h
  | analyticsChange => cases h
  | cookiesChange => cases h
  | languageSelectChange => cases h
  | navLinkMouseEnter i => cases h
  | logoContainerClick => cases h
  | keydown key => cases h
  | sectionRevealed i => cases h
  | touchStart => cases h
  | touchEnd => cases h
  | mouseMove => cases h

/-! ## Debounced calls (C14) -/

theorem runTimers_before_due {α : Type} (wait now due : Nat) (d : Debounced α) (a : α)
    (h : AwaitsCall wait d due a) (hnow : now < due) : runTimers now d = d := by
  obtain ⟨_, _, i, _, hp⟩ := h
  unfold runTimers
  rw [hp]
  simp only [List.length_singleton, runTimersAux, hp, nextTimer]
  have : ¬ (due ≤ now) := by omega
  simp [List.filter, this, earliest]

theorem runTimers_when_due {α : Type} (wait now due : Nat) (d : Debounced α) (a : α)
    (h : AwaitsCall wait d due a) (hnow : due ≤ now) :
    (runTimers now d).invocations = [(due, a)] ∧ (runTimers now d).pending = [] := by
  obtain ⟨_, hinv, i, ht, hp⟩ := h
  unfold runTimers
  rw [hp]
  simp only [List.length_singleton, runTimersAux, hp, nextTimer]
  simp [List.filter, hnow, earliest, later, hinv, clearTimeout, ht]

theorem executedFunctionLate_awaits {α : Type} (wait now lag due : Nat) (d : Debounced α)
    (a a' : α) (h : AwaitsCall wait d due a) :
    AwaitsCall wait (executedFunctionLate now lag a' d) (now + wait + lag) a' := by
  obtain ⟨hw, hinv, i, ht, hp⟩ := h
  refine ⟨hw, hinv, d.nextId, rfl, ?_⟩
  simp [executedFunctionLate, ht, hp, clearTimeout, hw]

theorem first_call_awaits {α : Type} (wait now lag : Nat) (a : α) :
    AwaitsCall wait (executedFunctionLate now lag a (runTimers now (debounce wait)))
      (now + wait + lag) a :=
  ⟨rfl, rfl, 1, rfl, rfl⟩

theorem runCalls_awaits {α : Type} (wait : Nat) :
    ∀ (rest : List (Nat × α)) (c : Nat × α) (d : Debounced α),
      AwaitsCall wait d (c.1 + wait) c.2 → IsBurstFrom wait c.1 (rest.map Prod.fst) →
      AwaitsCall wait (runCalls rest d)
        (((c :: rest).getLast (List.cons_ne_nil _ _)).1 + wait)
        ((c :: rest).getLast (List.cons_ne_nil _ _)).2 := by
  intro rest
  induction rest with
  | nil => intro c d h _; exact h
  | cons c2 rest ih =>
    intro c d h hchain
    obtain ⟨hrel, hrest⟩ := hchain
    have hstep : AwaitsCall wait (executedFunction c2.1 c2.2 (runTimers c2.1 d))
        (c2.1 + wait) c2.2 := by
      rw [runTimers_before_due wait c2.1 _ d _ h hrel.2]
      exact executedFunctionLate_awaits wait c2.1 0 _ d _ c2.2 h
    have := ih c2 _ hstep hrest
    rw [List.getLast_cons (List.cons_ne_nil _ _)]
    exact this

theorem runCallsLate_awaits {α : Type} (wait : Nat) :
    ∀ (rest : List (Nat × Nat × α)) (c : Nat × Nat × α) (d : Debounced α),
      AwaitsCall wait d (c.1 + wait + c.2.1) c.2.2 →
      IsBurstFrom wait c.1 (rest.map Prod.fst) →
      AwaitsCall wait (runCallsLate rest d)
        (((c :: rest).getLast (List.cons_ne_nil _ _)).1 + wait +
          ((c :: rest).getLast (List.cons_ne_nil _ _)).2.1)
        ((c :: rest).getLast (List.cons_ne_nil _ _)).2.2 := by
  intro rest
  induction rest with
  | nil => intro c d h _; exact h
  | cons c2 rest ih =>
    intro c d h hchain
    obtain ⟨hrel, hrest⟩ := hchain
    have hstep : AwaitsCall wait (executedFunctionLate c2.1 c2.2.1 c2.2.2 (runTimers c2.1 d))
        (c2.1 + wait + c2.2.1) c2.2.2 := by
      rw [runTimers_before_due wait c2.1 _ d _ h (by omega)]
      exact executedFunctionLate_awaits wait c2.1 c2.2.1 _ d _ c2.2.2 h
    have := ih c2 _ hstep hrest
    rw [List.getLast_cons (List.cons_ne_nil _ _)]
    exact this

theorem burst_awaits_last_call {α : Type} (wait : Nat) (calls : List (Nat × α))
    (hne : calls ≠ []) (hburst : IsBurst wait (calls.map Prod.fst)) :
    AwaitsCall wait (runCalls calls (debounce wait)) ((calls.getLast hne).1 + wait)
      (calls.getLast hne).2 := by
  cases calls with
  | nil => exact absurd rfl hne
  | cons c rest =>
    exact runCalls_awaits wait rest c _ (first_call_awaits wait c.1 0 c.2) hburst

/-- C14: for every wait above 0 and every burst of one or more calls of a function
returned by `debounce(func, wait)`, each call less than `wait` milliseconds after the
one before it, `func` has not been invoked at any time before `wait` milliseconds after
the last call, and at every time from then on it has been invoked exactly once, at
`wait` milliseconds after the last call and with the arguments of the last call, and no
timer is left pending. -/
theorem C14_burst_invokes_func_once {α : Type} (wait : Nat) (hw : 0 < wait)
    (calls : List (Nat × α)) (hne : calls ≠ []) (hburst : IsBurst wait (calls.map Prod.fst))
    (now : Nat) :
    (now < (calls.getLast hne).1 + wait →
        (runTimers now (runCalls calls (debounce wait))).invocations = []) ∧
      ((calls.getLast hne).1 + wait ≤ now →
        (runTimers now (runCalls calls (debounce wait))).invocations =
            [((calls.getLast hne).1 + wait, (calls.getLast hne).2)] ∧
          (runTimers now (runCalls calls (debounce wait))).pending = []) := by
  have _ := hw
  have h := burst_awaits_last_call wait calls hne hburst
  constructor
  · intro hnow
    rw [runTimers_before_due wait now _ _ _ h hnow]
    exact h.2.1
  · intro hnow
    exact runTimers_when_due wait now _ _ _ h hnow

set_option maxRecDepth 100000 in
/-- C14 at ten `resize` events within 50 milliseconds and a wait of 250: one second
after the first event `handleViewportChange` has run once, at 295 milliseconds. -/
theorem C14_burst_invokes_func_once_witness :
    0 < 250 ∧ resizeBurst ≠ [] ∧ IsBurst 250 (resizeBurst.map Prod.fst) ∧
      (runTimers 1000 (runCalls resizeBurst (debounce 250))).invocations = [(295, ())] ∧
      (runTimers 1000 (runCalls resizeBurst (debounce 250))).pending = [] :=
  ⟨by decide, by decide, by decide,
    (C14_burst_invokes_func_once 250 (by decide) resizeBurst (by decide) (by decide) 1000).2
      (by decide)⟩

set_option maxRecDepth 100000 in
/-- Ten `resize` events within 50 milliseconds: up to 294 milliseconds
`handleViewportChange` has not run, and from 295 milliseconds on it has run once. -/
theorem resize_burst_runs_handleViewportChange_once :
    (runTimers 294 (runCalls resizeBurst resizeListener)).invocations = [] ∧
      (runTimers 295 (runCalls resizeBurst resizeListener)).invocations = [(295, ())] ∧
      (runTimers 100000 (runCalls resizeBurst resizeListener)).invocations = [(295, ())] := by
  decide

/-- With a browser that runs timers late, a burst still invokes `func` exactly once and
with the arguments of the last call, at the time at which the timer of the last call
runs: `wait` milliseconds after the last call, plus the lateness of that timer. -/
theorem late_burst_invokes_func_once {α : Type} (wait : Nat)
    (calls : List (Nat × Nat × α)) (hne : calls ≠ [])
    (hburst : IsBurst wait (calls.map Prod.fst)) (now : Nat) :
    (now < (calls.getLast hne).1 + wait + (calls.getLast hne).2.1 →
        (runTimers now (runCallsLate calls (debounce wait))).invocations = []) ∧
      ((calls.getLast hne).1 + wait + (calls.getLast hne).2.1 ≤ now →
        (runTimers now (runCallsLate calls (debounce wait))).invocations =
          [((calls.getLast hne).1 + wait + (calls.getLast hne).2.1,
            (calls.getLast hne).2.2)]) := by
  have h : AwaitsCall wait (runCallsLate calls (debounce wait))
      ((calls.getLast hne).1 + wait + (calls.getLast hne).2.1) (calls.getLast hne).2.2 := by
    cases calls with
    | nil => exact absurd rfl hne
    | cons c rest =>
      exact runCallsLate_awaits wait rest c _ (first_call_awaits wait c.1 c.2.1 c.2.2) hburst
  constructor
  · intro hnow
    rw [runTimers_before_due wait now _ _ _ h hnow]
    exact h.2.1
  · intro hnow
    exact (runTimers_when_due wait now _ _ _ h hnow).1

set_option maxRecDepth 100000 in
/-- Calls that are not a burst: when `wait` milliseconds pass between two calls, `func`
is invoked for each of them. -/
theorem calls_apart_invoke_func_each :
    (runTimers 1000 (runCalls [(0, "a"), (300, "b")] (debounce 250))).invocations =
      [(250, "a"), (550, "b")] := by
  decide

end Portfolio
